import Mathlib

/-!
# funconv: dynamic function-signature adapter

A shallow embedding of `funconv/wrap.go` (package `funconv` of go-midway/midway)
together with the part of Go's `reflect` package the file relies on.

The `reflect` model covers a fragment of Go's types: the predeclared `bool`,
`int` and `string`, defined types, pointers, slices, struct and func types
(both identified by their rendering) and interface types given by their method
lists.  Channels, arrays, maps and the sized numeric types are outside the
fragment.

Three smaller parts of the repository follow in namespaces of their own:
`Chain` of `middleware.go`, the named handles of `db/gormcontext/context.go`
and `Valid` of `cacher/response_cache.go`.
-/

namespace funconv

/-! ## Model of `reflect.Type` -/

/-- Kinds of the modelled types (`reflect.Kind`). -/
inductive Kind
  | Invalid | Bool | Int | String | Ptr | Slice | Struct | Func | Interface
  deriving DecidableEq, Repr

/-- A method: its name and the rendering of its function type. -/
structure Method where
  name : String
  typ : String
  deriving DecidableEq, Repr

/-- Type descriptors.  Two descriptors are equal exactly when the Go types are
identical, which is what `==` on `reflect.Type` decides. -/
inductive GoType
  | bool
  | int
  | string
  | named (name : String) (under : GoType) (methods : List Method)
  | ptr (elem : GoType)
  | slice (elem : GoType)
  | struct (fields : String)
  | func (sig : String)
  | iface (methods : List Method)
  deriving DecidableEq, Repr

/-- Underlying type: defined types are unfolded. -/
def GoType.underlying : GoType → GoType
  | .named _ u _ => GoType.underlying u
  | t => t

/-- The kind of a type, `Type.Kind()`. -/
def GoType.Kind : GoType → Kind
  | .bool => .Bool
  | .int => .Int
  | .string => .String
  | .named _ u _ => GoType.Kind u
  | .ptr _ => .Ptr
  | .slice _ => .Slice
  | .struct _ => .Struct
  | .func _ => .Func
  | .iface _ => .Interface

/-- Whether the type is predeclared or defined (`abi.Type.HasName`). -/
def GoType.HasName : GoType → Bool
  | .bool | .int | .string | .named _ _ _ => true
  | _ => false

/-- Rendering of one interface method inside an interface literal. -/
def methodString (m : Method) : String :=
  m.name ++ m.typ.drop 4

/-- The rendering of a type, `Type.String()`. -/
def GoType.String : GoType → String
  | .bool => "bool"
  | .int => "int"
  | .string => "string"
  | .named n _ _ => n
  | .ptr e => "*" ++ GoType.String e
  | .slice e => "[]" ++ GoType.String e
  | .struct f => if f = "" then "struct \x7b\x7d" else "struct \x7b " ++ f ++ " \x7d"
  | .func s => s
  | .iface [] => "interface \x7b\x7d"
  | .iface ms => "interface \x7b " ++ "; ".intercalate (ms.map methodString) ++ " \x7d"

/-- Methods required by an interface type (empty for other kinds). -/
def GoType.ifaceMethods : GoType → List Method
  | .iface ms => ms
  | .named _ u _ => GoType.ifaceMethods u
  | _ => []

/-- Methods declared on a non-interface type (its uncommon methods): those of a
defined type, and those a pointer to a defined type inherits from it.  The
methods of a defined type are the ones declared on a value receiver; methods
declared on a pointer receiver are outside the fragment. -/
def GoType.uncommonMethods : GoType → List Method
  | .named _ _ ms => ms
  | .ptr (.named _ u ms) => if u.Kind = .Interface ∨ u.Kind = .Ptr then [] else ms
  | _ => []

/-- The method set `implements` searches in a candidate type. -/
def GoType.methodSet (t : GoType) : List Method :=
  if t.Kind = .Interface then t.ifaceMethods else t.uncommonMethods

/-- Function `implements(T, V)` of package reflect: `V` implements the interface
type `T`. -/
def implements (T V : GoType) : Bool :=
  if T.Kind ≠ .Interface then false
  else T.ifaceMethods.all (fun m => V.methodSet.contains m)

/-- Function `haveIdenticalUnderlyingType` of package reflect. -/
def haveIdenticalUnderlyingType (T V : GoType) : Bool :=
  decide (T.underlying = V.underlying)

/-- Function `directlyAssignable(T, V)` of package reflect: a value of type `V`
can be assigned to `T` without boxing. -/
def directlyAssignable (T V : GoType) : Bool :=
  if T = V then true
  else if (T.HasName && V.HasName) || T.Kind ≠ V.Kind then false
  else haveIdenticalUnderlyingType T V

/-- The method `t.AssignableTo(u)`. -/
def GoType.AssignableTo (t u : GoType) : Bool :=
  directlyAssignable u t || implements u t

/-! ## Errors, panics and values -/

/-- The 64-bit wrap-around of Go's `int` arithmetic. -/
def wrapInt (x : Int) : Int :=
  (x + 2 ^ 63) % 2 ^ 64 - 2 ^ 63

/-- The `error` values this package creates. -/
inductive GoError
  | errorf (msg : String)
  | convertError (pos : Int) (err : GoError)
  | mapConverterError (pos : Int) (src : GoType) (dst : GoType)
  | ArgumentError (pos : Int) (err : GoError)
  | RetVarError (pos : Int) (err : GoError)
  deriving DecidableEq, Repr

/-- The `Error()` methods of the error types; `pos+1` is `int` arithmetic. -/
def GoError.Error : GoError → String
  | .errorf msg => msg
  | .convertError pos err => "at " ++ toString pos ++ ", " ++ GoError.Error err
  | .mapConverterError pos src dst =>
    "at " ++ toString pos ++ ", " ++ src.String ++ " cannot be converted to " ++ dst.String
  | .ArgumentError pos err =>
    "argument " ++ toString (wrapInt (pos + 1)) ++ ", " ++ GoError.Error err
  | .RetVarError pos err =>
    "return variable " ++ toString (wrapInt (pos + 1)) ++ ", " ++ GoError.Error err

/-- What a panic carries: a run-time error of Go or of reflect, or the error
value handed to `panic`. -/
inductive PanicVal
  | runtime (msg : String)
  | error (e : GoError)
  deriving DecidableEq, Repr

/-- Outcome of running Go code: it returns, or it panics. -/
inductive Result (α : Type)
  | ret (a : α)
  | panic (p : PanicVal)
  deriving Repr

/-- Payload of a non-interface value. -/
inductive Data
  | bool (b : Bool)
  | int (n : Int)
  | str (s : String)
  | nil
  | ref (id : Nat)
  | slice (elems : List Data)
  | err (e : GoError)
  deriving Repr

/-- A `reflect.Value`: the zero Value, a value of a non-interface kind, or a
value of an interface kind holding nil or a dynamic type with its payload. -/
inductive Value
  | invalid
  | concrete (typ : GoType) (d : Data)
  | iface (typ : GoType) (dyn : Option (GoType × Data))
  deriving Repr

/-- The method `Value.IsValid()`. -/
def Value.IsValid : Value → Bool
  | .invalid => false
  | _ => true

/-- The method `Value.Kind()`; the zero Value has kind Invalid. -/
def Value.Kind : Value → Kind
  | .invalid => .Invalid
  | .concrete t _ => t.Kind
  | .iface _ _ => .Interface

/-- The method `Value.Type()`; it panics on the zero Value. -/
def Value.Type : Value → Result GoType
  | .invalid => .panic (.runtime "reflect: call of reflect.Value.Type on zero Value")
  | .concrete t _ => .ret t
  | .iface t _ => .ret t

/-- The method `Value.Elem()` on a value of interface kind: the value the
interface holds, the zero Value for a nil interface.  Pointers are not
dereferenced in this model and other kinds panic. -/
def Value.Elem : Value → Result Value
  | .iface _ (some (t, d)) => .ret (.concrete t d)
  | .iface _ none => .ret .invalid
  | _ => .panic (.runtime "reflect: call of reflect.Value.Elem on non-interface Value")

/-- The conversions `convertOp` can select in the fragment. -/
inductive ConvOp
  | cvtInt | cvtIntString | cvtDirect | cvtT2I | cvtI2I
  deriving DecidableEq, Repr

/-- Whether both types are pointer literals whose base types have identical
underlying types. -/
def ptrBasesIdentical : GoType → GoType → Bool
  | .ptr a, .ptr b => haveIdenticalUnderlyingType a b
  | _, _ => false

/-- Function `convertOp(dst, src)` of package reflect, on the fragment. -/
def convertOp (dst src : GoType) : Option ConvOp :=
  if src.Kind = .Int ∧ dst.Kind = .Int then some .cvtInt
  else if src.Kind = .Int ∧ dst.Kind = .String then some .cvtIntString
  else if haveIdenticalUnderlyingType dst src then some .cvtDirect
  else if ptrBasesIdentical dst src then some .cvtDirect
  else if implements dst src then
    (if src.Kind = .Interface then some .cvtI2I else some .cvtT2I)
  else none

/-- The string made of one rune, as `string(rune(n))`. -/
def runeString (n : Int) : String :=
  if 0 ≤ n ∧ n.toNat.isValidChar then String.singleton (Char.ofNat n.toNat) else "\uFFFD"

/-- The value with its static type replaced. -/
def Value.retype (t : GoType) : Value → Value
  | .invalid => .invalid
  | .concrete _ d => .concrete t d
  | .iface _ dyn => .iface t dyn

/-- Boxing of a value into the interface type `t` (`cvtT2I`, `cvtI2I`). -/
def Value.box (t : GoType) : Value → Value
  | .invalid => .invalid
  | .concrete s d => .iface t (some (s, d))
  | .iface _ dyn => .iface t dyn

/-- Conversion `cvtIntString`: an integer becomes the string of that rune. -/
def Value.intToString (t : GoType) : Value → Value
  | .concrete _ (.int n) => .concrete t (.str (runeString n))
  | v => v.retype t

/-- The method `Value.Convert(t)`; it panics when no conversion exists. -/
def Value.Convert (v : Value) (t : GoType) : Result Value :=
  match v.Type with
  | .panic p => .panic p
  | .ret s =>
    match convertOp t s with
    | some .cvtInt => .ret (v.retype t)
    | some .cvtIntString => .ret (v.intToString t)
    | some .cvtDirect => .ret (v.retype t)
    | some .cvtT2I => .ret (v.box t)
    | some .cvtI2I => .ret (v.box t)
    | none => .panic (.runtime
        ("reflect.Value.Convert: value of type " ++ s.String ++
          " cannot be converted to type " ++ t.String))

/-- Zero payload of a type, by kind. -/
def zeroData (t : GoType) : Data :=
  match t.Kind with
  | .Bool => .bool false
  | .Int => .int 0
  | .String => .str ""
  | .Struct => .ref 0
  | _ => .nil

/-- Function `reflect.Zero(t)`. -/
def Zero (t : GoType) : Value :=
  if t.Kind = .Interface then .iface t none else .concrete t (zeroData t)

/-- The method `Value.assignTo(context, dst, nil)` of package reflect. -/
def Value.assignTo (context : String) (dst : GoType) (v : Value) : Result Value :=
  match v.Type with
  | .panic p => .panic p
  | .ret s =>
    if directlyAssignable dst s then .ret (v.retype dst)
    else if implements dst s then .ret (v.box dst)
    else .panic (.runtime
      (context ++ ": value of type " ++ s.String ++ " is not assignable to type " ++ dst.String))

/-! ## funconv/wrap.go -/

/-- Type `Converter`: converts one `reflect.Value` into another.  The Go
function returns a value together with an error, or panics. -/
abbrev Converter := Value → Result (Value × Option GoError)

/-- The nil `Converter`, the zero value of a slice element: calling it panics. -/
def nilConverter : Converter :=
  fun _ => .panic (.runtime "invalid memory address or nil pointer dereference")

/-- Loop of the function `makePipe` returns: `i` is the loop index, the list
argument is `in[i:]` and `out` the output slice so far. -/
def makePipeLoop (converters : List Converter) :
    Nat → List Value → List Value → Result (List Value × Option GoError)
  | _, [], out => .ret (out, none)
  | i, v :: rest, out =>
    match converters[i]? with
    | none => .panic (.runtime "index out of range")
    | some conv =>
      match conv v with
      | .panic p => .panic p
      | .ret (d, some err) => .ret (out.set i d, some (.convertError i err))
      | .ret (d, none) => makePipeLoop converters (i + 1) rest (out.set i d)

/-- Function `makePipe`. -/
def makePipe (converters : List Converter) :
    List Value → Result (List Value × Option GoError) :=
  fun inp => makePipeLoop converters 0 inp (List.replicate inp.length Value.invalid)

/-- A converter with side effects on a state of type `σ`. -/
abbrev ConverterSt (σ : Type) := Value → σ → Result (Value × Option GoError) × σ

/-- The loop of `makePipe` over converters with side effects: the state is
threaded through the calls in the order the loop makes them. -/
def makePipeStLoop {σ : Type} (converters : List (ConverterSt σ)) :
    Nat → List Value → List Value → σ → Result (List Value × Option GoError) × σ
  | _, [], out, s => (.ret (out, none), s)
  | i, v :: rest, out, s =>
    match converters[i]? with
    | none => (.panic (.runtime "index out of range"), s)
    | some conv =>
      match conv v s with
      | (.panic p, s1) => (.panic p, s1)
      | (.ret (d, some err), s1) => (.ret (out.set i d, some (.convertError i err)), s1)
      | (.ret (d, none), s1) => makePipeStLoop converters (i + 1) rest (out.set i d) s1

/-- Function `makePipe` over converters with side effects. -/
def makePipeSt {σ : Type} (converters : List (ConverterSt σ)) :
    List Value → σ → Result (List Value × Option GoError) × σ :=
  fun inp s => makePipeStLoop converters 0 inp (List.replicate inp.length Value.invalid) s

/-- A converter without side effects, seen as one that leaves the state alone. -/
def Converter.lift {σ : Type} (conv : Converter) : ConverterSt σ :=
  fun v s => (conv v, s)

/-- The converter `conv` instrumented with a call counter for position `k`:
every call increments counter `k`. -/
def counting (k : Nat) (conv : Converter) : ConverterSt (Nat → Nat) :=
  fun v cnt => (conv v, fun j => if j = k then cnt j + 1 else cnt j)

/-- Every converter of the list instrumented with the counter of its position. -/
def countingAll (converters : List Converter) : List (ConverterSt (Nat → Nat)) :=
  (List.range converters.length).zipWith counting converters

/-- Function `directMap`. -/
def directMap : Converter :=
  fun src => .ret (src, none)

/-- Function `convertToType`. -/
def convertToType (typ : GoType) : Converter :=
  fun src =>
    match src.Convert typ with
    | .panic p => .panic p
    | .ret dest => .ret (dest, none)

/-- Function `reverseConvertToItfType`. -/
def reverseConvertToItfType (typ : GoType) : Converter :=
  fun src =>
    match (if src.Kind = .Interface then src.Elem else .ret src) with
    | .panic p => .panic p
    | .ret srcInner =>
      match srcInner.Type with
      | .panic p => .panic p
      | .ret t =>
        if t = typ then .ret (srcInner, none)
        else if t.AssignableTo typ then
          match srcInner.Convert typ with
          | .panic p => .panic p
          | .ret dest => .ret (dest, none)
        else
          .ret (Value.invalid,
            some (.errorf (t.String ++ " cannot be converted to " ++ typ.String)))

/-- Loop of `findLastError`: `k` is `pos + 1`. -/
def findLastErrorLoop (typs : List GoType) : Nat → Int
  | 0 => -1
  | k + 1 =>
    match typs[k]? with
    | some t => if t.String = "error" then (k : Int) else findLastErrorLoop typs k
    | none => findLastErrorLoop typs k

/-- Function `findLastError`. -/
def findLastError (typs : List GoType) : Int :=
  findLastErrorLoop typs typs.length

/-- The method `t.Implements(u)`; it panics when `u` is not of interface kind. -/
def GoType.Implements (t u : GoType) : Result Bool :=
  if u.Kind ≠ .Interface then
    .panic (.runtime "reflect: non-interface type passed to Type.Implements")
  else .ret (implements u t)

/-- Loop of `MapConverter`: `i` is the loop index, the list argument is
`inTypes[i:]`, then the converter slice and the error variable so far. -/
def MapConverterLoop (outTypes : List GoType) :
    Nat → List GoType → List Converter → Option GoError →
      Result (List Converter × Option GoError)
  | _, [], converters, err => .ret (converters, err)
  | i, tin :: rest, converters, err =>
    match outTypes[i]? with
    | none => .panic (.runtime "index out of range")
    | some tout =>
      if tin = tout then
        MapConverterLoop outTypes (i + 1) rest (converters.set i directMap) err
      else if tin.AssignableTo tout then
        MapConverterLoop outTypes (i + 1) rest (converters.set i (convertToType tout)) err
      else
        match (if tin.Kind = .Interface then tout.Implements tin else .ret false) with
        | .panic p => .panic p
        | .ret true =>
          MapConverterLoop outTypes (i + 1) rest
            (converters.set i (reverseConvertToItfType tout)) err
        | .ret false =>
          MapConverterLoop outTypes (i + 1) rest converters
            (some (.mapConverterError i tin tout))

/-- Function `MapConverter`: maps a converter slice for converting variables of
`inTypes` into `outTypes`. -/
def MapConverter (inTypes outTypes : List GoType) :
    Result (List Converter × Option GoError) :=
  MapConverterLoop outTypes 0 inTypes (List.replicate inTypes.length nilConverter) none

/-! ### Function values, `reflect.Value.Call` and `reflect.MakeFunc` -/

/-- A function type: its rendering, parameter types, result types and whether
it is variadic (the last parameter type is then the slice type). -/
structure FuncType where
  str : String
  ins : List GoType
  outs : List GoType
  variadic : Bool

/-- The body of a Go function: from the argument values to the result values. -/
abbrev GoFunc := List Value → Result (List Value)

/-- What a pointer can point to: a variable of function type with its current
content (`none` is the nil function), or a variable of another type. -/
inductive Pointee
  | funcVar (typ : FuncType) (fn : Option GoFunc)
  | otherVar (typ : String)

/-- A value of type `interface{}` as `WrapAs` receives it: nil, a function
value (possibly a nil function of that type), a pointer (possibly nil), or a
value of any other kind, known by the rendering of its type. -/
inductive Iface
  | nil
  | func (typ : FuncType) (fn : Option GoFunc)
  | ptr (typ : String) (elem : Option Pointee)
  | other (typ : String)

/-- The verb `%T` of package fmt. -/
def Iface.typeString : Iface → String
  | .nil => "<nil>"
  | .func typ _ => typ.str
  | .ptr typ _ => typ
  | .other typ => typ

/-- The payload a value contributes as a slice element. -/
def Value.toData : Value → Data
  | .invalid => .nil
  | .concrete _ d => d
  | .iface _ none => .nil
  | .iface _ (some (_, d)) => d

/-- Check that every argument is assignable to its parameter type, the first
pass of `Value.call` over the fixed parameters. -/
def checkArgs : List GoType → List Value → Result Unit
  | [], _ => .ret ()
  | _ :: _, [] => .ret ()
  | targ :: ts, x :: xs =>
    match x.Type with
    | .panic p => .panic p
    | .ret xt =>
      if xt.AssignableTo targ then checkArgs ts xs
      else .panic (.runtime
        ("reflect: Call using " ++ xt.String ++ " as type " ++ targ.String))

/-- Check that every variadic argument is assignable to the element type. -/
def checkVariadic (elem : GoType) : List Value → Result Unit
  | [] => .ret ()
  | x :: xs =>
    match x.Type with
    | .panic p => .panic p
    | .ret xt =>
      if xt.AssignableTo elem then checkVariadic elem xs
      else .panic (.runtime
        ("reflect: cannot use " ++ xt.String ++ " as type " ++ elem.String ++ " in Call"))

/-- The element type of a slice type. -/
def GoType.Elem : GoType → GoType
  | .slice e => e
  | .ptr e => e
  | .named _ u _ => GoType.Elem u
  | t => t

/-- Assign each argument to its parameter type, the last pass of `Value.call`. -/
def assignArgs : List GoType → List Value → Result (List Value)
  | [], _ => .ret []
  | _ :: _, [] => .panic (.runtime "index out of range")
  | targ :: ts, x :: xs =>
    match x.assignTo "reflect.Value.Call" targ with
    | .panic p => .panic p
    | .ret w =>
      match assignArgs ts xs with
      | .panic p => .panic p
      | .ret ws => .ret (w :: ws)

/-- The method `Value.Call(in)` on a function value of type `typ`. -/
def Call (typ : FuncType) (fn : Option GoFunc) (args : List Value) : Result (List Value) :=
  match fn with
  | none => .panic (.runtime "reflect.Value.Call: call of nil function")
  | some f =>
    let n := if typ.variadic then typ.ins.length - 1 else typ.ins.length
    if args.length < n then
      .panic (.runtime "reflect: Call with too few input arguments")
    else if !typ.variadic && args.length > n then
      .panic (.runtime "reflect: Call with too many input arguments")
    else if args.any (fun x => x.Kind = .Invalid) then
      .panic (.runtime "reflect: Call using zero Value argument")
    else
      match checkArgs (typ.ins.take n) args with
      | .panic p => .panic p
      | .ret _ =>
        if typ.variadic then
          match typ.ins[n]? with
          | none => .panic (.runtime "index out of range")
          | some st =>
            match checkVariadic st.Elem (args.drop n) with
            | .panic p => .panic p
            | .ret _ =>
              match assignArgs typ.ins
                (args.take n ++
                  [Value.concrete st (.slice ((args.drop n).map Value.toData))]) with
              | .panic p => .panic p
              | .ret xs => f xs
        else
          match assignArgs typ.ins args with
          | .panic p => .panic p
          | .ret xs => f xs

/-- Assign the values a `MakeFunc` closure returned to the result types. -/
def assignResults : List GoType → List Value → Result (List Value)
  | [], _ => .ret []
  | _ :: _, [] => .panic (.runtime "index out of range")
  | typ :: ts, v :: vs =>
    if !v.IsValid then
      .panic (.runtime "reflect: function created by MakeFunc using closure returned zero Value")
    else
      match v.assignTo "reflect.MakeFunc" typ with
      | .panic p => .panic p
      | .ret w =>
        match assignResults ts vs with
        | .panic p => .panic p
        | .ret ws => .ret (w :: ws)

/-- Function `reflect.MakeFunc(typ, fn)`: the function of type `typ` that runs
`fn` on its arguments and hands back the values `fn` returns. -/
def MakeFunc (typ : FuncType) (fn : GoFunc) : GoFunc :=
  fun args =>
    match fn args with
    | .panic p => .panic p
    | .ret out =>
      if out.length ≠ typ.outs.length then
        .panic (.runtime "reflect: wrong return count from function created by MakeFunc")
      else assignResults typ.outs out

/-- The pointer type to a struct type of the given name that has an `Error`
method. -/
def errorStructPtr (name fields : String) : GoType :=
  .ptr (.named name (.struct fields) [⟨"Error", "func() string"⟩])

/-- The dynamic type of an error value. -/
def GoError.dynType : GoError → GoType
  | .errorf _ => errorStructPtr "errors.errorString" "s string"
  | .convertError _ _ => errorStructPtr "funconv.convertError" "pos int; err error"
  | .mapConverterError _ _ _ =>
    errorStructPtr "funconv.mapConverterError" "pos int; from reflect.Type; to reflect.Type"
  | .ArgumentError _ _ => errorStructPtr "funconv.ArgumentError" "pos int; err error"
  | .RetVarError _ _ => errorStructPtr "funconv.RetVarError" "pos int; err error"

/-- Function `reflect.ValueOf` on an error value. -/
def ValueOfError (err : GoError) : Value :=
  .concrete err.dynType (.err err)

/-- The default `handleError` of `WrapAs`: panic with the error. -/
def handleErrorPanic : GoError → List Value → Result (List Value) :=
  fun err _ => .panic (.error err)

/-- The loop of the second `handleError`: `i` is the loop index and the list
argument is `outerOutTypes[i:]`. -/
def initOutLoop (pos : Nat) : Nat → List GoType → List Value → Result (List Value)
  | _, [], out => .ret out
  | i, typ :: rest, out =>
    if i ≠ pos then
      match out[i]? with
      | none => .panic (.runtime "index out of range")
      | some v =>
        if !v.IsValid then initOutLoop pos (i + 1) rest (out.set i (Zero typ))
        else initOutLoop pos (i + 1) rest out
    else initOutLoop pos (i + 1) rest out

/-- The `handleError` of `WrapAs` when the target has an error return at `pos`. -/
def handleErrorSlot (outerOutTypes : List GoType) (pos : Nat) :
    GoError → List Value → Result (List Value) :=
  fun err out =>
    match initOutLoop pos 0 outerOutTypes out with
    | .panic p => .panic p
    | .ret out1 =>
      match outerOutTypes[pos]? with
      | none => .panic (.runtime "index out of range")
      | some typ =>
        match (ValueOfError err).Convert typ with
        | .panic p => .panic p
        | .ret v =>
          if pos < out1.length then .ret (out1.set pos v)
          else .panic (.runtime "index out of range")

/-- The closure `WrapAs` hands to `reflect.MakeFunc`. -/
def wrapped (srcFuncType : FuncType) (srcFn : Option GoFunc)
    (funcIn funcOut : List Value → Result (List Value × Option GoError))
    (handleError : GoError → List Value → Result (List Value)) (numOut : Nat) : GoFunc :=
  fun inp =>
    match funcIn inp with
    | .panic p => .panic p
    | .ret (_, some (.convertError pos err)) =>
      handleError (.ArgumentError pos err) (List.replicate numOut Value.invalid)
    | .ret (_, some _) => .panic (.runtime "interface conversion: error is not *funconv.convertError")
    | .ret (innerIn, none) =>
      match Call srcFuncType srcFn innerIn with
      | .panic p => .panic p
      | .ret innerOut =>
        match funcOut innerOut with
        | .panic p => .panic p
        | .ret (out, some (.convertError pos err)) => handleError (.RetVarError pos err) out
        | .ret (_, some _) =>
          .panic (.runtime "interface conversion: error is not *funconv.convertError")
        | .ret (out, none) => .ret out

/-- The message `WrapAs` makes of the `*mapConverterError` of `MapConverter`,
under the given label; the type assertion panics on any other error. -/
def mapErrorMessage (label : String) : GoError → Result String
  | .mapConverterError pos src dst =>
    .ret (label ++ " " ++ toString (wrapInt (pos + 1)) ++ ", " ++ src.String ++
      " cannot be converted " ++ dst.String)
  | _ => .panic (.runtime "interface conversion: error is not *funconv.mapConverterError")

/-- The part of `WrapAs` after the kind checks, on the type and value of the
source function and the type of the function variable: the error, or the
function to store. -/
def wrapFunc (srcFuncType : FuncType) (srcFn : Option GoFunc) (destFuncValType : FuncType) :
    Result (Except GoError GoFunc) :=
  if srcFuncType.ins.length ≠ destFuncValType.ins.length then
    .ret (.error (.errorf ("argument mismatch, srcFunc(" ++
      toString srcFuncType.ins.length ++ ") != destFunc(" ++
      toString destFuncValType.ins.length ++ ")")))
  else if srcFuncType.outs.length ≠ destFuncValType.outs.length then
    .ret (.error (.errorf ("return mismatch, srcFunc(" ++
      toString srcFuncType.outs.length ++ ") != destFunc(" ++
      toString destFuncValType.outs.length ++ ")")))
  else if srcFuncType.variadic && !destFuncValType.variadic then
    .ret (.error (.errorf "srcFunc is variadic function while destFunc is not"))
  else if !srcFuncType.variadic && destFuncValType.variadic then
    .ret (.error (.errorf "destFunc is variadic function while srcFunc is not"))
  else
    let numOut := srcFuncType.outs.length
    let outerInTypes := destFuncValType.ins
    let innerInTypes := srcFuncType.ins
    match MapConverter outerInTypes innerInTypes with
    | .panic p => .panic p
    | .ret (_, some innerErr) =>
      match mapErrorMessage "argument" innerErr with
      | .panic p => .panic p
      | .ret msg => .ret (.error (.errorf msg))
    | .ret (inConverters, none) =>
      let funcIn := makePipe inConverters
      let outerOutTypes := destFuncValType.outs
      let innerOutTypes := srcFuncType.outs
      match MapConverter innerOutTypes outerOutTypes with
      | .panic p => .panic p
      | .ret (_, some innerErr) =>
        match mapErrorMessage "return variable" innerErr with
        | .panic p => .panic p
        | .ret msg => .ret (.error (.errorf msg))
      | .ret (outConverters, none) =>
        let funcOut := makePipe outConverters
        let pos := findLastError outerOutTypes
        let handleError :=
          if pos ≥ 0 then handleErrorSlot outerOutTypes pos.toNat else handleErrorPanic
        .ret (.ok (MakeFunc destFuncValType
          (wrapped srcFuncType srcFn funcIn funcOut handleError numOut)))

/-- Function `WrapAs`: it returns the error together with `destFunc` as it is
after the call; the function variable it points to holds the wrapped function
when the call succeeded and is left alone otherwise. -/
def WrapAs (srcFunc destFunc : Iface) : Result (Option GoError × Iface) :=
  match srcFunc, destFunc with
  | .nil, _ => .ret (some (.errorf "srcFunc cannot be nil"), destFunc)
  | _, .nil => .ret (some (.errorf "destFunc cannot be nil"), destFunc)
  | .ptr _ _, _ | .other _, _ =>
    .ret (some (.errorf ("srcFunc needs to be a function, got " ++ srcFunc.typeString)),
      destFunc)
  | .func _ _, .func _ _ | .func _ _, .other _ =>
    .ret (some (.errorf ("destFunc needs to be a pointer of function variable, got " ++
      srcFunc.typeString)), destFunc)
  | .func _ _, .ptr _ none | .func _ _, .ptr _ (some (.otherVar _)) =>
    .ret (some (.errorf ("destFunc needs to be a pointer of function variable, got " ++
      srcFunc.typeString)), destFunc)
  | .func srcFuncType srcFn, .ptr ptyp (some (.funcVar destFuncValType _)) =>
    match wrapFunc srcFuncType srcFn destFuncValType with
    | .panic p => .panic p
    | .ret (.error err) => .ret (some err, destFunc)
    | .ret (.ok resultFunc) =>
      .ret (none, .ptr ptyp (some (.funcVar destFuncValType (some resultFunc))))

/-- Whether an `interface{}` value is of function kind. -/
def Iface.isFunc : Iface → Bool
  | .func _ _ => true
  | _ => false

/-! ### Types and functions of the package tests -/

/-- The predeclared type `error`. -/
def errorType : GoType :=
  .named "error" (.iface [⟨"Error", "func() string"⟩]) []

/-- The type `interface{}`. -/
def emptyInterface : GoType :=
  .iface []

/-- The type `context.Context`. -/
def contextType : GoType :=
  .named "context.Context"
    (.iface [⟨"Deadline", "func() (time.Time, bool)"⟩, ⟨"Done", "func() <-chan struct {}"⟩,
      ⟨"Err", "func() error"⟩, ⟨"Value", "func(interface {}) interface {}"⟩]) []

/-- The type of `lengthFunc` in `wrap_test.go`. -/
def lengthFuncType : FuncType :=
  ⟨"func(context.Context, string) (int, error)", [contextType, .string],
    [.int, errorType], false⟩

/-- The function `lengthFunc` of `wrap_test.go`: `len(name)`, the length of the
name in bytes, and a nil error. -/
def lengthFunc : GoFunc
  | [_, .concrete _ (.str name)] =>
    .ret [.concrete .int (.int name.utf8ByteSize), .iface errorType none]
  | _ => .panic (.runtime "lengthFunc: ill-typed call")

/-- The type of `lengthArray` in `wrap_test.go`, a variadic function. -/
def lengthArrayType : FuncType :=
  ⟨"func(context.Context, ...string) (int, error)", [contextType, .slice .string],
    [.int, errorType], true⟩

/-- The type of the variable `destFunc` of `TestWrap_variadicCheck`. -/
def destFuncType : FuncType :=
  ⟨"func(string, string) (interface {}, error)", [.string, .string],
    [emptyInterface, errorType], false⟩

/-- The type of the variable `endpoint` of `TestWrap_endpoint`. -/
def endpointType : FuncType :=
  ⟨"func(context.Context, interface {}) (interface {}, error)", [contextType, emptyInterface],
    [emptyInterface, errorType], false⟩

/-- The type `func(string) int` of `innerFunc1` in `wrap_test.go`. -/
def innerFunc1Type : FuncType :=
  ⟨"func(string) int", [.string], [.int], false⟩

/-- The type `func(int) int` of the variable `endpoint` of `TestWrap_argTypeMismatch`. -/
def intEndpointType : FuncType :=
  ⟨"func(int) int", [.int], [.int], false⟩

/-- The type `func(string) string` of the variable `endpoint` of
`TestWrap_retTypeMismatch`. -/
def stringEndpointType : FuncType :=
  ⟨"func(string) string", [.string], [.string], false⟩

/-- A source type `func(int, int)` with two arguments. -/
def twoIntsType : FuncType :=
  ⟨"func(int, int)", [.int, .int], [], false⟩

/-- A target type `func(string, string)`: neither argument converts to `int`. -/
def twoStringsType : FuncType :=
  ⟨"func(string, string)", [.string, .string], [], false⟩

/-- A source type `func() (int, interface{}, error)`. -/
def tripleSrcType : FuncType :=
  ⟨"func() (int, interface {}, error)", [], [.int, emptyInterface, errorType], false⟩

/-- A target type `func() (int, string, error)`. -/
def tripleDestType : FuncType :=
  ⟨"func() (int, string, error)", [], [.int, .string, errorType], false⟩

/-- A source function of type `tripleSrcType` that returns `(5, 123, nil)`. -/
def tripleFunc : GoFunc :=
  fun _ => .ret [.concrete .int (.int 5), .iface emptyInterface (some (.int, .int 123)),
    .iface errorType none]

/-- The type of `faultyFunc` in `TestWrap_endpointPanic`. -/
def faultyFuncType : FuncType :=
  ⟨"func(context.Context, string) interface {}", [contextType, .string], [emptyInterface],
    false⟩

/-- The function `faultyFunc` of `TestWrap_endpointPanic`: it returns the string
"some length" as an `interface{}`. -/
def faultyFunc : GoFunc :=
  fun _ => .ret [.iface emptyInterface (some (.string, .str "some length"))]

/-- The type of the variable `endpoint` of `TestWrap_endpointPanic`. -/
def intResultType : FuncType :=
  ⟨"func(context.Context, string) int", [contextType, .string], [.int], false⟩

/-- The type `func(string) int` of `lengthFunc` in `TestWrap_passthrough`. -/
def lengthOfType : FuncType :=
  ⟨"func(string) int", [.string], [.int], false⟩

/-- The function `lengthFunc` of `TestWrap_passthrough`: `len(name)`, the length
of the name in bytes. -/
def lengthOf : GoFunc
  | [.concrete _ (.str name)] => .ret [.concrete .int (.int name.utf8ByteSize)]
  | _ => .panic (.runtime "lengthFunc: ill-typed call")

/-- The function `lengthArray` of `wrap_test.go`: the number of names, and a nil
error. It receives the names as one slice, its variadic parameter. -/
def lengthArray : GoFunc
  | [_, .concrete _ (.slice names)] =>
    .ret [.concrete .int (.int names.length), .iface errorType none]
  | _ => .panic (.runtime "lengthArray: ill-typed call")

/-- A source function of type `tripleSrcType` that returns `(5, nil, nil)`: its
`interface{}` result holds nil. -/
def tripleNilFunc : GoFunc :=
  fun _ => .ret [.concrete .int (.int 5), .iface emptyInterface none, .iface errorType none]

/-- A source type `func() (error, interface{})`, with the error first. -/
def errFirstSrcType : FuncType :=
  ⟨"func() (error, interface {})", [], [errorType, emptyInterface], false⟩

/-- A target type `func() (error, string)`. -/
def errFirstDestType : FuncType :=
  ⟨"func() (error, string)", [], [errorType, .string], false⟩

/-- A source function of type `errFirstSrcType` that returns a non-nil error,
"source failed", and the number 123. -/
def errFirstFunc : GoFunc :=
  fun _ => .ret [.iface errorType
      (some ((GoError.errorf "source failed").dynType, .err (.errorf "source failed"))),
    .iface emptyInterface (some (.int, .int 123))]

/-- A variadic source type `func(string, ...string) (int, error)`. -/
def nameCountType : FuncType :=
  ⟨"func(string, ...string) (int, error)", [.string, .slice .string], [.int, errorType], true⟩

/-- A source function of type `nameCountType`: the length of the name in bytes
plus the number of further names, and a nil error. -/
def nameCount : GoFunc
  | [.concrete _ (.str name), .concrete _ (.slice more)] =>
    .ret [.concrete .int (.int (name.utf8ByteSize + more.length)), .iface errorType none]
  | _ => .panic (.runtime "nameCount: ill-typed call")

/-- A variadic target type `func(interface{}, ...string) (interface{}, error)`. -/
def anyNameCountType : FuncType :=
  ⟨"func(interface {}, ...string) (interface {}, error)", [emptyInterface, .slice .string],
    [emptyInterface, errorType], true⟩

/-! ### The adapted function -/

/-- The error handler `WrapAs` selects from the return types of the target:
through the last `error` return when there is one, by panic otherwise. -/
def selectHandler (outerOutTypes : List GoType) : GoError → List Value → Result (List Value) :=
  if findLastError outerOutTypes ≥ 0 then
    handleErrorSlot outerOutTypes (findLastError outerOutTypes).toNat
  else handleErrorPanic

/-- The function `WrapAs` stores in the function variable, `resultFunc`, for the
converter slices `MapConverter` returned. -/
def adapted (srcFuncType : FuncType) (srcFn : Option GoFunc) (destFuncValType : FuncType)
    (inConverters outConverters : List Converter) : GoFunc :=
  MakeFunc destFuncValType
    (wrapped srcFuncType srcFn (makePipe inConverters) (makePipe outConverters)
      (selectHandler destFuncValType.outs) srcFuncType.outs.length)

/-- The value has static type `t`, in the representation of the kind of `t`. -/
def Value.hasType (t : GoType) : Value → Bool
  | .invalid => false
  | .concrete s _ => decide (s = t) && decide (t.Kind ≠ .Interface)
  | .iface s _ => decide (s = t) && decide (t.Kind = .Interface)

/-- The values have the types of the list, position by position. -/
def hasTypes : List GoType → List Value → Bool
  | [], [] => true
  | t :: ts, v :: vs => v.hasType t && hasTypes ts vs
  | _, _ => false

/-- The type `reverseConvertToItfType` inspects: the dynamic type of the payload
of an interface value, the type of any other value. -/
def Value.dynamicType : Value → Option GoType
  | .invalid => none
  | .concrete t _ => some t
  | .iface _ none => none
  | .iface _ (some (t, _)) => some t

/-- A function with side effects on a state of type `σ`. -/
abbrev GoFuncSt (σ : Type) := List Value → σ → Result (List Value) × σ

/-- The closure `WrapAs` hands to `reflect.MakeFunc`, with the call of the source
function made through `call`, an operation with side effects. -/
def wrappedSt {σ : Type} (call : GoFuncSt σ)
    (funcIn funcOut : List Value → Result (List Value × Option GoError))
    (handleError : GoError → List Value → Result (List Value)) (numOut : Nat) : GoFuncSt σ :=
  fun inp s =>
    match funcIn inp with
    | .panic p => (.panic p, s)
    | .ret (_, some (.convertError pos err)) =>
      (handleError (.ArgumentError pos err) (List.replicate numOut Value.invalid), s)
    | .ret (_, some _) =>
      (.panic (.runtime "interface conversion: error is not *funconv.convertError"), s)
    | .ret (innerIn, none) =>
      match call innerIn s with
      | (.panic p, s1) => (.panic p, s1)
      | (.ret innerOut, s1) =>
        match funcOut innerOut with
        | .panic p => (.panic p, s1)
        | .ret (out, some (.convertError pos err)) => (handleError (.RetVarError pos err) out, s1)
        | .ret (_, some _) =>
          (.panic (.runtime "interface conversion: error is not *funconv.convertError"), s1)
        | .ret (out, none) => (.ret out, s1)

/-- Function `reflect.MakeFunc` over a closure with side effects. -/
def MakeFuncSt {σ : Type} (typ : FuncType) (fn : GoFuncSt σ) : GoFuncSt σ :=
  fun args s =>
    match fn args s with
    | (.panic p, s1) => (.panic p, s1)
    | (.ret out, s1) =>
      if out.length ≠ typ.outs.length then
        (.panic (.runtime "reflect: wrong return count from function created by MakeFunc"), s1)
      else (assignResults typ.outs out, s1)

/-- The call `srcFuncVal.Call(innerIn)` instrumented with a log: every call
appends its argument list to the log. -/
def loggedCall (srcFuncType : FuncType) (srcFn : Option GoFunc) : GoFuncSt (List (List Value)) :=
  fun innerIn log => (Call srcFuncType srcFn innerIn, log ++ [innerIn])

/-- The adapted function with the call of the source instrumented by the log. -/
def adaptedLogged (srcFuncType : FuncType) (srcFn : Option GoFunc) (destFuncValType : FuncType)
    (inConverters outConverters : List Converter) : GoFuncSt (List (List Value)) :=
  MakeFuncSt destFuncValType
    (wrappedSt (loggedCall srcFuncType srcFn) (makePipe inConverters) (makePipe outConverters)
      (selectHandler destFuncValType.outs) srcFuncType.outs.length)

/-- The argument `a`, of the target's parameter type `I`, carries the value `b`
of the source's parameter type `C`: the two types are the same and `b` is `a`,
or `I` is an interface type which the non-interface type `C` implements and `a`
is the interface value holding the payload of `b`, of dynamic type `C`. -/
def carries (I C : GoType) (a b : Value) : Prop :=
  (I = C ∧ a.Type = .ret C ∧ b = a) ∨
  (I.Kind = .Interface ∧ C.Kind ≠ .Interface ∧ implements I C = true ∧
    ∃ d, a = .iface I (some (C, d)) ∧ b = .concrete C d)

/-! ## Specification side -/

/-- The resolution strategies of the specification, in priority order. -/
inductive Strategy
  | identity | assignability | unwrap | incompatible
  deriving DecidableEq, Repr

/-- The strategy the specification prescribes for one position: identity, then
assignability, then interface satisfaction in the reverse direction, first
match wins. -/
def specStrategy (tin tout : GoType) : Strategy :=
  if tin = tout then .identity
  else if tin.AssignableTo tout then .assignability
  else if tin.Kind = .Interface ∧ implements tin tout then .unwrap
  else .incompatible

/-- The converter a strategy stands for; an incompatible position keeps `old`. -/
def slot (tin tout : GoType) (old : Converter) : Converter :=
  match specStrategy tin tout with
  | .identity => directMap
  | .assignability => convertToType tout
  | .unwrap => reverseConvertToItfType tout
  | .incompatible => old

/-- The error variable after a position has been resolved. -/
def slotErr (i : Nat) (tin tout : GoType) (err : Option GoError) : Option GoError :=
  match specStrategy tin tout with
  | .incompatible => some (.mapConverterError i tin tout)
  | _ => err

end funconv

/-! ## middleware.go -/

namespace midway

/-- Type `Middleware` of `middleware.go`, over handlers of type `H`. -/
abbrev Middleware (H : Type) := H → H

/-- The loop of `Chain`: the index runs from `k - 1` down to `0`, and each step
wraps `inner` in the middleware at the index. -/
def ChainLoop {H : Type} (mwares : List (Middleware H)) :
    (k : Nat) → k ≤ mwares.length → H → H
  | 0, _, inner => inner
  | k + 1, hk, inner => ChainLoop mwares k (Nat.le_of_succ_le hk) (mwares.get ⟨k, hk⟩ inner)

/-- Function `Chain` of `middleware.go`. -/
def Chain {H : Type} (mwares : List (Middleware H)) : Middleware H :=
  fun inner => ChainLoop mwares mwares.length (Nat.le_refl _) inner

/-- A handler that serves a request by transforming a state of type `σ`: the
effects of `ServeHTTP`. -/
abbrev Handler (σ : Type) := σ → σ

/-- A middleware in the shape of the ones in `TestChain`: the handler it
returns performs the action `act` and then serves with `inner`. -/
def before {σ : Type} (act : σ → σ) : Middleware (Handler σ) :=
  fun inner s => inner (act s)

end midway

/-! ## db/gormcontext/context.go -/

namespace gormcontext

/-- A `*gorm.DB`: nil, or the address of a handle. -/
abbrev DB := Option Nat

/-- The keys of context values: the two key types of this package, and the keys
of other packages, which differ from them by their type. -/
inductive Key
  | contextKey (n : Int)
  | contextStrKey (s : String)
  | foreign (typ : String) (id : String)
  deriving DecidableEq, Repr

/-- A value of type `interface{}` stored in a context: nil, a `*gorm.DB`, or a
value of another type. -/
inductive Any
  | nil
  | db (d : DB)
  | other (typ : String)
  deriving DecidableEq, Repr

/-- A non-nil `context.Context`: the background context, a context made by
`context.WithValue`, or a cancellation context, which holds no value of its
own. -/
inductive Context
  | background
  | valueCtx (parent : Context) (key : Key) (val : Any)
  | cancelCtx (parent : Context)
  deriving Repr

/-- Method `Value` of `context.Context`: the value of the nearest enclosing
`WithValue` with an equal key, nil when there is none. -/
def Context.Value : Context → Key → Any
  | .background, _ => .nil
  | .valueCtx parent key val, k => if key = k then val else parent.Value k
  | .cancelCtx parent, k => parent.Value k

/-- The keys under which a context holds a value, nearest first. -/
def Context.keys : Context → List Key
  | .background => []
  | .valueCtx parent key _ => key :: parent.keys
  | .cancelCtx parent => parent.keys

/-- Function `context.WithValue` on a non-nil parent. -/
def WithValue (parent : Context) (key : Key) (val : Any) : Context :=
  .valueCtx parent key val

/-- The constant `dbCtxKey`. -/
def dbCtxKey : Key := .contextKey 0

/-- Function `WithDB` of `context.go`. -/
def WithDB (parent : Context) (db : DB) : Context :=
  WithValue parent dbCtxKey (.db db)

/-- Function `GetDB` of `context.go`: the type assertion to `*gorm.DB` leaves nil
when the value is of another type. -/
def GetDB (ctx : Context) : DB :=
  match ctx.Value dbCtxKey with
  | .db d => d
  | _ => none

/-- Function `WithNamedDB` of `context.go`. -/
def WithNamedDB (parent : Context) (name : String) (db : DB) : Context :=
  WithValue parent (.contextStrKey name) (.db db)

/-- Function `GetNamedDB` of `context.go`. -/
def GetNamedDB (ctx : Context) (name : String) : DB :=
  match ctx.Value (.contextStrKey name) with
  | .db d => d
  | _ => none

end gormcontext

/-! ## cacher/response_cache.go -/

namespace cacher

/-- A `time.Time`, as the instant it denotes. -/
structure Time where
  instant : Int
  deriving DecidableEq, Repr

/-- Method `After` of `time.Time`. -/
def Time.After (t u : Time) : Bool :=
  decide (u.instant < t.instant)

/-- The errors of `parseTime`: the constant `HeaderNotExists` of type `Error`,
and the two errors `parseRFC2612` makes with `fmt.Errorf`, known by their
arguments. -/
inductive Error
  | HeaderNotExists
  | incorrectTime (str : String)
  | cannotParse (str layout : String)
  deriving DecidableEq, Repr

/-- An `http.Header`: the values under each canonical key. The nil map has no
value under any key. -/
structure Header where
  values : String → List String

/-- Method `Get` of `http.Header`, for a key in canonical form: the first value
under the key, the empty string when there is none. -/
def Header.Get (header : Header) (key : String) : String :=
  match header.values key with
  | [] => ""
  | v :: _ => v

/-- The nil `http.Header`. -/
def nilHeader : Header :=
  ⟨fun _ => []⟩

/-- The constant `fmtRFC2612`. -/
def fmtRFC2612 : String :=
  "Mon, 02 Jan 2006 15:04:05 GMT"

/-- Function `parseRFC2612`; `timeParse` is `time.Parse` of the standard library,
by layout and value. The last three bytes of the string are replaced by "GMT"
before parsing; the cut is the one of Go on strings of one-byte characters, as
every string the layout accepts is. -/
def parseRFC2612 (timeParse : String → String → Option Time) (str : String) :
    Except Error Time :=
  if str.utf8ByteSize < 3 then .error (.incorrectTime str)
  else
    match timeParse fmtRFC2612 (str.extract 0 ⟨str.utf8ByteSize - 3⟩ ++ "GMT") with
    | some t => .ok t
    | none => .error (.cannotParse str fmtRFC2612)

/-- Function `parseTime`. -/
def parseTime (timeParse : String → String → Option Time) (header : Header) (name : String) :
    Except Error Time :=
  if header.Get name = "" then .error .HeaderNotExists
  else parseRFC2612 timeParse (header.Get name)

/-- A `ResponseCache`, by the fields `Header` reads: the wrapped response
writer, known by the header map it returns, and the header loaded from the
cache. -/
structure ResponseCache where
  responseWriter : Option Header
  CachedHeader : Header

/-- Method `Header` of `*ResponseCache`; the receiver may be nil. -/
def ResponseCache.Header : Option ResponseCache → Header
  | none => nilHeader
  | some cache =>
    match cache.responseWriter with
    | some w => w
    | none => cache.CachedHeader

/-- Function `Valid`, for a non-nil request, of which only the loggers are
used. `nowGrace` is the reading of `time.Now()` in the check of
X-Grace-Expires and `nowExpires` the one in the check of Expires; the lines
written to the loggers are left out. -/
def Valid (timeParse : String → String → Option Time) (nowGrace nowExpires : Time)
    (cache : Option ResponseCache) : Bool :=
  let graced :=
    match parseTime timeParse (ResponseCache.Header cache) "X-Grace-Expires" with
    | .ok expires => expires.After nowGrace
    | .error _ => false
  if graced then true
  else
    match parseTime timeParse (ResponseCache.Header cache) "Expires" with
    | .ok expires => expires.After nowExpires
    | .error _ => false

/-- The header `name` is present, parses as a time, and that time is after
`now`. -/
def fresh (timeParse : String → String → Option Time) (now : Time) (header : Header)
    (name : String) : Prop :=
  header.Get name ≠ "" ∧
    ∃ t, parseRFC2612 timeParse (header.Get name) = .ok t ∧ t.instant > now.instant

/-- A parser that knows two time strings: the reference time of the layout, and
the time one minute before it. -/
def parseReference : String → String → Option Time :=
  fun _ value =>
    if value = "Mon, 02 Jan 2006 15:04:05 GMT" then some ⟨1136214245⟩
    else if value = "Mon, 02 Jan 2006 15:03:05 GMT" then some ⟨1136214185⟩
    else none

/-- A cache whose loaded header has the given Expires and X-Grace-Expires
values. -/
def cacheWith (expires grace : List String) : Option ResponseCache :=
  some ⟨none, ⟨fun key =>
    if key = "Expires" then expires else if key = "X-Grace-Expires" then grace else []⟩⟩

end cacher

namespace funconv

/-! ## Theorems -/

theorem implements_guard (tin tout : GoType) :
    (if tin.Kind = .Interface then tout.Implements tin else Result.ret false) =
      .ret (decide (tin.Kind = .Interface ∧ implements tin tout = true)) := by
  unfold GoType.Implements
  by_cases h : tin.Kind = .Interface
  · simp [h]
  · simp [h]

theorem set_getD_self {α : Type} (l : List α) (i : Nat) (d : α) :
    l.set i (l[i]?.getD d) = l := by
  apply List.ext_getElem?
  intro j
  rw [List.getElem?_set]
  by_cases hij : i = j
  · subst hij
    by_cases hi : i < l.length
    · simp [hi]
    · simp [hi]
      omega
  · simp [hij]

theorem MapConverterLoop_cons {outTypes : List GoType} {i : Nat} {tout : GoType}
    (h : outTypes[i]? = some tout) (tin : GoType) (rest : List GoType)
    (convs : List Converter) (err : Option GoError) :
    MapConverterLoop outTypes i (tin :: rest) convs err =
      MapConverterLoop outTypes (i + 1) rest
        (convs.set i (slot tin tout (convs[i]?.getD nilConverter))) (slotErr i tin tout err) := by
  rw [MapConverterLoop]
  simp only [h]
  unfold slot slotErr specStrategy
  by_cases h1 : tin = tout
  · simp [h1]
  · by_cases h2 : tin.AssignableTo tout = true
    · simp [h1, h2]
    · rw [implements_guard]
      by_cases h3 : tin.Kind = .Interface ∧ implements tin tout = true
      · simp [h1, h2, h3]
      · simp [h1, h2, h3, set_getD_self]

theorem MapConverterLoop_inv (outTypes : List GoType) :
    ∀ (rest : List GoType) (i : Nat) (convs : List Converter) (err : Option GoError),
      i + rest.length ≤ outTypes.length →
      ∃ convs1 err1, MapConverterLoop outTypes i rest convs err = .ret (convs1, err1) ∧
        convs1.length = convs.length ∧
        (∀ j, j < i → convs1[j]? = convs[j]?) ∧
        (∀ k tin tout, rest[k]? = some tin → outTypes[i + k]? = some tout →
          i + k < convs.length →
          convs1[i + k]? = some (slot tin tout (convs[i + k]?.getD nilConverter))) ∧
        (err ≠ none → err1 ≠ none) ∧
        ((∀ k tin tout, rest[k]? = some tin → outTypes[i + k]? = some tout →
            specStrategy tin tout ≠ .incompatible) → err1 = err) ∧
        (∀ k tin tout, rest[k]? = some tin → outTypes[i + k]? = some tout →
          specStrategy tin tout = .incompatible →
          err1 ≠ none ∧
          ((∀ m tin1 tout1, k < m → rest[m]? = some tin1 → outTypes[i + m]? = some tout1 →
              specStrategy tin1 tout1 ≠ .incompatible) →
            err1 = some (.mapConverterError ((i + k : Nat) : Int) tin tout))) := by
  intro rest
  induction rest with
  | nil =>
    intro i convs err _
    refine ⟨convs, err, by simp [MapConverterLoop], rfl, fun _ _ => rfl, ?_, fun h => h,
      fun _ => rfl, ?_⟩
    · intro k tin tout hk
      simp at hk
    · intro k tin tout hk
      simp at hk
  | cons tin0 rest ih =>
    intro i convs err hlen
    have hi : i < outTypes.length := by
      simp only [List.length_cons] at hlen
      omega
    have hout : outTypes[i]? = some outTypes[i] := List.getElem?_eq_getElem hi
    have hlen1 : i + 1 + rest.length ≤ outTypes.length := by
      simp only [List.length_cons] at hlen
      omega
    obtain ⟨convs1, err1, heq, hl, hframe, hpt, hkeep, hsame, hrep⟩ :=
      ih (i + 1) (convs.set i (slot tin0 outTypes[i] (convs[i]?.getD nilConverter)))
        (slotErr i tin0 outTypes[i] err) hlen1
    refine ⟨convs1, err1, ?_, ?_, ?_, ?_, ?_, ?_, ?_⟩
    · rw [MapConverterLoop_cons hout]
      exact heq
    · rw [hl, List.length_set]
    · intro j hj
      rw [hframe j (by omega), List.getElem?_set_ne (by omega)]
    · intro k tin tout hk ho hlt
      cases k with
      | zero =>
        simp only [List.getElem?_cons_zero, Option.some.injEq] at hk
        simp only [Nat.add_zero] at ho hlt ⊢
        rw [hout] at ho
        simp only [Option.some.injEq] at ho
        subst hk
        subst ho
        rw [hframe i (by omega), List.getElem?_set_self hlt]
      | succ k =>
        simp only [List.getElem?_cons_succ] at hk
        have e : i + (k + 1) = i + 1 + k := by omega
        rw [e] at ho hlt ⊢
        rw [hpt k tin tout hk ho (by rw [List.length_set]; exact hlt),
          List.getElem?_set_ne (by omega)]
    · intro hne
      apply hkeep
      unfold slotErr
      cases specStrategy tin0 outTypes[i] <;> simp [hne]
    · intro hall
      have h0 : specStrategy tin0 outTypes[i] ≠ .incompatible :=
        hall 0 tin0 outTypes[i] (by simp) (by simp [hout])
      rw [hsame]
      · unfold slotErr
        cases hs : specStrategy tin0 outTypes[i]
        · rfl
        · rfl
        · rfl
        · exact absurd hs h0
      · intro k tin tout hk ho
        have e : i + 1 + k = i + (k + 1) := by omega
        rw [e] at ho
        exact hall (k + 1) tin tout (by simpa using hk) ho
    · intro k tin tout hk ho hinc
      cases k with
      | zero =>
        simp only [List.getElem?_cons_zero, Option.some.injEq] at hk
        simp only [Nat.add_zero] at ho ⊢
        rw [hout] at ho
        simp only [Option.some.injEq] at ho
        subst hk
        subst ho
        have hse : slotErr i tin0 outTypes[i] err =
            some (.mapConverterError (i : Int) tin0 outTypes[i]) := by
          unfold slotErr
          rw [hinc]
        constructor
        · apply hkeep
          rw [hse]
          simp
        · intro hall
          rw [hsame, hse]
          intro m tin1 tout1 hm ho1
          have e : i + 1 + m = i + (m + 1) := by omega
          rw [e] at ho1
          exact hall (m + 1) tin1 tout1 (by omega) (by simpa using hm) ho1
      | succ k =>
        simp only [List.getElem?_cons_succ] at hk
        have e : i + (k + 1) = i + 1 + k := by omega
        rw [e] at ho ⊢
        obtain ⟨h1, h2⟩ := hrep k tin tout hk ho hinc
        refine ⟨h1, ?_⟩
        intro hall
        apply h2
        intro m tin1 tout1 hkm hm ho1
        have e1 : i + 1 + m = i + (m + 1) := by omega
        rw [e1] at ho1
        exact hall (m + 1) tin1 tout1 (by omega) (by simpa using hm) ho1

theorem MapConverter_resolve (inTypes outTypes : List GoType)
    (hlen : inTypes.length = outTypes.length) :
    ∃ converters err, MapConverter inTypes outTypes = .ret (converters, err) ∧
      converters.length = inTypes.length ∧
      (∀ (i : Nat) (tin tout : GoType), inTypes[i]? = some tin → outTypes[i]? = some tout →
        converters[i]? = some (slot tin tout nilConverter)) ∧
      (∀ (i : Nat) (tin tout : GoType), inTypes[i]? = some tin → outTypes[i]? = some tout →
        specStrategy tin tout = .incompatible →
        err ≠ none ∧
        ((∀ (j : Nat) (tin1 tout1 : GoType), i < j → inTypes[j]? = some tin1 →
            outTypes[j]? = some tout1 → specStrategy tin1 tout1 ≠ .incompatible) →
          err = some (.mapConverterError (i : Int) tin tout))) ∧
      ((∀ (i : Nat) (tin tout : GoType), inTypes[i]? = some tin → outTypes[i]? = some tout →
          specStrategy tin tout ≠ .incompatible) → err = none) := by
  obtain ⟨converters, err, heq, hl, -, hpt, -, hsame, hrep⟩ :=
    MapConverterLoop_inv outTypes inTypes 0
      (List.replicate inTypes.length nilConverter) none (by omega)
  refine ⟨converters, err, heq, by simpa using hl, ?_, ?_, ?_⟩
  · intro i tin tout hin hout
    have hi : i < inTypes.length := by
      rcases List.getElem?_eq_some.mp hin with ⟨h, -⟩
      exact h
    have h := hpt i tin tout hin (by simpa using hout) (by simpa using hi)
    simpa [hi] using h
  · intro i tin tout hin hout hinc
    obtain ⟨hne, hlast⟩ := hrep i tin tout hin (by simpa using hout) hinc
    refine ⟨hne, ?_⟩
    intro hall
    have h := hlast (by
      intro m tin1 tout1 hm hin1 hout1
      exact hall m tin1 tout1 hm hin1 (by simpa using hout1))
    simpa using h
  · intro hall
    apply hsame
    intro k tin tout hin hout
    exact hall k tin tout hin (by simpa using hout)

theorem specStrategy_compatible {tin tout : GoType}
    (h : tin = tout ∨ tin.AssignableTo tout = true ∨
      (tin.Kind = .Interface ∧ implements tin tout = true)) :
    specStrategy tin tout ≠ .incompatible := by
  unfold specStrategy
  rcases h with hc | hc | hc
  · simp [hc]
  · by_cases e : tin = tout
    · simp [e]
    · simp [e, hc]
  · by_cases e : tin = tout
    · simp [e]
    · by_cases a : tin.AssignableTo tout = true
      · simp [e, a]
      · simp [e, a, hc]

/-- The converters of `MapConverter`: for equal-length type lists it returns a
converter slice of the same length and picks the converter of every position
by the fixed priority identity, assignability, interface satisfaction in the
reverse direction (first match wins).  A position none of the three rules
matches gets no converter (the nil converter) and makes `MapConverter` return a
non-nil error. -/
theorem MapConverter_cascade (inTypes outTypes : List GoType)
    (hlen : inTypes.length = outTypes.length) :
    ∃ converters err, MapConverter inTypes outTypes = .ret (converters, err) ∧
      converters.length = inTypes.length ∧
      ∀ (i : Nat) (tin tout : GoType), inTypes[i]? = some tin → outTypes[i]? = some tout →
        (tin = tout → converters[i]? = some directMap) ∧
        (tin ≠ tout → tin.AssignableTo tout = true →
          converters[i]? = some (convertToType tout)) ∧
        (tin ≠ tout → tin.AssignableTo tout = false →
          (tin.Kind = .Interface ∧ implements tin tout = true) →
          converters[i]? = some (reverseConvertToItfType tout)) ∧
        (tin ≠ tout → tin.AssignableTo tout = false →
          ¬ (tin.Kind = .Interface ∧ implements tin tout = true) →
          converters[i]? = some nilConverter ∧ err ≠ none) := by
  obtain ⟨converters, err, heq, hl, hslot, hrep, -⟩ :=
    MapConverter_resolve inTypes outTypes hlen
  refine ⟨converters, err, heq, hl, ?_⟩
  intro i tin tout hin hout
  refine ⟨?_, ?_, ?_, ?_⟩
  · intro h1
    rw [hslot i tin tout hin hout]
    simp [slot, specStrategy, h1]
  · intro h1 h2
    rw [hslot i tin tout hin hout]
    simp [slot, specStrategy, h1, h2]
  · intro h1 h2 h3
    rw [hslot i tin tout hin hout]
    simp [slot, specStrategy, h1, h2, h3]
  · intro h1 h2 h3
    have hinc : specStrategy tin tout = .incompatible := by
      simp [specStrategy, h1, h2, h3]
    obtain ⟨hne, -⟩ := hrep i tin tout hin hout hinc
    refine ⟨?_, hne⟩
    rw [hslot i tin tout hin hout]
    simp [slot, hinc]

/-- C1 (does not hold): with `inTypes = [int, string]` and
`outTypes = [string, int]` position 0 matches none of the three rules, yet the
error `MapConverter` returns reports position 1 (from `string`, to `int`), not
position 0 with from `int` and to `string`: the loop does not stop at the
incompatible position and the error of position 1 overwrites the one of
position 0. -/
theorem MapConverter_drops_first_incompatible :
    GoType.int ≠ GoType.string ∧ GoType.int.AssignableTo .string = false ∧
      ¬ (GoType.int.Kind = .Interface ∧ implements .int .string = true) ∧
      (∃ converters, MapConverter [.int, .string] [.string, .int] =
        .ret (converters, some (.mapConverterError 1 .string .int))) ∧
      GoError.mapConverterError 1 .string .int ≠ GoError.mapConverterError 0 .int .string := by
  refine ⟨by decide, by decide, by decide, ⟨[nilConverter, nilConverter], ?_⟩, by decide⟩
  rfl

/-- The lists `[stringer, fmt.Stringer, int]` and `[fmt.Stringer, stringer, int]`
of the package tests resolve to three converters. -/
theorem MapConverter_cascade_example :
    ([GoType.named "funconv_test.stringer" .int [⟨"String", "func() string"⟩],
        .named "fmt.Stringer" (.iface [⟨"String", "func() string"⟩]) [], .int] :
          List GoType).length =
      ([GoType.named "fmt.Stringer" (.iface [⟨"String", "func() string"⟩]) [],
        .named "funconv_test.stringer" .int [⟨"String", "func() string"⟩], .int] :
          List GoType).length ∧
    ∃ converters err,
      MapConverter
        [.named "funconv_test.stringer" .int [⟨"String", "func() string"⟩],
          .named "fmt.Stringer" (.iface [⟨"String", "func() string"⟩]) [], .int]
        [.named "fmt.Stringer" (.iface [⟨"String", "func() string"⟩]) [],
          .named "funconv_test.stringer" .int [⟨"String", "func() string"⟩], .int] =
        .ret (converters, err) ∧ converters.length = 3 := by
  refine ⟨rfl, ?_⟩
  obtain ⟨converters, err, h, hl, -⟩ := MapConverter_cascade
    [.named "funconv_test.stringer" .int [⟨"String", "func() string"⟩],
      .named "fmt.Stringer" (.iface [⟨"String", "func() string"⟩]) [], .int]
    [.named "fmt.Stringer" (.iface [⟨"String", "func() string"⟩]) [],
      .named "funconv_test.stringer" .int [⟨"String", "func() string"⟩], .int] rfl
  exact ⟨converters, err, h, hl⟩

/-! ### Conversions along assignability -/

theorem retype_Type {v : Value} {s : GoType} (h : v.Type = .ret s) (t : GoType) :
    (v.retype t).Type = .ret t := by
  cases v <;> simp_all [Value.Type, Value.retype]

theorem box_Type {v : Value} {s : GoType} (h : v.Type = .ret s) (t : GoType) :
    (v.box t).Type = .ret t := by
  cases v <;> simp_all [Value.Type, Value.box]

theorem intToString_Type {v : Value} {s : GoType} (h : v.Type = .ret s) (t : GoType) :
    (v.intToString t).Type = .ret t := by
  cases v with
  | invalid => simp [Value.Type] at h
  | concrete s1 d => cases d <;> simp [Value.intToString, Value.Type, Value.retype]
  | iface s1 dyn => simp [Value.intToString, Value.Type, Value.retype]

theorem directlyAssignable_identical {T V : GoType} (h : directlyAssignable T V = true) :
    haveIdenticalUnderlyingType T V = true := by
  unfold directlyAssignable at h
  split at h
  · next e =>
    subst e
    simp [haveIdenticalUnderlyingType]
  · split at h
    · exact absurd h (by simp)
    · exact h

theorem convertOp_of_assignable {T U : GoType} (h : T.AssignableTo U = true) :
    convertOp U T ≠ none := by
  unfold GoType.AssignableTo at h
  unfold convertOp
  by_cases h1 : T.Kind = .Int ∧ U.Kind = .Int
  · simp [h1]
  · by_cases h2 : T.Kind = .Int ∧ U.Kind = .String
    · simp [h1, h2]
    · by_cases h3 : haveIdenticalUnderlyingType U T = true
      · simp [h1, h2, h3]
      · by_cases h4 : ptrBasesIdentical U T = true
        · simp [h1, h2, h3, h4]
        · have h5 : implements U T = true := by
            rcases Bool.or_eq_true _ _ |>.mp h with hd | hi
            · exact absurd (directlyAssignable_identical hd) h3
            · exact hi
          by_cases h6 : T.Kind = .Interface
          · simp [h1, h2, h3, h4, h5, h6]
          · simp [h1, h2, h3, h4, h5, h6]

theorem convertOp_not_intString {T U : GoType} (h : T.AssignableTo U = true) :
    convertOp U T ≠ some .cvtIntString := by
  unfold convertOp
  by_cases h1 : T.Kind = .Int ∧ U.Kind = .Int
  · simp [h1]
  · by_cases h2 : T.Kind = .Int ∧ U.Kind = .String
    · exfalso
      unfold GoType.AssignableTo at h
      rcases Bool.or_eq_true _ _ |>.mp h with hd | hi
      · unfold directlyAssignable at hd
        by_cases e : U = T
        · subst e
          rw [h2.1] at h2
          exact absurd h2.2 (by decide)
        · have hk : U.Kind ≠ T.Kind := by
            rw [h2.1, h2.2]
            decide
          simp [e, hk] at hd
      · unfold implements at hi
        have hk : U.Kind ≠ .Interface := by
          rw [h2.2]
          decide
        simp [hk] at hi
    · by_cases h3 : haveIdenticalUnderlyingType U T = true
      · simp [h1, h2, h3]
      · by_cases h4 : ptrBasesIdentical U T = true
        · simp [h1, h2, h3, h4]
        · by_cases h5 : implements U T = true
          · by_cases h6 : T.Kind = .Interface
            · simp [h1, h2, h3, h4, h5, h6]
            · simp [h1, h2, h3, h4, h5, h6]
          · simp [h1, h2, h3, h4, h5]

theorem Convert_of_assignable {v : Value} {T U : GoType} (hv : v.Type = .ret T)
    (h : T.AssignableTo U = true) :
    ∃ w, v.Convert U = .ret w ∧ w.Type = .ret U := by
  unfold Value.Convert
  rw [hv]
  dsimp only
  have hop := convertOp_of_assignable h
  cases hc : convertOp U T with
  | none => exact absurd hc hop
  | some op =>
    cases op
    · exact ⟨_, rfl, retype_Type hv U⟩
    · exact ⟨_, rfl, intToString_Type hv U⟩
    · exact ⟨_, rfl, retype_Type hv U⟩
    · exact ⟨_, rfl, box_Type hv U⟩
    · exact ⟨_, rfl, box_Type hv U⟩

theorem Convert_concrete_of_assignable (D C : GoType) (d : Data)
    (h : D.AssignableTo C = true) :
    (Value.concrete D d).Convert C = .ret (.concrete C d) ∨
      (Value.concrete D d).Convert C = .ret (.iface C (some (D, d))) := by
  unfold Value.Convert
  dsimp only [Value.Type]
  have hop := convertOp_of_assignable h
  have hns := convertOp_not_intString h
  cases hc : convertOp C D with
  | none => exact absurd hc hop
  | some op =>
    cases op
    · exact Or.inl rfl
    · exact absurd hc hns
    · exact Or.inl rfl
    · exact Or.inr rfl
    · exact Or.inr rfl

theorem Convert_iface_of_assignable (I C : GoType) (dyn : Option (GoType × Data))
    (h : I.AssignableTo C = true) :
    (Value.iface I dyn).Convert C = .ret (.iface C dyn) := by
  unfold Value.Convert
  dsimp only [Value.Type]
  have hop := convertOp_of_assignable h
  cases hc : convertOp C I with
  | none => exact absurd hc hop
  | some op => cases op <;> rfl

theorem Kind_underlying (t : GoType) : t.underlying.Kind = t.Kind := by
  induction t <;> simp_all [GoType.underlying, GoType.Kind]

theorem ifaceMethods_underlying (t : GoType) : t.underlying.ifaceMethods = t.ifaceMethods := by
  induction t <;> simp_all [GoType.underlying, GoType.ifaceMethods]

theorem implements_iff (T V : GoType) :
    implements T V = true ↔ T.Kind = .Interface ∧ ∀ m ∈ T.ifaceMethods, m ∈ V.methodSet := by
  unfold implements
  by_cases h : T.Kind = .Interface
  · simp [h]
  · simp [h]

theorem implements_of_assignable {I C D : GoType} (hI : I.Kind = .Interface)
    (ha : I.AssignableTo C = true) (hD : implements I D = true) :
    implements C D = true := by
  rw [implements_iff] at hD ⊢
  unfold GoType.AssignableTo at ha
  rcases Bool.or_eq_true _ _ |>.mp ha with hd | hi
  · have hu := directlyAssignable_identical hd
    simp only [haveIdenticalUnderlyingType, decide_eq_true_eq] at hu
    have hk : C.Kind = I.Kind := by
      rw [← Kind_underlying C, ← Kind_underlying I, hu]
    have hm : C.ifaceMethods = I.ifaceMethods := by
      rw [← ifaceMethods_underlying C, ← ifaceMethods_underlying I, hu]
    rw [hk, hm]
    exact hD
  · rw [implements_iff] at hi
    refine ⟨hi.1, ?_⟩
    intro m hm
    have h1 := hi.2 m hm
    simp only [GoType.methodSet, hI, if_true] at h1
    exact hD.2 m h1

/-! ### The converters `MapConverter` returns -/

/-- C2: at a position where both lists hold the same type `T`, the converter
`MapConverter` returns succeeds on every value and returns that value itself. -/
theorem MapConverter_identity (inTypes outTypes : List GoType)
    (hlen : inTypes.length = outTypes.length) (i : Nat) (T : GoType)
    (hin : inTypes[i]? = some T) (hout : outTypes[i]? = some T) (v : Value) :
    ∃ converters err conv, MapConverter inTypes outTypes = .ret (converters, err) ∧
      converters[i]? = some conv ∧ conv v = .ret (v, none) := by
  obtain ⟨converters, err, heq, -, hslot, -, -⟩ := MapConverter_resolve inTypes outTypes hlen
  refine ⟨converters, err, directMap, heq, ?_, rfl⟩
  rw [hslot i T T hin hout]
  simp [slot, specStrategy]

/-- C2, witness: the pair `(string, string)` of the package tests with the value
`"hello"`. -/
theorem MapConverter_identity_witness :
    ([GoType.string] : List GoType).length = ([GoType.string] : List GoType).length ∧
      ([GoType.string] : List GoType)[0]? = some GoType.string ∧
      ∃ converters err conv, MapConverter [.string] [.string] = .ret (converters, err) ∧
        converters[0]? = some conv ∧
        conv (.concrete .string (.str "hello")) = .ret (.concrete .string (.str "hello"), none) :=
  ⟨rfl, rfl, MapConverter_identity [.string] [.string] rfl 0 .string rfl rfl
    (.concrete .string (.str "hello"))⟩

/-- C3: at a position whose source type `T` is assignable to the destination type
`U`, the converter `MapConverter` returns does not panic on a value of type `T`,
returns a nil error, and returns a value whose type is exactly `U`. -/
theorem MapConverter_assignable (inTypes outTypes : List GoType)
    (hlen : inTypes.length = outTypes.length) (i : Nat) (T U : GoType)
    (hin : inTypes[i]? = some T) (hout : outTypes[i]? = some U)
    (hassign : T.AssignableTo U = true) (v : Value) (hv : v.Type = .ret T) :
    ∃ converters err conv w, MapConverter inTypes outTypes = .ret (converters, err) ∧
      converters[i]? = some conv ∧ conv v = .ret (w, none) ∧ w.Type = .ret U := by
  obtain ⟨converters, err, heq, -, hslot, -, -⟩ := MapConverter_resolve inTypes outTypes hlen
  by_cases e : T = U
  · subst e
    refine ⟨converters, err, directMap, v, heq, ?_, rfl, hv⟩
    rw [hslot i T T hin hout]
    simp [slot, specStrategy]
  · obtain ⟨w, hw, hwt⟩ := Convert_of_assignable hv hassign
    refine ⟨converters, err, convertToType U, w, heq, ?_, ?_, hwt⟩
    · rw [hslot i T U hin hout]
      simp [slot, specStrategy, e, hassign]
    · simp [convertToType, hw]

/-- C3, witness: the pair `(string, interface{})` of the package tests with the
value `"hello"`. -/
theorem MapConverter_assignable_witness :
    ([GoType.string] : List GoType).length = ([GoType.iface []] : List GoType).length ∧
      GoType.string.AssignableTo (.iface []) = true ∧
      (Value.concrete .string (.str "hello")).Type = .ret .string ∧
      ∃ converters err conv w, MapConverter [.string] [.iface []] = .ret (converters, err) ∧
        converters[0]? = some conv ∧
        conv (.concrete .string (.str "hello")) = .ret (w, none) ∧
        w.Type = .ret (.iface []) :=
  ⟨rfl, by decide, rfl, MapConverter_assignable [.string] [.iface []] rfl 0 .string (.iface [])
    rfl rfl (by decide) (.concrete .string (.str "hello")) rfl⟩

/-- C4: for an interface type `I` and a type `C` that implements `I`, the
converter `MapConverter` builds for the pair `(I, C)`, applied to a value of type
`I` holding a payload `d` whose dynamic type `D` implements `I`, succeeds exactly
when `D` equals `C` or is assignable to `C`, and then yields the payload as a
value of type `C`; otherwise it returns the error
"<D> cannot be converted to <C>". -/
theorem MapConverter_unwrap (inTypes outTypes : List GoType)
    (hlen : inTypes.length = outTypes.length) (i : Nat) (I C : GoType)
    (hin : inTypes[i]? = some I) (hout : outTypes[i]? = some C)
    (hI : I.Kind = .Interface) (himpl : implements I C = true)
    (D : GoType) (d : Data) (hD : implements I D = true) :
    ∃ converters err conv, MapConverter inTypes outTypes = .ret (converters, err) ∧
      converters[i]? = some conv ∧
      ((D = C ∨ D.AssignableTo C = true) →
        ∃ w, conv (.iface I (some (D, d))) = .ret (w, none) ∧ w.Type = .ret C ∧
          (w = .concrete C d ∨ w = .iface C (some (D, d)))) ∧
      (¬ (D = C ∨ D.AssignableTo C = true) →
        conv (.iface I (some (D, d))) =
          .ret (.invalid, some (.errorf (D.String ++ " cannot be converted to " ++ C.String)))) := by
  obtain ⟨converters, err, heq, -, hslot, -, -⟩ := MapConverter_resolve inTypes outTypes hlen
  have hs := hslot i I C hin hout
  by_cases e : I = C
  · subst e
    have hyes : D = I ∨ D.AssignableTo I = true := by
      right
      simp [GoType.AssignableTo, hD]
    refine ⟨converters, err, directMap, heq, ?_, ?_, fun hno => absurd hyes hno⟩
    · rw [hs]
      simp [slot, specStrategy]
    · intro _
      exact ⟨_, rfl, rfl, Or.inr rfl⟩
  · by_cases a : I.AssignableTo C = true
    · have hyes : D = C ∨ D.AssignableTo C = true := by
        right
        simp [GoType.AssignableTo, implements_of_assignable hI a hD]
      refine ⟨converters, err, convertToType C, heq, ?_, ?_, fun hno => absurd hyes hno⟩
      · rw [hs]
        simp [slot, specStrategy, e, a]
      · intro _
        refine ⟨.iface C (some (D, d)), ?_, rfl, Or.inr rfl⟩
        simp [convertToType, Convert_iface_of_assignable I C _ a]
    · refine ⟨converters, err, reverseConvertToItfType C, heq, ?_, ?_, ?_⟩
      · rw [hs]
        simp [slot, specStrategy, e, a, hI, himpl]
      · intro hyes
        by_cases hdc : D = C
        · subst hdc
          refine ⟨.concrete D d, ?_, rfl, Or.inl rfl⟩
          simp [reverseConvertToItfType, Value.Kind, Value.Elem, Value.Type]
        · have hda : D.AssignableTo C = true := by
            rcases hyes with h | h
            · exact absurd h hdc
            · exact h
          rcases Convert_concrete_of_assignable D C d hda with hc | hc
          · refine ⟨.concrete C d, ?_, rfl, Or.inl rfl⟩
            simp [reverseConvertToItfType, Value.Kind, Value.Elem, Value.Type, hdc, hda, hc]
          · refine ⟨.iface C (some (D, d)), ?_, rfl, Or.inr rfl⟩
            simp [reverseConvertToItfType, Value.Kind, Value.Elem, Value.Type, hdc, hda, hc]
      · intro hno
        have hdc : D ≠ C := fun h => hno (Or.inl h)
        have hda : D.AssignableTo C = false := by
          cases hb : D.AssignableTo C
          · rfl
          · exact absurd (Or.inr hb) hno
        simp [reverseConvertToItfType, Value.Kind, Value.Elem, Value.Type, hdc, hda]

/-- C4, witness: the pair `(interface{}, string)` of the package tests with the
payload `123` of dynamic type `int`, which cannot be converted. -/
theorem MapConverter_unwrap_witness :
    ([GoType.iface []] : List GoType).length = ([GoType.string] : List GoType).length ∧
      (GoType.iface []).Kind = .Interface ∧ implements (.iface []) .string = true ∧
      implements (.iface []) .int = true ∧
      ¬ (GoType.int = GoType.string ∨ GoType.int.AssignableTo .string = true) ∧
      ∃ converters err conv, MapConverter [.iface []] [.string] = .ret (converters, err) ∧
        converters[0]? = some conv ∧
        conv (.iface (.iface []) (some (.int, .int 123))) =
          .ret (.invalid, some (.errorf "int cannot be converted to string")) := by
  refine ⟨rfl, rfl, by decide, by decide, by decide, ?_⟩
  obtain ⟨converters, err, conv, h1, h2, -, h3⟩ :=
    MapConverter_unwrap [.iface []] [.string] rfl 0 (.iface []) .string rfl rfl rfl (by decide)
      .int (.int 123) (by decide)
  exact ⟨converters, err, conv, h1, h2, h3 (by decide)⟩

/-! ### The pipeline -/

theorem makePipeLoop_cons_ok {converters : List Converter} {i : Nat} {conv : Converter}
    {v d : Value} (hc : converters[i]? = some conv) (hv : conv v = .ret (d, none))
    (rest out : List Value) :
    makePipeLoop converters i (v :: rest) out =
      makePipeLoop converters (i + 1) rest (out.set i d) := by
  rw [makePipeLoop]
  simp only [hc, hv]

theorem makePipeLoop_cons_err {converters : List Converter} {i : Nat} {conv : Converter}
    {v d : Value} {e : GoError} (hc : converters[i]? = some conv)
    (hv : conv v = .ret (d, some e)) (rest out : List Value) :
    makePipeLoop converters i (v :: rest) out =
      .ret (out.set i d, some (.convertError (i : Int) e)) := by
  rw [makePipeLoop]
  simp only [hc, hv]

theorem makePipeLoop_success (converters : List Converter) :
    ∀ (rest : List Value) (i : Nat) (out : List Value),
      i + rest.length ≤ converters.length →
      (∀ k x c, rest[k]? = some x → converters[i + k]? = some c → ∃ y, c x = .ret (y, none)) →
      ∃ out1, makePipeLoop converters i rest out = .ret (out1, none) ∧
        out1.length = out.length ∧
        (∀ j, j < i → out1[j]? = out[j]?) ∧
        (∀ k x c, rest[k]? = some x → converters[i + k]? = some c → i + k < out.length →
          ∃ y, c x = .ret (y, none) ∧ out1[i + k]? = some y) := by
  intro rest
  induction rest with
  | nil =>
    intro i out _ _
    refine ⟨out, by simp [makePipeLoop], rfl, fun _ _ => rfl, ?_⟩
    intro k x c hk
    simp at hk
  | cons v rest ih =>
    intro i out hlen hall
    have hi : i < converters.length := by
      simp only [List.length_cons] at hlen
      omega
    have hc : converters[i]? = some converters[i] := List.getElem?_eq_getElem hi
    obtain ⟨d, hd⟩ := hall 0 v converters[i] (by simp) (by simp [hc])
    have hall1 : ∀ k x c, rest[k]? = some x → converters[i + 1 + k]? = some c →
        ∃ y, c x = .ret (y, none) := by
      intro k x c hk hck
      have e : i + 1 + k = i + (k + 1) := by omega
      rw [e] at hck
      exact hall (k + 1) x c (by simpa using hk) hck
    obtain ⟨out1, heq, hl, hframe, hpt⟩ :=
      ih (i + 1) (out.set i d) (by simp only [List.length_cons] at hlen; omega) hall1
    refine ⟨out1, ?_, ?_, ?_, ?_⟩
    · rw [makePipeLoop_cons_ok hc hd]
      exact heq
    · rw [hl, List.length_set]
    · intro j hj
      rw [hframe j (by omega), List.getElem?_set_ne (by omega)]
    · intro k x c hk hck hlt
      cases k with
      | zero =>
        simp only [List.getElem?_cons_zero, Option.some.injEq] at hk
        simp only [Nat.add_zero] at hck hlt ⊢
        rw [hc] at hck
        simp only [Option.some.injEq] at hck
        subst hk
        subst hck
        refine ⟨d, hd, ?_⟩
        rw [hframe i (by omega), List.getElem?_set_self hlt]
      | succ k =>
        simp only [List.getElem?_cons_succ] at hk
        have e : i + (k + 1) = i + 1 + k := by omega
        rw [e] at hck hlt ⊢
        exact hpt k x c hk hck (by rw [List.length_set]; exact hlt)

theorem makePipeLoop_failure (converters : List Converter) :
    ∀ (rest : List Value) (i k : Nat) (out : List Value) (conv : Converter) (v d : Value)
      (e : GoError),
      i + rest.length ≤ converters.length →
      rest[k]? = some v → converters[i + k]? = some conv → conv v = .ret (d, some e) →
      (∀ m x c, m < k → rest[m]? = some x → converters[i + m]? = some c →
        ∃ y, c x = .ret (y, none)) →
      ∃ out1, makePipeLoop converters i rest out =
        .ret (out1, some (.convertError ((i + k : Nat) : Int) e)) := by
  intro rest
  induction rest with
  | nil =>
    intro i k out conv v d e _ hk
    simp at hk
  | cons x rest ih =>
    intro i k out conv v d e hlen hk hck hfail hprev
    cases k with
    | zero =>
      simp only [List.getElem?_cons_zero, Option.some.injEq] at hk
      subst hk
      simp only [Nat.add_zero] at hck ⊢
      exact ⟨_, makePipeLoop_cons_err hck hfail rest out⟩
    | succ k =>
      have hi : i < converters.length := by
        simp only [List.length_cons] at hlen
        omega
      have hc : converters[i]? = some converters[i] := List.getElem?_eq_getElem hi
      obtain ⟨y, hy⟩ := hprev 0 x converters[i] (by omega) (by simp) (by simp [hc])
      simp only [List.getElem?_cons_succ] at hk
      have e1 : i + (k + 1) = i + 1 + k := by omega
      rw [e1] at hck ⊢
      obtain ⟨out1, h1⟩ := ih (i + 1) k (out.set i y) conv v d e
        (by simp only [List.length_cons] at hlen; omega) hk hck hfail (by
          intro m x1 c hm hx1 hcm
          have e2 : i + 1 + m = i + (m + 1) := by omega
          rw [e2] at hcm
          exact hprev (m + 1) x1 c (by omega) (by simpa using hx1) hcm)
      exact ⟨out1, by rw [makePipeLoop_cons_ok hc hy]; exact h1⟩

/-- C5: when the converter at position `i` returns an error on its value and
every converter at a lower position succeeds, the function `makePipe` returns
yields a `convertError` whose position is `i` and whose cause is that error. -/
theorem makePipe_first_failure (converters : List Converter) (values : List Value)
    (hlen : converters.length = values.length) (i : Nat) (conv : Converter) (v d : Value)
    (e : GoError) (hc : converters[i]? = some conv) (hv : values[i]? = some v)
    (hfail : conv v = .ret (d, some e))
    (hprev : ∀ (j : Nat) (c : Converter) (x : Value), j < i → converters[j]? = some c →
      values[j]? = some x → ∃ y, c x = .ret (y, none)) :
    ∃ out, makePipe converters values = .ret (out, some (.convertError (i : Int) e)) := by
  obtain ⟨out1, h⟩ := makePipeLoop_failure converters values 0 i
    (List.replicate values.length Value.invalid) conv v d e (by omega) hv
    (by simpa using hc) hfail (by
      intro m x c hm hx hcm
      exact hprev m c x hm (by simpa using hcm) hx)
  refine ⟨out1, ?_⟩
  unfold makePipe
  simpa using h

/-- C7: when every converter succeeds on the value of its position, the function
`makePipe` returns yields no error and an output list of the same length that
holds, at every position, the result of that position's converter on that
position's value. -/
theorem makePipe_success (converters : List Converter) (values : List Value)
    (hlen : converters.length = values.length)
    (hall : ∀ (i : Nat) (c : Converter) (x : Value), converters[i]? = some c →
      values[i]? = some x → ∃ y, c x = .ret (y, none)) :
    ∃ out, makePipe converters values = .ret (out, none) ∧ out.length = values.length ∧
      ∀ (i : Nat) (c : Converter) (x : Value), converters[i]? = some c →
        values[i]? = some x → ∃ y, c x = .ret (y, none) ∧ out[i]? = some y := by
  obtain ⟨out1, heq, hl, -, hpt⟩ := makePipeLoop_success converters values 0
    (List.replicate values.length Value.invalid) (by omega) (by
      intro k x c hx hck
      exact hall k c x (by simpa using hck) hx)
  refine ⟨out1, heq, by simpa using hl, ?_⟩
  intro i c x hci hxi
  have hi : i < values.length := by
    rcases List.getElem?_eq_some.mp hxi with ⟨h, -⟩
    exact h
  have h := hpt i x c hxi (by simpa using hci) (by simpa using hi)
  simpa using h

/-- C5, witness: three converters of which the second and the third fail; the
error names position 1. -/
theorem makePipe_first_failure_witness :
    ([directMap, reverseConvertToItfType .string, reverseConvertToItfType .string] :
        List Converter).length =
      ([Value.concrete .string (.str "a"), .iface (.iface []) (some (.int, .int 1)),
        .iface (.iface []) (some (.int, .int 2))] : List Value).length ∧
    ∃ out,
      makePipe [directMap, reverseConvertToItfType .string, reverseConvertToItfType .string]
        [.concrete .string (.str "a"), .iface (.iface []) (some (.int, .int 1)),
          .iface (.iface []) (some (.int, .int 2))] =
        .ret (out, some (.convertError 1 (.errorf "int cannot be converted to string"))) := by
  refine ⟨rfl, ?_⟩
  exact makePipe_first_failure
    [directMap, reverseConvertToItfType .string, reverseConvertToItfType .string]
    [.concrete .string (.str "a"), .iface (.iface []) (some (.int, .int 1)),
      .iface (.iface []) (some (.int, .int 2))] rfl 1 (reverseConvertToItfType .string)
    (.iface (.iface []) (some (.int, .int 1))) .invalid
    (.errorf "int cannot be converted to string") rfl rfl rfl (by
      intro j c x hj hc hx
      have h0 : j = 0 := by omega
      subst h0
      simp only [List.getElem?_cons_zero, Option.some.injEq] at hc hx
      subst hc
      exact ⟨x, rfl⟩)

/-- C7, witness: the identity on a string and the boxing of a string into
`interface{}`. -/
theorem makePipe_success_witness :
    ([directMap, convertToType (.iface [])] : List Converter).length =
      ([Value.concrete .string (.str "a"), .concrete .string (.str "b")] : List Value).length ∧
    ∃ out,
      makePipe [directMap, convertToType (.iface [])]
        [.concrete .string (.str "a"), .concrete .string (.str "b")] = .ret (out, none) ∧
      out.length = 2 := by
  refine ⟨rfl, ?_⟩
  obtain ⟨out, h1, h2, -⟩ := makePipe_success [directMap, convertToType (.iface [])]
    [.concrete .string (.str "a"), .concrete .string (.str "b")] rfl (by
      intro i c x hc hx
      match i with
      | 0 =>
        simp only [List.getElem?_cons_zero, Option.some.injEq] at hc hx
        subst hc
        exact ⟨x, rfl⟩
      | 1 =>
        simp only [List.getElem?_cons_succ, List.getElem?_cons_zero, Option.some.injEq] at hc hx
        subst hc
        subst hx
        exact ⟨.iface (.iface []) (some (.string, .str "b")), rfl⟩
      | k + 2 => simp at hc)
  exact ⟨out, h1, h2⟩

/-! ### Call counters -/

theorem countingAll_getElem? (cs : List Converter) (i : Nat) :
    (countingAll cs)[i]? = cs[i]?.map (counting i) := by
  unfold countingAll
  rw [List.getElem?_zipWith]
  by_cases h : i < cs.length
  · rw [List.getElem?_range h, List.getElem?_eq_getElem h]
    rfl
  · have hn : cs[i]? = none := List.getElem?_eq_none (by omega)
    rw [hn]
    cases (List.range cs.length)[i]? <;> rfl

theorem makePipeStLoop_counting_fst (cs : List Converter) :
    ∀ (rest : List Value) (i : Nat) (out : List Value) (cnt : Nat → Nat),
      (makePipeStLoop (countingAll cs) i rest out cnt).1 = makePipeLoop cs i rest out := by
  intro rest
  induction rest with
  | nil =>
    intro i out cnt
    simp [makePipeStLoop, makePipeLoop]
  | cons v rest ih =>
    intro i out cnt
    rw [makePipeStLoop, makePipeLoop, countingAll_getElem?]
    cases hc : cs[i]? with
    | none => rfl
    | some c =>
      simp only [Option.map_some', counting]
      cases hv : c v with
      | panic p => rfl
      | ret r =>
        obtain ⟨d, oe⟩ := r
        cases oe with
        | some e => rfl
        | none => exact ih (i + 1) (out.set i d) _

theorem makePipeStLoop_counting_snd (cs : List Converter) :
    ∀ (rest : List Value) (i : Nat) (out : List Value) (cnt : Nat → Nat) (out1 : List Value)
      (p : Nat) (e : GoError),
      makePipeLoop cs i rest out = .ret (out1, some (.convertError (p : Int) e)) →
      i ≤ p ∧ (makePipeStLoop (countingAll cs) i rest out cnt).2 =
        fun j => if i ≤ j ∧ j ≤ p then cnt j + 1 else cnt j := by
  intro rest
  induction rest with
  | nil =>
    intro i out cnt out1 p e h
    simp [makePipeLoop] at h
  | cons v rest ih =>
    intro i out cnt out1 p e h
    rw [makePipeLoop] at h
    rw [makePipeStLoop, countingAll_getElem?]
    cases hc : cs[i]? with
    | none => simp [hc] at h
    | some c =>
      simp only [hc] at h
      simp only [Option.map_some', counting]
      cases hv : c v with
      | panic q => simp [hv] at h
      | ret r =>
        obtain ⟨d, oe⟩ := r
        cases oe with
        | some e1 =>
          simp only [hv, Result.ret.injEq, Prod.mk.injEq, Option.some.injEq,
            GoError.convertError.injEq, Nat.cast_inj] at h
          obtain ⟨-, hp, -⟩ := h
          subst hp
          refine ⟨Nat.le_refl _, ?_⟩
          funext j
          by_cases hj : j = i
          · subst hj
            simp
          · have hne : ¬ (i ≤ j ∧ j ≤ i) := by omega
            simp [hj, hne]
        | none =>
          simp only [hv] at h
          obtain ⟨hle, hs⟩ := ih (i + 1) (out.set i d)
            (fun j => if j = i then cnt j + 1 else cnt j) out1 p e h
          refine ⟨by omega, ?_⟩
          simp only []
          rw [hs]
          funext j
          by_cases hj : j = i
          · subst hj
            have h1 : ¬ (j + 1 ≤ j ∧ j ≤ p) := by omega
            have h2 : j ≤ j ∧ j ≤ p := by omega
            simp [h1, h2]
          · by_cases hr : i + 1 ≤ j ∧ j ≤ p
            · have h2 : i ≤ j ∧ j ≤ p := by omega
              simp [hr, h2, hj]
            · have h2 : ¬ (i ≤ j ∧ j ≤ p) := by omega
              simp [hr, h2, hj]

theorem makePipeStLoop_lift {σ : Type} (cs : List Converter) :
    ∀ (rest : List Value) (i : Nat) (out : List Value) (s : σ),
      makePipeStLoop (cs.map Converter.lift) i rest out s = (makePipeLoop cs i rest out, s) := by
  intro rest
  induction rest with
  | nil =>
    intro i out s
    simp [makePipeStLoop, makePipeLoop]
  | cons v rest ih =>
    intro i out s
    rw [makePipeStLoop, makePipeLoop, List.getElem?_map]
    cases hc : cs[i]? with
    | none => rfl
    | some c =>
      simp only [Option.map_some', Converter.lift]
      cases hv : c v with
      | panic p => rfl
      | ret r =>
        obtain ⟨d, oe⟩ := r
        cases oe with
        | some e => rfl
        | none => exact ih (i + 1) (out.set i d) s

theorem makePipeSt_lift {σ : Type} (cs : List Converter) (values : List Value) (s : σ) :
    makePipeSt (cs.map Converter.lift) values s = (makePipe cs values, s) :=
  makePipeStLoop_lift cs values 0 _ s

/-- C6: when the pipeline `makePipe` builds fails at position `i`, running it
with every converter incrementing the counter of its own position on each call
gives the same result, leaves the counters of all positions after `i` at zero
and the counters of positions `0..i` at exactly one. -/
theorem makePipe_counters (converters : List Converter) (values out : List Value) (i : Nat)
    (e : GoError)
    (hfail : makePipe converters values = .ret (out, some (.convertError (i : Int) e))) :
    (makePipeSt (countingAll converters) values (fun _ => 0)).1 =
        .ret (out, some (.convertError (i : Int) e)) ∧
      (∀ k, i < k → (makePipeSt (countingAll converters) values (fun _ => 0)).2 k = 0) ∧
      (∀ k, k ≤ i → (makePipeSt (countingAll converters) values (fun _ => 0)).2 k = 1) := by
  unfold makePipe at hfail
  obtain ⟨-, hs⟩ := makePipeStLoop_counting_snd converters values 0 _ (fun _ => 0) out i e hfail
  unfold makePipeSt
  refine ⟨?_, ?_, ?_⟩
  · rw [makePipeStLoop_counting_fst]
    exact hfail
  · intro k hk
    rw [hs]
    simpa using hk
  · intro k hk
    rw [hs]
    simp [hk]

/-- C6, witness: three converters of which the second fails; the third is never
called. -/
theorem makePipe_counters_witness :
    makePipe [directMap, reverseConvertToItfType .string, directMap]
        [.concrete .string (.str "a"), .iface (.iface []) (some (.int, .int 1)),
          .concrete .string (.str "c")] =
      .ret ([.concrete .string (.str "a"), .invalid, .invalid],
        some (.convertError 1 (.errorf "int cannot be converted to string"))) ∧
    (makePipeSt (countingAll [directMap, reverseConvertToItfType .string, directMap])
        [.concrete .string (.str "a"), .iface (.iface []) (some (.int, .int 1)),
          .concrete .string (.str "c")] (fun _ => 0)).2 2 = 0 ∧
    (makePipeSt (countingAll [directMap, reverseConvertToItfType .string, directMap])
        [.concrete .string (.str "a"), .iface (.iface []) (some (.int, .int 1)),
          .concrete .string (.str "c")] (fun _ => 0)).2 1 = 1 := by
  have h := makePipe_counters [directMap, reverseConvertToItfType .string, directMap]
    [.concrete .string (.str "a"), .iface (.iface []) (some (.int, .int 1)),
      .concrete .string (.str "c")]
    [.concrete .string (.str "a"), .invalid, .invalid] 1
    (.errorf "int cannot be converted to string") rfl
  exact ⟨rfl, h.2.1 2 (by omega), h.2.2 1 (by omega)⟩

/-! ### Construction-time checks of `WrapAs` -/

/-- C8: for a function `srcFunc` and a pointer `destFunc` to a function
variable, `WrapAs` fails with "argument mismatch, srcFunc(n) != destFunc(m)"
when the argument counts `n` and `m` differ, and otherwise with
"return mismatch, srcFunc(n) != destFunc(m)" when the return counts differ; the
variable `destFunc` points to is left as it was. -/
theorem WrapAs_count_mismatch (srcFuncType destFuncValType : FuncType)
    (srcFn cur : Option GoFunc) (ptyp : String)
    (h : srcFuncType.ins.length ≠ destFuncValType.ins.length ∨
      srcFuncType.outs.length ≠ destFuncValType.outs.length) :
    ∃ err, WrapAs (.func srcFuncType srcFn) (.ptr ptyp (some (.funcVar destFuncValType cur))) =
        .ret (some err, .ptr ptyp (some (.funcVar destFuncValType cur))) ∧
      err.Error =
        if srcFuncType.ins.length ≠ destFuncValType.ins.length then
          "argument mismatch, srcFunc(" ++ toString srcFuncType.ins.length ++
            ") != destFunc(" ++ toString destFuncValType.ins.length ++ ")"
        else
          "return mismatch, srcFunc(" ++ toString srcFuncType.outs.length ++
            ") != destFunc(" ++ toString destFuncValType.outs.length ++ ")" := by
  by_cases hin : srcFuncType.ins.length = destFuncValType.ins.length
  · have hout : srcFuncType.outs.length ≠ destFuncValType.outs.length := by
      rcases h with h | h
      · exact absurd hin h
      · exact h
    refine ⟨.errorf ("return mismatch, srcFunc(" ++ toString srcFuncType.outs.length ++
      ") != destFunc(" ++ toString destFuncValType.outs.length ++ ")"), ?_, ?_⟩
    · simp only [WrapAs, wrapFunc, hin, hout, ne_eq, not_true_eq_false, not_false_eq_true,
        if_true, if_false]
    · simp [GoError.Error, hin]
  · refine ⟨.errorf ("argument mismatch, srcFunc(" ++ toString srcFuncType.ins.length ++
      ") != destFunc(" ++ toString destFuncValType.ins.length ++ ")"), ?_, ?_⟩
    · simp only [WrapAs, wrapFunc, hin, ne_eq, not_false_eq_true, if_true]
    · simp [GoError.Error, hin]

/-- C8, witness: `lengthFunc` with two arguments and two results against a
variable with one argument and one result: the argument count is reported. -/
theorem WrapAs_count_mismatch_witness :
    (lengthFuncType.ins.length ≠ [emptyInterface].length ∨
      lengthFuncType.outs.length ≠ [emptyInterface].length) ∧
    ∃ err, WrapAs (.func lengthFuncType (some lengthFunc))
        (.ptr "*func(interface {}) interface {}"
          (some (.funcVar ⟨"func(interface {}) interface {}", [emptyInterface],
            [emptyInterface], false⟩ none))) =
        .ret (some err, .ptr "*func(interface {}) interface {}"
          (some (.funcVar ⟨"func(interface {}) interface {}", [emptyInterface],
            [emptyInterface], false⟩ none))) ∧
      err.Error = "argument mismatch, srcFunc(2) != destFunc(1)" := by
  refine ⟨Or.inl (by decide), ?_⟩
  obtain ⟨err, h1, h2⟩ := WrapAs_count_mismatch lengthFuncType
    ⟨"func(interface {}) interface {}", [emptyInterface], [emptyInterface], false⟩
    (some lengthFunc) none "*func(interface {}) interface {}" (Or.inl (by decide))
  exact ⟨err, h1, by rw [h2]; rfl⟩

/-- C9: for source and target functions with equal argument and return counts
of which exactly one is variadic, `WrapAs` fails and the message names the
variadic side. -/
theorem WrapAs_variadic_mismatch (srcFuncType destFuncValType : FuncType)
    (srcFn cur : Option GoFunc) (ptyp : String)
    (hin : srcFuncType.ins.length = destFuncValType.ins.length)
    (hout : srcFuncType.outs.length = destFuncValType.outs.length)
    (hv : srcFuncType.variadic ≠ destFuncValType.variadic) :
    ∃ err, WrapAs (.func srcFuncType srcFn) (.ptr ptyp (some (.funcVar destFuncValType cur))) =
        .ret (some err, .ptr ptyp (some (.funcVar destFuncValType cur))) ∧
      err.Error =
        if srcFuncType.variadic then "srcFunc is variadic function while destFunc is not"
        else "destFunc is variadic function while srcFunc is not" := by
  cases hs : srcFuncType.variadic with
  | true =>
    have hd : destFuncValType.variadic = false := by
      cases hd : destFuncValType.variadic with
      | false => rfl
      | true => rw [hs, hd] at hv; exact absurd rfl hv
    refine ⟨.errorf "srcFunc is variadic function while destFunc is not", ?_, ?_⟩
    · simp only [WrapAs, wrapFunc, hin, hout, hs, hd, ne_eq, not_true_eq_false, if_false,
        Bool.not_false, Bool.and_self, if_true]
    · simp [GoError.Error]
  | false =>
    have hd : destFuncValType.variadic = true := by
      cases hd : destFuncValType.variadic with
      | true => rfl
      | false => rw [hs, hd] at hv; exact absurd rfl hv
    refine ⟨.errorf "destFunc is variadic function while srcFunc is not", ?_, ?_⟩
    · simp only [WrapAs, wrapFunc, hin, hout, hs, hd, ne_eq, not_true_eq_false, if_false,
        Bool.not_false, Bool.not_true, Bool.and_self, Bool.and_false, Bool.false_eq_true,
        if_true]
    · simp [GoError.Error]

/-- C9, witness: the variadic `lengthArray` against the fixed-arity variable
`destFunc` of the package tests. -/
theorem WrapAs_variadic_mismatch_witness :
    lengthArrayType.ins.length = destFuncType.ins.length ∧
      lengthArrayType.outs.length = destFuncType.outs.length ∧
      lengthArrayType.variadic ≠ destFuncType.variadic ∧
    ∃ err, WrapAs (.func lengthArrayType none)
        (.ptr "*func(string, string) (interface {}, error)"
          (some (.funcVar destFuncType none))) =
        .ret (some err, .ptr "*func(string, string) (interface {}, error)"
          (some (.funcVar destFuncType none))) ∧
      err.Error = "srcFunc is variadic function while destFunc is not" := by
  refine ⟨rfl, rfl, by decide, ?_⟩
  obtain ⟨err, h1, h2⟩ := WrapAs_variadic_mismatch lengthArrayType destFuncType none none
    "*func(string, string) (interface {}, error)" rfl rfl (by decide)
  exact ⟨err, h1, by rw [h2]; rfl⟩

/-- C10: `WrapAs` fails with "srcFunc cannot be nil" whenever `srcFunc` is nil,
whatever `destFunc` is; with "destFunc cannot be nil" when `srcFunc` is not nil
and `destFunc` is; and with an error whenever `srcFunc` is not of function kind,
which is "srcFunc needs to be a function, got <type>" when neither is nil.  No
signature is looked at and `destFunc` is left as it was. -/
theorem WrapAs_nil_checks :
    (∀ destFunc : Iface,
      WrapAs .nil destFunc = .ret (some (.errorf "srcFunc cannot be nil"), destFunc)) ∧
    (∀ srcFunc : Iface, srcFunc ≠ .nil →
      WrapAs srcFunc .nil = .ret (some (.errorf "destFunc cannot be nil"), .nil)) ∧
    (∀ srcFunc destFunc : Iface, srcFunc.isFunc = false →
      ∃ err, WrapAs srcFunc destFunc = .ret (some err, destFunc)) ∧
    (∀ srcFunc destFunc : Iface, srcFunc ≠ .nil → destFunc ≠ .nil → srcFunc.isFunc = false →
      WrapAs srcFunc destFunc =
        .ret (some (.errorf ("srcFunc needs to be a function, got " ++ srcFunc.typeString)),
          destFunc)) := by
  refine ⟨?_, ?_, ?_, ?_⟩
  · intro destFunc
    cases destFunc <;> rfl
  · intro srcFunc hs
    cases srcFunc with
    | nil => exact absurd rfl hs
    | func t f => rfl
    | ptr t e => rfl
    | other t => rfl
  · intro srcFunc destFunc hf
    cases srcFunc with
    | nil => exact ⟨_, by cases destFunc <;> rfl⟩
    | func t f => simp [Iface.isFunc] at hf
    | ptr t e => cases destFunc <;> exact ⟨_, rfl⟩
    | other t => cases destFunc <;> exact ⟨_, rfl⟩
  · intro srcFunc destFunc hs hd hf
    cases srcFunc with
    | nil => exact absurd rfl hs
    | func t f => simp [Iface.isFunc] at hf
    | ptr t e =>
      cases destFunc with
      | nil => exact absurd rfl hd
      | func t1 f1 => rfl
      | ptr t1 e1 => rfl
      | other t1 => rfl
    | other t =>
      cases destFunc with
      | nil => exact absurd rfl hd
      | func t1 f1 => rfl
      | ptr t1 e1 => rfl
      | other t1 => rfl

/-- C10, witness: the calls `WrapAs(nil, nil)`, `WrapAs(lengthFunc, nil)` and
`WrapAs("some stupid", &endpoint)` of the package tests. -/
theorem WrapAs_nil_checks_witness :
    WrapAs .nil .nil = .ret (some (.errorf "srcFunc cannot be nil"), .nil) ∧
    WrapAs (.func lengthFuncType (some lengthFunc)) .nil =
      .ret (some (.errorf "destFunc cannot be nil"), .nil) ∧
    WrapAs (.other "string")
        (.ptr "*func(context.Context, interface {}) (interface {}, error)"
          (some (.funcVar endpointType none))) =
      .ret (some (.errorf "srcFunc needs to be a function, got string"),
        .ptr "*func(context.Context, interface {}) (interface {}, error)"
          (some (.funcVar endpointType none))) :=
  ⟨WrapAs_nil_checks.1 .nil,
    WrapAs_nil_checks.2.1 (.func lengthFuncType (some lengthFunc)) (fun h => by cases h),
    WrapAs_nil_checks.2.2.2 (.other "string")
      (.ptr "*func(context.Context, interface {}) (interface {}, error)"
        (some (.funcVar endpointType none))) (fun h => by cases h) (fun h => by cases h) rfl⟩

/-! ### Outcome of `WrapAs` -/

theorem MapConverterLoop_err_shape (outTypes : List GoType) :
    ∀ (rest : List GoType) (i : Nat) (convs : List Converter) (err : Option GoError)
      (convs1 : List Converter) (err1 : Option GoError),
      MapConverterLoop outTypes i rest convs err = .ret (convs1, err1) →
      err1 = err ∨ ∃ (k : Nat) (tin tout : GoType), rest[k]? = some tin ∧
        outTypes[i + k]? = some tout ∧ specStrategy tin tout = .incompatible ∧
        err1 = some (.mapConverterError ((i + k : Nat) : Int) tin tout) := by
  intro rest
  induction rest with
  | nil =>
    intro i convs err convs1 err1 h
    simp only [MapConverterLoop, Result.ret.injEq, Prod.mk.injEq] at h
    exact Or.inl h.2.symm
  | cons tin0 rest ih =>
    intro i convs err convs1 err1 h
    cases ho : outTypes[i]? with
    | none =>
      rw [MapConverterLoop] at h
      simp [ho] at h
    | some tout0 =>
      rw [MapConverterLoop_cons ho] at h
      rcases ih _ _ _ _ _ h with h1 | ⟨k, tin, tout, hk, hok, hinc, he⟩
      · cases hs : specStrategy tin0 tout0 with
        | incompatible =>
          right
          refine ⟨0, tin0, tout0, by simp, by simpa using ho, hs, ?_⟩
          rw [h1]
          simp [slotErr, hs]
        | identity => left; rw [h1]; simp [slotErr, hs]
        | assignability => left; rw [h1]; simp [slotErr, hs]
        | unwrap => left; rw [h1]; simp [slotErr, hs]
      · right
        have e : i + 1 + k = i + (k + 1) := by omega
        refine ⟨k + 1, tin, tout, by simpa using hk, by rw [← e]; exact hok, hinc, ?_⟩
        rw [he, e]

theorem MapConverter_err_shape {inTypes outTypes : List GoType} {convs : List Converter}
    {e : GoError} (h : MapConverter inTypes outTypes = .ret (convs, some e)) :
    ∃ (i : Nat) (tin tout : GoType), inTypes[i]? = some tin ∧ outTypes[i]? = some tout ∧
      specStrategy tin tout = .incompatible ∧ e = .mapConverterError (i : Int) tin tout := by
  rcases MapConverterLoop_err_shape outTypes inTypes 0 _ none convs (some e) h with
    h1 | ⟨k, tin, tout, hk, hok, hinc, he⟩
  · simp at h1
  · refine ⟨k, tin, tout, hk, by simpa using hok, hinc, ?_⟩
    simpa using he

theorem wrapFunc_resolved (srcFuncType destFuncValType : FuncType) (srcFn : Option GoFunc)
    (hin : srcFuncType.ins.length = destFuncValType.ins.length)
    (hout : srcFuncType.outs.length = destFuncValType.outs.length)
    (hvar : srcFuncType.variadic = destFuncValType.variadic) :
    wrapFunc srcFuncType srcFn destFuncValType =
      match MapConverter destFuncValType.ins srcFuncType.ins with
      | .panic p => .panic p
      | .ret (_, some innerErr) =>
        match mapErrorMessage "argument" innerErr with
        | .panic p => .panic p
        | .ret msg => .ret (.error (.errorf msg))
      | .ret (inConverters, none) =>
        match MapConverter srcFuncType.outs destFuncValType.outs with
        | .panic p => .panic p
        | .ret (_, some innerErr) =>
          match mapErrorMessage "return variable" innerErr with
          | .panic p => .panic p
          | .ret msg => .ret (.error (.errorf msg))
        | .ret (outConverters, none) =>
          .ret (.ok (adapted srcFuncType srcFn destFuncValType inConverters outConverters)) := by
  unfold wrapFunc
  have h1 : (srcFuncType.variadic && !destFuncValType.variadic) = false := by
    rw [hvar]
    cases destFuncValType.variadic <;> rfl
  have h2 : (!srcFuncType.variadic && destFuncValType.variadic) = false := by
    rw [hvar]
    cases destFuncValType.variadic <;> rfl
  simp only [adapted, selectHandler, hin, hout, h1, h2, ne_eq, not_true_eq_false, if_false,
    Bool.false_eq_true]

theorem mapErrorMessage_ret (label : String) (i : Nat) (tin tout : GoType) :
    mapErrorMessage label (.mapConverterError (i : Int) tin tout) =
      .ret (label ++ " " ++ toString (wrapInt ((i : Int) + 1)) ++ ", " ++ tin.String ++
        " cannot be converted " ++ tout.String) := rfl

theorem wrapFunc_total (srcFuncType destFuncValType : FuncType) (srcFn : Option GoFunc) :
    ∃ r, wrapFunc srcFuncType srcFn destFuncValType = .ret r := by
  by_cases hin : srcFuncType.ins.length = destFuncValType.ins.length
  · by_cases hout : srcFuncType.outs.length = destFuncValType.outs.length
    · by_cases hvar : srcFuncType.variadic = destFuncValType.variadic
      · rw [wrapFunc_resolved _ _ _ hin hout hvar]
        obtain ⟨inC, e1, h1, -⟩ :=
          MapConverter_resolve destFuncValType.ins srcFuncType.ins hin.symm
        obtain ⟨outC, e2, h2, -⟩ :=
          MapConverter_resolve srcFuncType.outs destFuncValType.outs hout
        rw [h1]
        cases e1 with
        | some e =>
          obtain ⟨i, tin, tout, -, -, -, he⟩ := MapConverter_err_shape h1
          subst he
          exact ⟨_, rfl⟩
        | none =>
          simp only []
          rw [h2]
          cases e2 with
          | some e =>
            obtain ⟨i, tin, tout, -, -, -, he⟩ := MapConverter_err_shape h2
            subst he
            exact ⟨_, rfl⟩
          | none => exact ⟨_, rfl⟩
      · cases hs : srcFuncType.variadic with
        | true =>
          have hd : destFuncValType.variadic = false := by
            cases hd : destFuncValType.variadic with
            | false => rfl
            | true => rw [hs, hd] at hvar; exact absurd rfl hvar
          refine ⟨.error (.errorf "srcFunc is variadic function while destFunc is not"), ?_⟩
          simp only [wrapFunc, hin, hout, hs, hd, ne_eq, not_true_eq_false, if_false,
            Bool.not_false, Bool.and_self, if_true]
        | false =>
          have hd : destFuncValType.variadic = true := by
            cases hd : destFuncValType.variadic with
            | true => rfl
            | false => rw [hs, hd] at hvar; exact absurd rfl hvar
          refine ⟨.error (.errorf "destFunc is variadic function while srcFunc is not"), ?_⟩
          simp only [wrapFunc, hin, hout, hs, hd, ne_eq, not_true_eq_false, if_false,
            Bool.not_false, Bool.not_true, Bool.and_self, Bool.and_false, Bool.false_eq_true,
            if_true]
    · refine ⟨.error (.errorf ("return mismatch, srcFunc(" ++
        toString srcFuncType.outs.length ++ ") != destFunc(" ++
        toString destFuncValType.outs.length ++ ")")), ?_⟩
      simp only [wrapFunc, hin, hout, ne_eq, not_true_eq_false, not_false_eq_true, if_true,
        if_false]
  · refine ⟨.error (.errorf ("argument mismatch, srcFunc(" ++
      toString srcFuncType.ins.length ++ ") != destFunc(" ++
      toString destFuncValType.ins.length ++ ")")), ?_⟩
    simp only [wrapFunc, hin, ne_eq, not_false_eq_true, if_true]

/-- C11: `WrapAs` always returns, and it is atomic: when it returns an error the
function variable `destFunc` points to (and `destFunc` itself) is exactly as it
was; when it returns nil, `destFunc` is a pointer to a function variable, which
now holds the adapted function. -/
theorem WrapAs_atomic (srcFunc destFunc : Iface) :
    ∃ err dest1, WrapAs srcFunc destFunc = .ret (err, dest1) ∧
      (err ≠ none → dest1 = destFunc) ∧
      (err = none → ∃ ptyp typ cur fn, destFunc = .ptr ptyp (some (.funcVar typ cur)) ∧
        dest1 = .ptr ptyp (some (.funcVar typ (some fn)))) := by
  cases srcFunc with
  | nil => exact ⟨_, _, by cases destFunc <;> rfl, fun _ => rfl, fun h => by simp at h⟩
  | ptr t e =>
    cases destFunc <;> exact ⟨_, _, rfl, fun _ => rfl, fun h => by simp at h⟩
  | other t =>
    cases destFunc <;> exact ⟨_, _, rfl, fun _ => rfl, fun h => by simp at h⟩
  | func styp sfn =>
    cases destFunc with
    | nil => exact ⟨_, _, rfl, fun _ => rfl, fun h => by simp at h⟩
    | func t f => exact ⟨_, _, rfl, fun _ => rfl, fun h => by simp at h⟩
    | other t => exact ⟨_, _, rfl, fun _ => rfl, fun h => by simp at h⟩
    | ptr ptyp elem =>
      cases elem with
      | none => exact ⟨_, _, rfl, fun _ => rfl, fun h => by simp at h⟩
      | some pt =>
        cases pt with
        | otherVar t => exact ⟨_, _, rfl, fun _ => rfl, fun h => by simp at h⟩
        | funcVar dtyp cur =>
          obtain ⟨r, hr⟩ := wrapFunc_total styp dtyp sfn
          cases r with
          | error e =>
            refine ⟨some e, _, ?_, fun _ => rfl, fun h => by simp at h⟩
            simp only [WrapAs, hr]
          | ok fn =>
            refine ⟨none, _, ?_, fun h => absurd rfl h, fun _ => ⟨ptyp, dtyp, cur, fn, rfl, rfl⟩⟩
            simp only [WrapAs, hr]

/-- C11, witness: `WrapAs(innerFunc1, &endpoint)` of `TestWrap_argTypeMismatch`. -/
theorem WrapAs_atomic_witness :
    ∃ err dest1, WrapAs (.func innerFunc1Type none)
        (.ptr "*func(int) int" (some (.funcVar intEndpointType none))) = .ret (err, dest1) ∧
      (err ≠ none → dest1 = .ptr "*func(int) int" (some (.funcVar intEndpointType none))) ∧
      (err = none → ∃ ptyp typ cur fn,
        Iface.ptr "*func(int) int" (some (.funcVar intEndpointType none)) =
          .ptr ptyp (some (.funcVar typ cur)) ∧
        dest1 = .ptr ptyp (some (.funcVar typ (some fn)))) :=
  WrapAs_atomic (.func innerFunc1Type none)
    (.ptr "*func(int) int" (some (.funcVar intEndpointType none)))

theorem wrapInt_of_lt (n : Nat) (h : n < 2 ^ 63) : wrapInt (n : Int) = (n : Int) := by
  unfold wrapInt
  have h1 : ((n : Int) + 2 ^ 63) % 2 ^ 64 = (n : Int) + 2 ^ 63 := by
    apply Int.emod_eq_of_lt
    · positivity
    · have : (n : Int) < 2 ^ 63 := by exact_mod_cast h
      linarith
  rw [h1]
  ring

theorem toString_position (i : Nat) (h : i + 1 < 2 ^ 63) :
    toString (wrapInt ((i : Int) + 1)) = toString (i + 1) := by
  have e : ((i : Int) + 1) = ((i + 1 : Nat) : Int) := by push_cast; rfl
  rw [e, wrapInt_of_lt _ h]
  rfl

/-- C12: when source and target agree on counts and variadic-ness, an argument
position without conversion strategy makes `WrapAs` fail with
"argument <i+1>, <target argument type> cannot be converted <source argument type>"
for such a position `i`, whatever the return types are; with every argument
position compatible, a return position without strategy makes it fail with
"return variable <j+1>, <source return type> cannot be converted <target return type>"
for such a position `j`. -/
theorem WrapAs_incompatible_message (srcFuncType destFuncValType : FuncType)
    (srcFn cur : Option GoFunc) (ptyp : String)
    (hin : srcFuncType.ins.length = destFuncValType.ins.length)
    (hout : srcFuncType.outs.length = destFuncValType.outs.length)
    (hvar : srcFuncType.variadic = destFuncValType.variadic)
    (hbin : destFuncValType.ins.length < 2 ^ 63)
    (hbout : destFuncValType.outs.length < 2 ^ 63) :
    ((∃ (i : Nat) (tin tout : GoType), destFuncValType.ins[i]? = some tin ∧
        srcFuncType.ins[i]? = some tout ∧ specStrategy tin tout = .incompatible) →
      ∃ (i : Nat) (tin tout : GoType) (err : GoError), destFuncValType.ins[i]? = some tin ∧
        srcFuncType.ins[i]? = some tout ∧ specStrategy tin tout = .incompatible ∧
        WrapAs (.func srcFuncType srcFn) (.ptr ptyp (some (.funcVar destFuncValType cur))) =
          .ret (some err, .ptr ptyp (some (.funcVar destFuncValType cur))) ∧
        err.Error = "argument " ++ toString (i + 1) ++ ", " ++ tin.String ++
          " cannot be converted " ++ tout.String) ∧
    ((∀ (i : Nat) (tin tout : GoType), destFuncValType.ins[i]? = some tin →
        srcFuncType.ins[i]? = some tout → specStrategy tin tout ≠ .incompatible) →
      (∃ (j : Nat) (tin tout : GoType), srcFuncType.outs[j]? = some tin ∧
        destFuncValType.outs[j]? = some tout ∧ specStrategy tin tout = .incompatible) →
      ∃ (j : Nat) (tin tout : GoType) (err : GoError), srcFuncType.outs[j]? = some tin ∧
        destFuncValType.outs[j]? = some tout ∧ specStrategy tin tout = .incompatible ∧
        WrapAs (.func srcFuncType srcFn) (.ptr ptyp (some (.funcVar destFuncValType cur))) =
          .ret (some err, .ptr ptyp (some (.funcVar destFuncValType cur))) ∧
        err.Error = "return variable " ++ toString (j + 1) ++ ", " ++ tin.String ++
          " cannot be converted " ++ tout.String) := by
  obtain ⟨inC, e1, h1, -, -, hrep1, hnone1⟩ :=
    MapConverter_resolve destFuncValType.ins srcFuncType.ins hin.symm
  obtain ⟨outC, e2, h2, -, -, hrep2, -⟩ :=
    MapConverter_resolve srcFuncType.outs destFuncValType.outs hout
  constructor
  · rintro ⟨i0, tin0, tout0, hi0, ho0, hinc0⟩
    have hne : e1 ≠ none := (hrep1 i0 tin0 tout0 hi0 ho0 hinc0).1
    cases e1 with
    | none => exact absurd rfl hne
    | some e =>
      obtain ⟨i, tin, tout, hi, ho, hinc, he⟩ := MapConverter_err_shape h1
      subst he
      have hlt : i + 1 < 2 ^ 63 := by
        rcases List.getElem?_eq_some.mp hi with ⟨h, -⟩
        omega
      refine ⟨i, tin, tout, .errorf ("argument" ++ " " ++ toString (wrapInt ((i : Int) + 1)) ++
        ", " ++ tin.String ++ " cannot be converted " ++ tout.String), hi, ho, hinc, ?_, ?_⟩
      · simp only [WrapAs, wrapFunc_resolved _ _ _ hin hout hvar, h1, mapErrorMessage_ret]
      · simp only [GoError.Error, toString_position i hlt]
        rfl
  · intro hall
    rintro ⟨j0, tin0, tout0, hi0, ho0, hinc0⟩
    have he1 : e1 = none := hnone1 hall
    subst he1
    have hne : e2 ≠ none := (hrep2 j0 tin0 tout0 hi0 ho0 hinc0).1
    cases e2 with
    | none => exact absurd rfl hne
    | some e =>
      obtain ⟨j, tin, tout, hi, ho, hinc, he⟩ := MapConverter_err_shape h2
      subst he
      have hlt : j + 1 < 2 ^ 63 := by
        rcases List.getElem?_eq_some.mp ho with ⟨h, -⟩
        omega
      refine ⟨j, tin, tout, .errorf ("return variable" ++ " " ++
        toString (wrapInt ((j : Int) + 1)) ++ ", " ++ tin.String ++ " cannot be converted " ++
        tout.String), hi, ho, hinc, ?_, ?_⟩
      · simp only [WrapAs, wrapFunc_resolved _ _ _ hin hout hvar, h1, h2, mapErrorMessage_ret]
      · simp only [GoError.Error, toString_position j hlt]
        rfl

/-- C12, witness: `TestWrap_argTypeMismatch`, the source `func(string) int` against
the variable `func(int) int`. -/
theorem WrapAs_incompatible_message_witness :
    innerFunc1Type.ins.length = intEndpointType.ins.length ∧
      innerFunc1Type.outs.length = intEndpointType.outs.length ∧
      innerFunc1Type.variadic = intEndpointType.variadic ∧
      specStrategy .int .string = .incompatible ∧
    ∃ err, WrapAs (.func innerFunc1Type none)
        (.ptr "*func(int) int" (some (.funcVar intEndpointType none))) =
        .ret (some err, .ptr "*func(int) int" (some (.funcVar intEndpointType none))) ∧
      err.Error = "argument 1, int cannot be converted string" := by
  refine ⟨rfl, rfl, rfl, by decide, ?_⟩
  obtain ⟨i, tin, tout, err, hi, ho, -, hw, he⟩ :=
    (WrapAs_incompatible_message innerFunc1Type intEndpointType none none "*func(int) int"
      rfl rfl rfl (by decide) (by decide)).1 ⟨0, .int, .string, rfl, rfl, by decide⟩
  refine ⟨err, hw, ?_⟩
  cases i with
  | zero =>
    simp only [intEndpointType, innerFunc1Type, List.getElem?_cons_zero,
      Option.some.injEq] at hi ho
    subst hi
    subst ho
    rw [he]
    rfl
  | succ k => simp [intEndpointType] at hi

/-- C13, the code at the failing input: with both positions incompatible,
`MapConverter([string, string], [int, int])` returns the error of position 1,
and `WrapAs` of a `func(int, int)` into a `func(string, string)` variable names
argument 2, while position 0 is incompatible as well. -/
theorem MapConverter_reports_last :
    specStrategy .string .int = .incompatible ∧
    (∃ converters, MapConverter [.string, .string] [.int, .int] =
      .ret (converters, some (.mapConverterError 1 .string .int))) ∧
    (∃ err, WrapAs (.func twoIntsType none)
        (.ptr "*func(string, string)" (some (.funcVar twoStringsType none))) =
        .ret (some err, .ptr "*func(string, string)" (some (.funcVar twoStringsType none))) ∧
      err.Error = "argument 2, string cannot be converted int") := by
  refine ⟨by decide, ⟨[nilConverter, nilConverter], rfl⟩, ⟨_, rfl, ?_⟩⟩
  decide

/-! ### The error slot -/

theorem findLastErrorLoop_spec (typs : List GoType) :
    ∀ k : Nat, k ≤ typs.length →
      (findLastErrorLoop typs k = -1 ∧
        ∀ (j : Nat) (t : GoType), j < k → typs[j]? = some t → t.String ≠ "error") ∨
      (∃ p : Nat, p < k ∧ findLastErrorLoop typs k = (p : Int) ∧
        (∃ t, typs[p]? = some t ∧ t.String = "error") ∧
        ∀ (j : Nat) (t : GoType), p < j → j < k → typs[j]? = some t → t.String ≠ "error") := by
  intro k
  induction k with
  | zero =>
    intro _
    left
    exact ⟨rfl, fun j t hj => absurd hj (Nat.not_lt_zero j)⟩
  | succ k ih =>
    intro hk
    have hlt : k < typs.length := by omega
    have hget : typs[k]? = some typs[k] := List.getElem?_eq_getElem hlt
    rw [findLastErrorLoop, hget]
    by_cases he : typs[k].String = "error"
    · right
      refine ⟨k, by omega, by simp [he], ⟨typs[k], hget, he⟩, ?_⟩
      intro j t hj hjk
      omega
    · simp only [he, if_false]
      rcases ih (by omega) with ⟨h1, h2⟩ | ⟨p, hp, h1, h2, h3⟩
      · left
        refine ⟨h1, ?_⟩
        intro j t hj hjt
        by_cases e : j = k
        · subst e
          rw [hget] at hjt
          simp only [Option.some.injEq] at hjt
          subst hjt
          exact he
        · exact h2 j t (by omega) hjt
      · right
        refine ⟨p, by omega, h1, h2, ?_⟩
        intro j t hpj hj hjt
        by_cases e : j = k
        · subst e
          rw [hget] at hjt
          simp only [Option.some.injEq] at hjt
          subst hjt
          exact he
        · exact h3 j t hpj (by omega) hjt

/-- C14: `findLastError` returns the greatest index whose type renders as
"error" (the test the code makes for the error type), and returns -1 exactly
when no position has such a type. -/
theorem findLastError_spec (typs : List GoType) :
    (findLastError typs = -1 ↔ ∀ t ∈ typs, t.String ≠ "error") ∧
    (∀ p : Nat, findLastError typs = (p : Int) ↔
      ((∃ t, typs[p]? = some t ∧ t.String = "error") ∧
        ∀ (j : Nat) (t : GoType), p < j → typs[j]? = some t → t.String ≠ "error")) ∧
    (findLastError typs = -1 ∨ ∃ p : Nat, p < typs.length ∧ findLastError typs = (p : Int)) := by
  have hmain := findLastErrorLoop_spec typs typs.length (Nat.le_refl _)
  have hbound : ∀ (j : Nat) (t : GoType), typs[j]? = some t → j < typs.length := by
    intro j t h
    rcases List.getElem?_eq_some.mp h with ⟨h1, -⟩
    exact h1
  unfold findLastError
  refine ⟨?_, ?_, ?_⟩
  · constructor
    · intro h t ht
      rcases hmain with ⟨-, h2⟩ | ⟨p, -, h1, -, -⟩
      · obtain ⟨j, hj⟩ := List.getElem?_of_mem ht
        exact h2 j t (hbound j t hj) hj
      · rw [h1] at h
        omega
    · intro h
      rcases hmain with ⟨h1, -⟩ | ⟨p, -, -, ⟨t, ht, he⟩, -⟩
      · exact h1
      · exact absurd he (h t (List.getElem?_mem ht))
  · intro p
    constructor
    · intro h
      rcases hmain with ⟨h1, -⟩ | ⟨q, -, h1, h2, h3⟩
      · rw [h1] at h
        omega
      · have e : q = p := by
          rw [h1] at h
          exact_mod_cast h
        subst e
        exact ⟨h2, fun j t hj hjt => h3 j t hj (hbound j t hjt) hjt⟩
    · rintro ⟨⟨t, ht, he⟩, hlater⟩
      rcases hmain with ⟨-, h2⟩ | ⟨q, -, h1, ⟨t1, ht1, he1⟩, h3⟩
      · exact absurd he (h2 p t (hbound p t ht) ht)
      · rw [h1]
        rcases Nat.lt_trichotomy p q with hlt | heq | hgt
        · exact absurd he1 (hlater q t1 hlt ht1)
        · rw [heq]
        · exact absurd he (h3 p t hgt (hbound p t ht) ht)
  · rcases hmain with ⟨h1, -⟩ | ⟨p, hp, h1, -, -⟩
    · exact Or.inl h1
    · exact Or.inr ⟨p, hp, h1⟩

/-- C14, witness of the tie-break: with `error` at positions 0 and 1 the last of
them is returned, as in `TestFindLastError`. -/
theorem findLastError_spec_witness :
    findLastError [errorType, errorType, .int] = ((1 : Nat) : Int) :=
  ((findLastError_spec [errorType, errorType, .int]).2.1 1).mpr
    ⟨⟨errorType, rfl, by decide⟩, by
      intro j t hj hjt
      match j, hj, hjt with
      | 2, _, hjt =>
        simp only [List.getElem?_cons_succ, List.getElem?_cons_zero, Option.some.injEq] at hjt
        subst hjt
        decide
      | k + 3, _, hjt => simp at hjt⟩

/-! ### What a pipeline run tells about its converters -/

theorem makePipeLoop_inv_success (cs : List Converter) :
    ∀ (rest : List Value) (i : Nat) (out out1 : List Value),
      makePipeLoop cs i rest out = .ret (out1, none) →
      out1.length = out.length ∧
      (∀ q, q < i → out1[q]? = out[q]?) ∧
      (∀ q, i + rest.length ≤ q → out1[q]? = out[q]?) ∧
      (∀ (m : Nat) (x : Value), rest[m]? = some x →
        ∃ (conv : Converter) (y : Value), cs[i + m]? = some conv ∧ conv x = .ret (y, none) ∧
          (i + m < out.length → out1[i + m]? = some y)) := by
  intro rest
  induction rest with
  | nil =>
    intro i out out1 h
    simp only [makePipeLoop, Result.ret.injEq, Prod.mk.injEq, and_true] at h
    subst h
    refine ⟨rfl, fun _ _ => rfl, fun _ _ => rfl, ?_⟩
    intro m x hm
    simp at hm
  | cons v rest ih =>
    intro i out out1 h
    rw [makePipeLoop] at h
    cases hc : cs[i]? with
    | none => simp [hc] at h
    | some conv =>
      simp only [hc] at h
      cases hv : conv v with
      | panic p => simp [hv] at h
      | ret r =>
        obtain ⟨d, oe⟩ := r
        cases oe with
        | some e => simp [hv] at h
        | none =>
          simp only [hv] at h
          obtain ⟨hl, hlow, hhigh, hpt⟩ := ih (i + 1) (out.set i d) out1 h
          refine ⟨by rw [hl, List.length_set], ?_, ?_, ?_⟩
          · intro q hq
            rw [hlow q (by omega), List.getElem?_set_ne (by omega)]
          · intro q hq
            simp only [List.length_cons] at hq
            rw [hhigh q (by omega), List.getElem?_set_ne (by omega)]
          · intro m x hm
            cases m with
            | zero =>
              simp only [List.getElem?_cons_zero, Option.some.injEq] at hm
              subst hm
              refine ⟨conv, d, by simpa using hc, hv, ?_⟩
              intro hlt
              simp only [Nat.add_zero] at hlt ⊢
              rw [hlow i (by omega), List.getElem?_set_self hlt]
            | succ m =>
              simp only [List.getElem?_cons_succ] at hm
              obtain ⟨conv1, y, h1, h2, h3⟩ := hpt m x hm
              have e : i + (m + 1) = i + 1 + m := by omega
              rw [e]
              refine ⟨conv1, y, h1, h2, ?_⟩
              intro hlt
              exact h3 (by rw [List.length_set]; exact hlt)

theorem makePipeLoop_inv_failure (cs : List Converter) :
    ∀ (rest : List Value) (i : Nat) (out out1 : List Value) (e : GoError),
      makePipeLoop cs i rest out = .ret (out1, some e) →
      ∃ (k : Nat) (conv : Converter) (v d : Value) (c : GoError),
        e = .convertError ((i + k : Nat) : Int) c ∧
        rest[k]? = some v ∧ cs[i + k]? = some conv ∧ conv v = .ret (d, some c) ∧
        out1.length = out.length ∧
        (∀ q, q < i → out1[q]? = out[q]?) ∧
        (∀ q, i + k < q → out1[q]? = out[q]?) ∧
        (i + k < out.length → out1[i + k]? = some d) ∧
        (∀ (m : Nat) (x : Value), m < k → rest[m]? = some x →
          ∃ (conv1 : Converter) (y : Value), cs[i + m]? = some conv1 ∧
            conv1 x = .ret (y, none) ∧ (i + m < out.length → out1[i + m]? = some y)) := by
  intro rest
  induction rest with
  | nil =>
    intro i out out1 e h
    simp [makePipeLoop] at h
  | cons v rest ih =>
    intro i out out1 e h
    rw [makePipeLoop] at h
    cases hc : cs[i]? with
    | none => simp [hc] at h
    | some conv =>
      simp only [hc] at h
      cases hv : conv v with
      | panic p => simp [hv] at h
      | ret r =>
        obtain ⟨d, oe⟩ := r
        cases oe with
        | some c =>
          simp only [hv, Result.ret.injEq, Prod.mk.injEq, Option.some.injEq] at h
          obtain ⟨h1, h2⟩ := h
          subst h1
          subst h2
          refine ⟨0, conv, v, d, c, rfl, by simp, by simpa using hc, hv, by rw [List.length_set],
            ?_, ?_, ?_, ?_⟩
          · intro q hq
            rw [List.getElem?_set_ne (by omega)]
          · intro q hq
            rw [List.getElem?_set_ne (by omega)]
          · intro hlt
            simp only [Nat.add_zero] at hlt ⊢
            rw [List.getElem?_set_self hlt]
          · intro m x hm
            omega
        | none =>
          simp only [hv] at h
          obtain ⟨k, conv1, v1, d1, c, he, hk, hck, hcv, hl, hlow, hhigh, hat, hprev⟩ :=
            ih (i + 1) (out.set i d) out1 e h
          have e1 : i + 1 + k = i + (k + 1) := by omega
          refine ⟨k + 1, conv1, v1, d1, c, by rw [he, e1], by simpa using hk,
            by rw [← e1]; exact hck, hcv, by rw [hl, List.length_set], ?_, ?_, ?_, ?_⟩
          · intro q hq
            rw [hlow q (by omega), List.getElem?_set_ne (by omega)]
          · intro q hq
            rw [hhigh q (by omega), List.getElem?_set_ne (by omega)]
          · intro hlt
            rw [← e1]
            exact hat (by rw [List.length_set]; omega)
          · intro m x hm hx
            cases m with
            | zero =>
              simp only [List.getElem?_cons_zero, Option.some.injEq] at hx
              subst hx
              refine ⟨conv, d, by simpa using hc, hv, ?_⟩
              intro hlt
              simp only [Nat.add_zero] at hlt ⊢
              rw [hlow i (by omega), List.getElem?_set_self hlt]
            | succ m =>
              simp only [List.getElem?_cons_succ] at hx
              obtain ⟨conv2, y, h1, h2, h3⟩ := hprev m x (by omega) hx
              have e2 : i + (m + 1) = i + 1 + m := by omega
              rw [e2]
              refine ⟨conv2, y, h1, h2, ?_⟩
              intro hlt
              exact h3 (by rw [List.length_set]; exact hlt)

/-! ### Typing of values through converters, `Call` and `MakeFunc` -/

theorem forall₂_of_getElem? {α β : Type} {R : α → β → Prop} :
    ∀ (l1 : List α) (l2 : List β), l1.length = l2.length →
      (∀ (q : Nat) (a : α) (b : β), l1[q]? = some a → l2[q]? = some b → R a b) →
      List.Forall₂ R l1 l2 := by
  intro l1
  induction l1 with
  | nil =>
    intro l2 hl _
    cases l2 with
    | nil => exact List.Forall₂.nil
    | cons b l2 => simp at hl
  | cons a l1 ih =>
    intro l2 hl h
    cases l2 with
    | nil => simp at hl
    | cons b l2 =>
      refine List.Forall₂.cons (h 0 a b (by simp) (by simp)) (ih l2 (by simpa using hl) ?_)
      intro q a1 b1 h1 h2
      exact h (q + 1) a1 b1 (by simpa using h1) (by simpa using h2)

theorem getElem?_of_forall₂ {α β : Type} {R : α → β → Prop} {l1 : List α} {l2 : List β}
    (h : List.Forall₂ R l1 l2) :
    ∀ (q : Nat) (a : α) (b : β), l1[q]? = some a → l2[q]? = some b → R a b := by
  induction h with
  | nil =>
    intro q a b h1
    simp at h1
  | cons hab _ ih =>
    intro q a b h1 h2
    cases q with
    | zero =>
      simp only [List.getElem?_cons_zero, Option.some.injEq] at h1 h2
      subst h1
      subst h2
      exact hab
    | succ q => exact ih q a b (by simpa using h1) (by simpa using h2)

theorem Kind_ne_Invalid (t : GoType) : t.Kind ≠ .Invalid := by
  induction t <;> simp_all [GoType.Kind]

theorem Value.Kind_ne_Invalid_of_Type {v : Value} {t : GoType} (h : v.Type = .ret t) :
    v.Kind ≠ .Invalid := by
  cases v with
  | invalid => simp [Value.Type] at h
  | concrete s d => exact Kind_ne_Invalid s
  | iface s dyn => simp [Value.Kind]

theorem Value.IsValid_of_Type {v : Value} {t : GoType} (h : v.Type = .ret t) :
    v.IsValid = true := by
  cases v with
  | invalid => simp [Value.Type] at h
  | concrete s d => rfl
  | iface s dyn => rfl

theorem retype_self {v : Value} {t : GoType} (h : v.Type = .ret t) : v.retype t = v := by
  cases v with
  | invalid => simp [Value.Type] at h
  | concrete s d =>
    simp only [Value.Type, Result.ret.injEq] at h
    subst h
    rfl
  | iface s dyn =>
    simp only [Value.Type, Result.ret.injEq] at h
    subst h
    rfl

theorem directlyAssignable_self (t : GoType) : directlyAssignable t t = true := by
  simp [directlyAssignable]

theorem AssignableTo_self (t : GoType) : t.AssignableTo t = true := by
  simp [GoType.AssignableTo, directlyAssignable_self]

theorem assignTo_self {v : Value} {t : GoType} (context : String) (h : v.Type = .ret t) :
    v.assignTo context t = .ret v := by
  unfold Value.assignTo
  rw [h]
  simp only [directlyAssignable_self, if_true, retype_self h]

theorem Zero_Type (t : GoType) : (Zero t).Type = .ret t := by
  unfold Zero
  by_cases h : t.Kind = .Interface
  · simp [h, Value.Type]
  · simp [h, Value.Type]

theorem assignResults_typed {types : List GoType} {vs : List Value}
    (h : List.Forall₂ (fun t v => Value.Type v = .ret t) types vs) :
    assignResults types vs = .ret vs := by
  induction h with
  | nil => rfl
  | cons hab _ ih =>
    rw [assignResults]
    simp only [Value.IsValid_of_Type hab, Bool.not_true, Bool.false_eq_true, if_false,
      assignTo_self _ hab, ih]

theorem MakeFunc_typed {typ : FuncType} {fn : GoFunc} {args out : List Value}
    (hfn : fn args = .ret out)
    (h : List.Forall₂ (fun t v => Value.Type v = .ret t) typ.outs out) :
    MakeFunc typ fn args = .ret out := by
  unfold MakeFunc
  have hl : out.length = typ.outs.length := h.length_eq.symm
  simp only [hfn, hl, ne_eq, not_true_eq_false, if_false, assignResults_typed h]

theorem MakeFunc_panic {typ : FuncType} {fn : GoFunc} {args : List Value} {p : PanicVal}
    (hfn : fn args = .panic p) : MakeFunc typ fn args = .panic p := by
  unfold MakeFunc
  simp only [hfn]

theorem checkArgs_typed {types : List GoType} {vs : List Value}
    (h : List.Forall₂ (fun t v => Value.Type v = .ret t) types vs) :
    checkArgs types vs = .ret () := by
  induction h with
  | nil => rfl
  | cons hab _ ih =>
    rw [checkArgs]
    simp only [hab, AssignableTo_self, if_true, ih]

theorem assignArgs_typed {types : List GoType} {vs : List Value}
    (h : List.Forall₂ (fun t v => Value.Type v = .ret t) types vs) :
    assignArgs types vs = .ret vs := by
  induction h with
  | nil => rfl
  | cons hab _ ih =>
    rw [assignArgs]
    simp only [assignTo_self _ hab, ih]

theorem any_invalid_typed {types : List GoType} {vs : List Value}
    (h : List.Forall₂ (fun t v => Value.Type v = .ret t) types vs) :
    vs.any (fun x => decide (x.Kind = .Invalid)) = false := by
  induction h with
  | nil => rfl
  | cons hab _ ih =>
    simp only [List.any_cons, ih, Bool.or_false, decide_eq_false_iff_not]
    exact Value.Kind_ne_Invalid_of_Type hab

theorem Call_typed {typ : FuncType} {f : GoFunc} {args : List Value}
    (hv : typ.variadic = false)
    (h : List.Forall₂ (fun t v => Value.Type v = .ret t) typ.ins args) :
    Call typ (some f) args = f args := by
  unfold Call
  have hl : args.length = typ.ins.length := h.length_eq.symm
  simp only [hv, Bool.false_eq_true, if_false, hl, Nat.lt_irrefl, Bool.not_false, Bool.true_and,
    gt_iff_lt, decide_False, any_invalid_typed h, List.take_length, checkArgs_typed h,
    assignArgs_typed h]

theorem reverseConvert_error {typ : GoType} {v d : Value} {c : GoError}
    (h : reverseConvertToItfType typ v = .ret (d, some c)) :
    d = .invalid ∧ ∃ D, v.dynamicType = some D ∧
      c = .errorf (D.String ++ " cannot be converted to " ++ typ.String) := by
  have key : ∀ (D : GoType) (dd : Data),
      ((match (Value.concrete D dd).Type with
        | .panic p => Result.panic p
        | .ret t =>
          if t = typ then Result.ret (Value.concrete D dd, none)
          else if t.AssignableTo typ then
            match (Value.concrete D dd).Convert typ with
            | .panic p => Result.panic p
            | .ret dest => Result.ret (dest, none)
          else
            Result.ret (Value.invalid,
              some (GoError.errorf (t.String ++ " cannot be converted to " ++ typ.String)))) :
          Result (Value × Option GoError)) =
        .ret (d, some c) →
      d = .invalid ∧ c = .errorf (D.String ++ " cannot be converted to " ++ typ.String) := by
    intro D dd hk
    simp only [Value.Type] at hk
    by_cases h1 : D = typ
    · simp [h1] at hk
    · by_cases h2 : D.AssignableTo typ = true
      · simp only [h1, h2, if_false, if_true] at hk
        cases hc : (Value.concrete D dd).Convert typ with
        | panic p => simp [hc] at hk
        | ret w => simp [hc] at hk
      · simp only [h1, h2, if_false, Result.ret.injEq, Prod.mk.injEq, Option.some.injEq,
          Bool.false_eq_true] at hk
        exact ⟨hk.1.symm, hk.2.symm⟩
  cases v with
  | invalid => simp [reverseConvertToItfType, Value.Kind, Value.Type] at h
  | concrete t dd =>
    by_cases hk : t.Kind = .Interface
    · simp [reverseConvertToItfType, Value.Kind, Value.Elem, hk] at h
    · simp only [reverseConvertToItfType, Value.Kind, hk, if_false] at h
      obtain ⟨h1, h2⟩ := key t dd h
      exact ⟨h1, t, rfl, h2⟩
  | iface t dyn =>
    cases dyn with
    | none => simp [reverseConvertToItfType, Value.Kind, Value.Elem, Value.Type] at h
    | some pr =>
      obtain ⟨D, dd⟩ := pr
      simp only [reverseConvertToItfType, Value.Kind, Value.Elem, if_true] at h
      obtain ⟨h1, h2⟩ := key D dd h
      exact ⟨h1, D, rfl, h2⟩

theorem reverseConvert_type {typ : GoType} {v y : Value}
    (h : reverseConvertToItfType typ v = .ret (y, none)) : y.Type = .ret typ := by
  have key : ∀ (D : GoType) (dd : Data),
      ((match (Value.concrete D dd).Type with
        | .panic p => Result.panic p
        | .ret t =>
          if t = typ then Result.ret (Value.concrete D dd, none)
          else if t.AssignableTo typ then
            match (Value.concrete D dd).Convert typ with
            | .panic p => Result.panic p
            | .ret dest => Result.ret (dest, none)
          else
            Result.ret (Value.invalid,
              some (GoError.errorf (t.String ++ " cannot be converted to " ++ typ.String)))) :
          Result (Value × Option GoError)) =
        .ret (y, none) →
      y.Type = .ret typ := by
    intro D dd hk
    simp only [Value.Type] at hk
    by_cases h1 : D = typ
    · simp only [h1, if_true, Result.ret.injEq, Prod.mk.injEq, and_true] at hk
      rw [← hk]
      rfl
    · by_cases h2 : D.AssignableTo typ = true
      · simp only [h1, h2, if_false, if_true] at hk
        obtain ⟨w, hw, hwt⟩ :=
          Convert_of_assignable (v := Value.concrete D dd) (T := D) rfl h2
        simp only [hw, Result.ret.injEq, Prod.mk.injEq, and_true] at hk
        rw [← hk]
        exact hwt
      · simp [h1, h2] at hk
  cases v with
  | invalid => simp [reverseConvertToItfType, Value.Kind, Value.Type] at h
  | concrete t dd =>
    by_cases hk : t.Kind = .Interface
    · simp [reverseConvertToItfType, Value.Kind, Value.Elem, hk] at h
    · simp only [reverseConvertToItfType, Value.Kind, hk, if_false] at h
      exact key t dd h
  | iface t dyn =>
    cases dyn with
    | none => simp [reverseConvertToItfType, Value.Kind, Value.Elem, Value.Type] at h
    | some pr =>
      obtain ⟨D, dd⟩ := pr
      simp only [reverseConvertToItfType, Value.Kind, Value.Elem, if_true] at h
      exact key D dd h

theorem convertToType_no_error {typ : GoType} {v d : Value} {c : GoError}
    (h : convertToType typ v = .ret (d, some c)) : False := by
  unfold convertToType at h
  cases hc : v.Convert typ with
  | panic p => simp [hc] at h
  | ret w => simp [hc] at h

theorem slot_error {tin tout : GoType} {v d : Value} {c : GoError}
    (h : slot tin tout nilConverter v = .ret (d, some c)) :
    d = .invalid ∧ ∃ D, v.dynamicType = some D ∧
      c = .errorf (D.String ++ " cannot be converted to " ++ tout.String) := by
  unfold slot at h
  cases hs : specStrategy tin tout with
  | identity => simp [hs, directMap] at h
  | assignability =>
    simp only [hs] at h
    exact absurd h (fun h => convertToType_no_error h)
  | unwrap =>
    simp only [hs] at h
    exact reverseConvert_error h
  | incompatible => simp [hs, nilConverter] at h

theorem specStrategy_identity {tin tout : GoType} (h : specStrategy tin tout = .identity) :
    tin = tout := by
  unfold specStrategy at h
  by_cases h1 : tin = tout
  · exact h1
  · by_cases h2 : tin.AssignableTo tout = true
    · simp [h1, h2] at h
    · by_cases h3 : tin.Kind = .Interface ∧ implements tin tout = true
      · simp [h1, h2, h3] at h
      · simp [h1, h2, h3] at h

theorem specStrategy_assignability {tin tout : GoType}
    (h : specStrategy tin tout = .assignability) : tin.AssignableTo tout = true := by
  unfold specStrategy at h
  by_cases h1 : tin = tout
  · simp [h1] at h
  · by_cases h2 : tin.AssignableTo tout = true
    · exact h2
    · by_cases h3 : tin.Kind = .Interface ∧ implements tin tout = true
      · simp [h1, h2, h3] at h
      · simp [h1, h2, h3] at h

theorem slot_type {tin tout : GoType} {v y : Value} (hv : v.Type = .ret tin)
    (h : slot tin tout nilConverter v = .ret (y, none)) : y.Type = .ret tout := by
  unfold slot at h
  cases hs : specStrategy tin tout with
  | identity =>
    simp only [hs, directMap, Result.ret.injEq, Prod.mk.injEq, and_true] at h
    rw [← h, ← specStrategy_identity hs]
    exact hv
  | assignability =>
    simp only [hs, convertToType] at h
    obtain ⟨w, hw, hwt⟩ := Convert_of_assignable hv (specStrategy_assignability hs)
    simp only [hw, Result.ret.injEq, Prod.mk.injEq, and_true] at h
    rw [← h]
    exact hwt
  | unwrap =>
    simp only [hs] at h
    exact reverseConvert_type h
  | incompatible => simp [hs, nilConverter] at h

theorem MapConverter_slots {inTypes outTypes : List GoType} {convs : List Converter}
    {e : Option GoError} (hlen : inTypes.length = outTypes.length)
    (h : MapConverter inTypes outTypes = .ret (convs, e)) :
    convs.length = inTypes.length ∧
      (∀ (i : Nat) (tin tout : GoType), inTypes[i]? = some tin → outTypes[i]? = some tout →
        convs[i]? = some (slot tin tout nilConverter)) ∧
      (e = none → ∀ (i : Nat) (tin tout : GoType), inTypes[i]? = some tin →
        outTypes[i]? = some tout → specStrategy tin tout ≠ .incompatible) := by
  obtain ⟨convs1, e1, h1, hl, hslot, hrep, -⟩ := MapConverter_resolve inTypes outTypes hlen
  rw [h] at h1
  simp only [Result.ret.injEq, Prod.mk.injEq] at h1
  obtain ⟨hc, he⟩ := h1
  subst hc
  subst he
  refine ⟨hl, hslot, ?_⟩
  intro hnone i tin tout hi ho hinc
  exact (hrep i tin tout hi ho hinc).1 hnone

/-! ### The error handler -/

theorem initOutLoop_spec (pos : Nat) :
    ∀ (rest : List GoType) (i : Nat) (out : List Value), i + rest.length ≤ out.length →
      ∃ out1, initOutLoop pos i rest out = .ret out1 ∧ out1.length = out.length ∧
        (∀ q, q < i → out1[q]? = out[q]?) ∧
        (∀ q, i + rest.length ≤ q → out1[q]? = out[q]?) ∧
        (∀ (m : Nat) (typ : GoType) (v : Value), rest[m]? = some typ → out[i + m]? = some v →
          out1[i + m]? = some (if i + m ≠ pos ∧ v.IsValid = false then Zero typ else v)) := by
  intro rest
  induction rest with
  | nil =>
    intro i out _
    refine ⟨out, rfl, rfl, fun _ _ => rfl, fun _ _ => rfl, ?_⟩
    intro m typ v hm
    simp at hm
  | cons typ0 rest ih =>
    intro i out hlen
    simp only [List.length_cons] at hlen
    have hi : i < out.length := by omega
    have hget : out[i]? = some out[i] := List.getElem?_eq_getElem hi
    -- the output slice after the body of the loop at index `i`
    have hstep : ∃ outn, initOutLoop pos i (typ0 :: rest) out = initOutLoop pos (i + 1) rest outn ∧
        outn.length = out.length ∧ (∀ q, q ≠ i → outn[q]? = out[q]?) ∧
        outn[i]? = some (if i ≠ pos ∧ out[i].IsValid = false then Zero typ0 else out[i]) := by
      by_cases hp : i = pos
      · refine ⟨out, ?_, rfl, fun _ _ => rfl, ?_⟩
        · rw [initOutLoop]
          simp [hp]
        · simp [hp, hget]
      · by_cases hv : out[i].IsValid = true
        · refine ⟨out, ?_, rfl, fun _ _ => rfl, ?_⟩
          · rw [initOutLoop]
            simp [hp, hget, hv]
          · simp [hv, hget]
        · have hv1 : out[i].IsValid = false := by simpa using hv
          refine ⟨out.set i (Zero typ0), ?_, by rw [List.length_set], ?_, ?_⟩
          · rw [initOutLoop]
            simp [hp, hget, hv1]
          · intro q hq
            rw [List.getElem?_set_ne (fun h => hq h.symm)]
          · rw [List.getElem?_set_self hi]
            simp [hp, hv1]
    obtain ⟨outn, hs, hln, hother, hat⟩ := hstep
    obtain ⟨out1, h1, hl1, hlow, hhigh, hpt⟩ := ih (i + 1) outn (by omega)
    refine ⟨out1, by rw [hs, h1], by rw [hl1, hln], ?_, ?_, ?_⟩
    · intro q hq
      rw [hlow q (by omega), hother q (by omega)]
    · intro q hq
      simp only [List.length_cons] at hq
      rw [hhigh q (by omega), hother q (by omega)]
    · intro m typ v hm hv
      cases m with
      | zero =>
        simp only [List.getElem?_cons_zero, Option.some.injEq] at hm
        simp only [Nat.add_zero] at hv ⊢
        rw [hget] at hv
        simp only [Option.some.injEq] at hv
        subst hm
        subst hv
        rw [hlow i (by omega), hat]
      | succ m =>
        simp only [List.getElem?_cons_succ] at hm
        have e : i + (m + 1) = i + 1 + m := by omega
        rw [e] at hv ⊢
        exact hpt m typ v hm (by rw [hother _ (by omega)]; exact hv)

theorem Convert_error_value (err : GoError) :
    (ValueOfError err).Convert errorType =
      .ret (.iface errorType (some (err.dynType, .err err))) := by
  cases err <;> rfl

theorem handleErrorSlot_spec {types : List GoType} {pos : Nat} {out : List Value}
    (err : GoError) (hl : out.length = types.length) (hpos : types[pos]? = some errorType) :
    ∃ out2, handleErrorSlot types pos err out = .ret out2 ∧ out2.length = out.length ∧
      out2[pos]? = some (.iface errorType (some (err.dynType, .err err))) ∧
      (∀ (q : Nat) (typ : GoType) (v : Value), q ≠ pos → types[q]? = some typ →
        out[q]? = some v → out2[q]? = some (if v.IsValid = true then v else Zero typ)) := by
  obtain ⟨out1, h1, hl1, -, -, hpt⟩ := initOutLoop_spec pos types 0 out (by omega)
  have hp : pos < types.length := by
    rcases List.getElem?_eq_some.mp hpos with ⟨h, -⟩
    exact h
  have hp1 : pos < out1.length := by omega
  refine ⟨out1.set pos (.iface errorType (some (err.dynType, .err err))), ?_,
    by rw [List.length_set, hl1], by rw [List.getElem?_set_self hp1], ?_⟩
  · unfold handleErrorSlot
    simp only [h1, hpos, Convert_error_value, hp1, if_true]
  · intro q typ v hq ht hv
    rw [List.getElem?_set_ne (fun h => hq h.symm)]
    have h := hpt q typ v ht (by simpa using hv)
    simp only [Nat.zero_add] at h
    rw [h]
    cases hval : v.IsValid <;> simp [hq]

theorem selectHandler_slot {types : List GoType} {pos : Nat}
    (h : findLastError types = (pos : Int)) :
    selectHandler types = handleErrorSlot types pos := by
  unfold selectHandler
  rw [h]
  simp

theorem selectHandler_panic {types : List GoType} (h : findLastError types = -1) :
    selectHandler types = handleErrorPanic := by
  unfold selectHandler
  rw [h]
  simp

theorem WrapAs_adapted {srcFuncType destFuncValType : FuncType} (srcFn cur : Option GoFunc)
    (ptyp : String) {inC outC : List Converter}
    (hin : srcFuncType.ins.length = destFuncValType.ins.length)
    (hout : srcFuncType.outs.length = destFuncValType.outs.length)
    (hvar : srcFuncType.variadic = destFuncValType.variadic)
    (hC : MapConverter destFuncValType.ins srcFuncType.ins = .ret (inC, none))
    (hO : MapConverter srcFuncType.outs destFuncValType.outs = .ret (outC, none)) :
    WrapAs (.func srcFuncType srcFn) (.ptr ptyp (some (.funcVar destFuncValType cur))) =
      .ret (none, .ptr ptyp (some (.funcVar destFuncValType
        (some (adapted srcFuncType srcFn destFuncValType inC outC))))) := by
  simp only [WrapAs, wrapFunc_resolved _ _ _ hin hout hvar, hC, hO]

/-! ### Invocation of the adapted function -/

theorem wrapped_in_fail {srcFuncType : FuncType} {srcFn : Option GoFunc}
    {funcIn funcOut : List Value → Result (List Value × Option GoError)}
    {handleError : GoError → List Value → Result (List Value)} {numOut : Nat}
    {inp o : List Value} {p : Int} {c : GoError}
    (h : funcIn inp = .ret (o, some (.convertError p c))) :
    wrapped srcFuncType srcFn funcIn funcOut handleError numOut inp =
      handleError (.ArgumentError p c) (List.replicate numOut Value.invalid) := by
  unfold wrapped
  simp only [h]

theorem wrapped_out_fail {srcFuncType : FuncType} {srcFn : Option GoFunc}
    {funcIn funcOut : List Value → Result (List Value × Option GoError)}
    {handleError : GoError → List Value → Result (List Value)} {numOut : Nat}
    {inp innerIn innerOut o : List Value} {p : Int} {c : GoError}
    (h : funcIn inp = .ret (innerIn, none))
    (hcall : Call srcFuncType srcFn innerIn = .ret innerOut)
    (hfail : funcOut innerOut = .ret (o, some (.convertError p c))) :
    wrapped srcFuncType srcFn funcIn funcOut handleError numOut inp =
      handleError (.RetVarError p c) o := by
  unfold wrapped
  simp only [h, hcall, hfail]

theorem wrapped_ok {srcFuncType : FuncType} {srcFn : Option GoFunc}
    {funcIn funcOut : List Value → Result (List Value × Option GoError)}
    {handleError : GoError → List Value → Result (List Value)} {numOut : Nat}
    {inp innerIn innerOut o : List Value}
    (h : funcIn inp = .ret (innerIn, none))
    (hcall : Call srcFuncType srcFn innerIn = .ret innerOut)
    (hout : funcOut innerOut = .ret (o, none)) :
    wrapped srcFuncType srcFn funcIn funcOut handleError numOut inp = .ret o := by
  unfold wrapped
  simp only [h, hcall, hout]

theorem pipe_failure_cause {inTypes outTypes : List GoType} {convs : List Converter}
    {e : Option GoError} (hlen : inTypes.length = outTypes.length)
    (hM : MapConverter inTypes outTypes = .ret (convs, e))
    {values o : List Value} {i : Nat} {c : GoError}
    (hfail : makePipe convs values = .ret (o, some (.convertError (i : Int) c))) :
    ∃ (v : Value) (D tin tout : GoType), values[i]? = some v ∧ v.dynamicType = some D ∧
      inTypes[i]? = some tin ∧ outTypes[i]? = some tout ∧
      c = .errorf (D.String ++ " cannot be converted to " ++ tout.String) ∧
      o.length = values.length ∧ (i < values.length → o[i]? = some Value.invalid) ∧
      (∀ q, i < q → q < values.length → o[q]? = some Value.invalid) ∧
      (∀ (m : Nat) (x : Value) (t1 t2 : GoType), m < i → values[m]? = some x →
        inTypes[m]? = some t1 → outTypes[m]? = some t2 →
        ∃ y, convs[m]? = some (slot t1 t2 nilConverter) ∧
          slot t1 t2 nilConverter x = .ret (y, none) ∧ o[m]? = some y) := by
  obtain ⟨hcl, hslot, -⟩ := MapConverter_slots hlen hM
  unfold makePipe at hfail
  obtain ⟨k, conv, v, d, c1, he, hk, hck, hcv, hl, -, hhigh, hat, hprev⟩ :=
    makePipeLoop_inv_failure convs values 0 _ o _ hfail
  simp only [Nat.zero_add, GoError.convertError.injEq, Nat.cast_inj] at he hck hhigh hat hprev
  obtain ⟨hik, hc⟩ := he
  subst hik
  subst hc
  have hi1 : i < convs.length := by
    rcases List.getElem?_eq_some.mp hck with ⟨h, -⟩
    exact h
  have hi2 : i < inTypes.length := by omega
  have hi3 : i < outTypes.length := by omega
  have hiv : i < values.length := by
    rcases List.getElem?_eq_some.mp hk with ⟨h, -⟩
    exact h
  have hs := hslot i inTypes[i] outTypes[i] (List.getElem?_eq_getElem hi2)
    (List.getElem?_eq_getElem hi3)
  rw [hck] at hs
  simp only [Option.some.injEq] at hs
  subst hs
  obtain ⟨hd, D, hD, hcD⟩ := slot_error hcv
  subst hd
  simp only [List.length_replicate] at hl hat
  refine ⟨v, D, inTypes[i], outTypes[i], hk, hD, List.getElem?_eq_getElem hi2,
    List.getElem?_eq_getElem hi3, hcD, hl, hat, ?_, ?_⟩
  · intro q hq hqv
    rw [hhigh q hq]
    simp [hqv]
  · intro m x t1 t2 hm hx ht1 ht2
    obtain ⟨conv1, y, h1, h2, h3⟩ := hprev m x hm hx
    have hs1 := hslot m t1 t2 ht1 ht2
    rw [h1] at hs1
    simp only [Option.some.injEq] at hs1
    subst hs1
    refine ⟨y, h1, h2, h3 ?_⟩
    simp only [List.length_replicate]
    omega

/-- C17: when the target signature has an error slot at `pos` and the input
pipeline fails at argument position `i`, the adapted function returns a tuple
holding the zero value of the target return type at every position other than
the error slot and, in the error slot, the `ArgumentError` for position `i`,
whose message is
"argument <i+1>, <dynamic type> cannot be converted to <source argument type>". -/
theorem adapted_input_error (srcFuncType destFuncValType : FuncType)
    (srcFn cur : Option GoFunc) (ptyp : String) (inC outC : List Converter)
    (hin : srcFuncType.ins.length = destFuncValType.ins.length)
    (hout : srcFuncType.outs.length = destFuncValType.outs.length)
    (hvar : srcFuncType.variadic = destFuncValType.variadic)
    (hC : MapConverter destFuncValType.ins srcFuncType.ins = .ret (inC, none))
    (hO : MapConverter srcFuncType.outs destFuncValType.outs = .ret (outC, none))
    (pos : Nat) (hslot : findLastError destFuncValType.outs = (pos : Int))
    (herr : destFuncValType.outs[pos]? = some errorType)
    (hbound : destFuncValType.ins.length < 2 ^ 63)
    (args o : List Value) (i : Nat) (c : GoError)
    (hfail : makePipe inC args = .ret (o, some (.convertError (i : Int) c))) :
    WrapAs (.func srcFuncType srcFn) (.ptr ptyp (some (.funcVar destFuncValType cur))) =
        .ret (none, .ptr ptyp (some (.funcVar destFuncValType
          (some (adapted srcFuncType srcFn destFuncValType inC outC))))) ∧
    ∃ (tuple : List Value) (v : Value) (D C : GoType),
      adapted srcFuncType srcFn destFuncValType inC outC args = .ret tuple ∧
      tuple.length = destFuncValType.outs.length ∧
      (∀ (q : Nat) (typ : GoType), q ≠ pos → destFuncValType.outs[q]? = some typ →
        tuple[q]? = some (Zero typ)) ∧
      tuple[pos]? = some (.iface errorType
        (some ((GoError.ArgumentError (i : Int) c).dynType, .err (.ArgumentError (i : Int) c)))) ∧
      args[i]? = some v ∧ v.dynamicType = some D ∧ srcFuncType.ins[i]? = some C ∧
      (GoError.ArgumentError (i : Int) c).Error =
        "argument " ++ toString (i + 1) ++ ", " ++ D.String ++ " cannot be converted to " ++
          C.String := by
  refine ⟨WrapAs_adapted srcFn cur ptyp hin hout hvar hC hO, ?_⟩
  obtain ⟨v, D, tin, tout, hv, hD, hti, hto, hc, -, -, -, -⟩ :=
    pipe_failure_cause hin.symm hC hfail
  have hlen0 : (List.replicate srcFuncType.outs.length Value.invalid).length =
      destFuncValType.outs.length := by
    rw [List.length_replicate, hout]
  obtain ⟨out2, h2, hl2, hat, hother⟩ :=
    handleErrorSlot_spec (GoError.ArgumentError (i : Int) c) hlen0 herr
  have hzero : ∀ (q : Nat) (typ : GoType), q ≠ pos → destFuncValType.outs[q]? = some typ →
      out2[q]? = some (Zero typ) := by
    intro q typ hq ht
    have hq1 : q < srcFuncType.outs.length := by
      rcases List.getElem?_eq_some.mp ht with ⟨h, -⟩
      omega
    have h := hother q typ Value.invalid hq ht (by simp [hq1])
    simpa [Value.IsValid] using h
  have htyped : List.Forall₂ (fun t w => Value.Type w = .ret t) destFuncValType.outs out2 := by
    apply forall₂_of_getElem?
    · rw [hl2, hlen0]
    · intro q t w ht hw
      by_cases hq : q = pos
      · subst hq
        rw [hat] at hw
        rw [herr] at ht
        simp only [Option.some.injEq] at hw ht
        subst hw
        subst ht
        rfl
      · rw [hzero q t hq ht] at hw
        simp only [Option.some.injEq] at hw
        subst hw
        exact Zero_Type t
  have hw : wrapped srcFuncType srcFn (makePipe inC) (makePipe outC)
      (selectHandler destFuncValType.outs) srcFuncType.outs.length args = .ret out2 := by
    rw [wrapped_in_fail hfail, selectHandler_slot hslot]
    exact h2
  have hlt : i + 1 < 2 ^ 63 := by
    rcases List.getElem?_eq_some.mp hti with ⟨h, -⟩
    omega
  refine ⟨out2, v, D, tout, MakeFunc_typed hw htyped, by rw [hl2, hlen0], hzero, hat, hv, hD,
    hto, ?_⟩
  simp only [GoError.Error, toString_position i hlt, hc, String.append_assoc]

/-- C17, witness: `endpoint2(nil, 123)` of `TestWrap_endpointInputCastingError`. -/
theorem adapted_input_error_witness :
    MapConverter endpointType.ins lengthFuncType.ins =
        .ret ([directMap, reverseConvertToItfType .string], none) ∧
      findLastError endpointType.outs = ((1 : Nat) : Int) ∧
    ∃ tuple, adapted lengthFuncType (some lengthFunc) endpointType
          [directMap, reverseConvertToItfType .string] [convertToType emptyInterface, directMap]
          [.iface contextType none, .iface emptyInterface (some (.int, .int 123))] =
        .ret tuple ∧
      tuple[0]? = some (Zero emptyInterface) ∧
      tuple[1]? = some (.iface errorType
        (some ((GoError.ArgumentError 1 (.errorf "int cannot be converted to string")).dynType,
          .err (.ArgumentError 1 (.errorf "int cannot be converted to string"))))) := by
  refine ⟨rfl, rfl, ?_⟩
  obtain ⟨-, tuple, v, D, C, h1, -, h3, h4, -⟩ :=
    adapted_input_error lengthFuncType endpointType (some lengthFunc) none
      "*func(context.Context, interface {}) (interface {}, error)"
      [directMap, reverseConvertToItfType .string] [convertToType emptyInterface, directMap]
      rfl rfl rfl rfl rfl 1 rfl rfl (by decide)
      [.iface contextType none, .iface emptyInterface (some (.int, .int 123))]
      [.iface contextType none, .invalid] 1 (.errorf "int cannot be converted to string") rfl
  exact ⟨tuple, h1, h3 0 emptyInterface (by decide) rfl, h4⟩

theorem hasType_Type {v : Value} {t : GoType} (h : v.hasType t = true) : v.Type = .ret t := by
  cases v with
  | invalid => simp [Value.hasType] at h
  | concrete s d =>
    simp only [Value.hasType, Bool.and_eq_true, decide_eq_true_eq] at h
    rw [← h.1]
    rfl
  | iface s dyn =>
    simp only [Value.hasType, Bool.and_eq_true, decide_eq_true_eq] at h
    rw [← h.1]
    rfl

theorem hasTypes_forall₂ :
    ∀ (ts : List GoType) (vs : List Value), hasTypes ts vs = true →
      List.Forall₂ (fun t v => Value.hasType t v = true) ts vs := by
  intro ts
  induction ts with
  | nil =>
    intro vs h
    cases vs with
    | nil => exact List.Forall₂.nil
    | cons v vs => simp [hasTypes] at h
  | cons t ts ih =>
    intro vs h
    cases vs with
    | nil => simp [hasTypes] at h
    | cons v vs =>
      simp only [hasTypes, Bool.and_eq_true] at h
      exact List.Forall₂.cons h.1 (ih vs h.2)

theorem hasTypes_typed {ts : List GoType} {vs : List Value} (h : hasTypes ts vs = true) :
    List.Forall₂ (fun t v => Value.Type v = .ret t) ts vs :=
  (hasTypes_forall₂ ts vs h).imp (fun _ _ h => hasType_Type h)

/-- C19 (as amended): when the target signature has an error slot at `pos` and
the conversion of the source's return values fails at position `j`, the adapted
function returns a tuple that keeps, at every position before `j` other than the
error slot, the value already converted from the source's return value; holds
the zero value of the target type at every position from `j` on other than the
error slot; and holds, in the error slot, the `RetVarError` for position `j`,
whose message is
"return variable <j+1>, <dynamic type> cannot be converted to <target return type>". -/
theorem adapted_output_error (srcFuncType destFuncValType : FuncType)
    (srcFn cur : Option GoFunc) (ptyp : String) (inC outC : List Converter)
    (hin : srcFuncType.ins.length = destFuncValType.ins.length)
    (hout : srcFuncType.outs.length = destFuncValType.outs.length)
    (hvar : srcFuncType.variadic = destFuncValType.variadic)
    (hC : MapConverter destFuncValType.ins srcFuncType.ins = .ret (inC, none))
    (hO : MapConverter srcFuncType.outs destFuncValType.outs = .ret (outC, none))
    (pos : Nat) (hslot : findLastError destFuncValType.outs = (pos : Int))
    (herr : destFuncValType.outs[pos]? = some errorType)
    (hbound : destFuncValType.outs.length < 2 ^ 63)
    (args innerIn innerOut o : List Value) (j : Nat) (c : GoError)
    (hpipe : makePipe inC args = .ret (innerIn, none))
    (hcall : Call srcFuncType srcFn innerIn = .ret innerOut)
    (htyped : hasTypes srcFuncType.outs innerOut = true)
    (hfail : makePipe outC innerOut = .ret (o, some (.convertError (j : Int) c))) :
    WrapAs (.func srcFuncType srcFn) (.ptr ptyp (some (.funcVar destFuncValType cur))) =
        .ret (none, .ptr ptyp (some (.funcVar destFuncValType
          (some (adapted srcFuncType srcFn destFuncValType inC outC))))) ∧
    ∃ (tuple : List Value) (v : Value) (D T : GoType),
      adapted srcFuncType srcFn destFuncValType inC outC args = .ret tuple ∧
      tuple.length = destFuncValType.outs.length ∧
      (∀ (q : Nat) (x : Value), q ≠ pos → q < j → innerOut[q]? = some x →
        ∃ (conv : Converter) (y : Value), outC[q]? = some conv ∧ conv x = .ret (y, none) ∧
          tuple[q]? = some y) ∧
      (∀ (q : Nat) (typ : GoType), q ≠ pos → j ≤ q → destFuncValType.outs[q]? = some typ →
        tuple[q]? = some (Zero typ)) ∧
      tuple[pos]? = some (.iface errorType
        (some ((GoError.RetVarError (j : Int) c).dynType, .err (.RetVarError (j : Int) c)))) ∧
      innerOut[j]? = some v ∧ v.dynamicType = some D ∧ destFuncValType.outs[j]? = some T ∧
      (GoError.RetVarError (j : Int) c).Error =
        "return variable " ++ toString (j + 1) ++ ", " ++ D.String ++
          " cannot be converted to " ++ T.String := by
  refine ⟨WrapAs_adapted srcFn cur ptyp hin hout hvar hC hO, ?_⟩
  have hty := hasTypes_typed htyped
  have hlio : innerOut.length = srcFuncType.outs.length := hty.length_eq.symm
  obtain ⟨v, D, tin, tout, hv, hD, hti, hto, hc, hlo, hoj, hoafter, hobefore⟩ :=
    pipe_failure_cause hout hO hfail
  have hjv : j < innerOut.length := by
    rcases List.getElem?_eq_some.mp hv with ⟨h, -⟩
    exact h
  have hlen0 : o.length = destFuncValType.outs.length := by omega
  obtain ⟨out2, h2, hl2, hat, hother⟩ :=
    handleErrorSlot_spec (GoError.RetVarError (j : Int) c) hlen0 herr
  -- positions before `j`
  have hbefore : ∀ (q : Nat) (x : Value), q < j → innerOut[q]? = some x →
      ∃ (y : Value) (T1 J1 : GoType), srcFuncType.outs[q]? = some T1 ∧
        destFuncValType.outs[q]? = some J1 ∧ outC[q]? = some (slot T1 J1 nilConverter) ∧
        slot T1 J1 nilConverter x = .ret (y, none) ∧ o[q]? = some y ∧ y.Type = .ret J1 := by
    intro q x hq hx
    have hq1 : q < srcFuncType.outs.length := by omega
    have hq2 : q < destFuncValType.outs.length := by omega
    obtain ⟨y, hy0, hy1, hy2⟩ := hobefore q x srcFuncType.outs[q] destFuncValType.outs[q] hq hx
      (List.getElem?_eq_getElem hq1) (List.getElem?_eq_getElem hq2)
    have hxt : x.Type = .ret srcFuncType.outs[q] :=
      getElem?_of_forall₂ hty q _ x (List.getElem?_eq_getElem hq1) hx
    exact ⟨y, _, _, List.getElem?_eq_getElem hq1, List.getElem?_eq_getElem hq2, hy0, hy1, hy2,
      slot_type hxt hy1⟩
  have hkeep : ∀ (q : Nat) (x : Value), q ≠ pos → q < j → innerOut[q]? = some x →
      ∃ (conv : Converter) (y : Value), outC[q]? = some conv ∧ conv x = .ret (y, none) ∧
        out2[q]? = some y := by
    intro q x hqp hq hx
    obtain ⟨y, T1, J1, -, hJ, hcv, hy1, hy2, hy3⟩ := hbefore q x hq hx
    refine ⟨_, y, hcv, hy1, ?_⟩
    rw [hother q J1 y hqp hJ hy2]
    simp [Value.IsValid_of_Type hy3]
  have hzero : ∀ (q : Nat) (typ : GoType), q ≠ pos → j ≤ q →
      destFuncValType.outs[q]? = some typ → out2[q]? = some (Zero typ) := by
    intro q typ hqp hq ht
    have hq1 : q < innerOut.length := by
      rcases List.getElem?_eq_some.mp ht with ⟨h, -⟩
      omega
    have hoq : o[q]? = some Value.invalid := by
      rcases Nat.eq_or_lt_of_le hq with h | h
      · subst h
        exact hoj hjv
      · exact hoafter q h hq1
    have h := hother q typ Value.invalid hqp ht hoq
    simpa [Value.IsValid] using h
  have htuple : List.Forall₂ (fun t w => Value.Type w = .ret t) destFuncValType.outs out2 := by
    apply forall₂_of_getElem?
    · rw [hl2, hlen0]
    · intro q t w ht hw
      by_cases hq : q = pos
      · subst hq
        rw [hat] at hw
        rw [herr] at ht
        simp only [Option.some.injEq] at hw ht
        subst hw
        subst ht
        rfl
      · by_cases hqj : q < j
        · have hq1 : q < innerOut.length := by omega
          obtain ⟨y, T1, J1, -, hJ, -, -, hy2, hy3⟩ :=
            hbefore q innerOut[q] hqj (List.getElem?_eq_getElem hq1)
          rw [hother q J1 y hq hJ hy2] at hw
          rw [hJ] at ht
          simp only [Value.IsValid_of_Type hy3, if_true, Option.some.injEq] at hw ht
          subst hw
          subst ht
          exact hy3
        · rw [hzero q t hq (by omega) ht] at hw
          simp only [Option.some.injEq] at hw
          subst hw
          exact Zero_Type t
  have hw : wrapped srcFuncType srcFn (makePipe inC) (makePipe outC)
      (selectHandler destFuncValType.outs) srcFuncType.outs.length args = .ret out2 := by
    rw [wrapped_out_fail hpipe hcall hfail, selectHandler_slot hslot]
    exact h2
  have hlt : j + 1 < 2 ^ 63 := by omega
  refine ⟨out2, v, D, tout, MakeFunc_typed hw htuple, by rw [hl2, hlen0], hkeep, hzero, hat, hv,
    hD, hto, ?_⟩
  simp only [GoError.Error, toString_position j hlt, hc, String.append_assoc]

/-- C19, counterexample: a source `func() (int, interface{}, error)` that returns
`(5, 123, nil)`, adapted to `func() (int, string, error)`.  The conversion fails
at position 1; the adapted function returns `(5, "", RetVarError)`: position 0
keeps the converted value 5, which is not the zero value of `int`. -/
theorem adapted_output_error_counterexample :
    ∃ g, WrapAs (.func tripleSrcType (some tripleFunc))
        (.ptr "*func() (int, string, error)" (some (.funcVar tripleDestType none))) =
        .ret (none, .ptr "*func() (int, string, error)"
          (some (.funcVar tripleDestType (some g)))) ∧
      g [] = .ret [.concrete .int (.int 5), .concrete .string (.str ""),
        .iface errorType
          (some ((GoError.RetVarError 1 (.errorf "int cannot be converted to string")).dynType,
            .err (.RetVarError 1 (.errorf "int cannot be converted to string"))))] ∧
      Value.concrete .int (.int 5) ≠ Zero .int ∧
      (GoError.RetVarError 1 (.errorf "int cannot be converted to string")).Error =
        "return variable 2, int cannot be converted to string" := by
  refine ⟨_, rfl, rfl, ?_, by decide⟩
  intro h
  simp [Zero, zeroData, GoType.Kind] at h

/-- C19, witness: `endpoint(nil, "hello")` of `TestWrap_endpointOutputCastingError`
in the shape of the counterexample: the source returns `(5, 123, nil)` and the
second result does not convert to `string`. -/
theorem adapted_output_error_witness :
    MapConverter tripleSrcType.outs tripleDestType.outs =
        .ret ([directMap, reverseConvertToItfType .string, directMap], none) ∧
      findLastError tripleDestType.outs = ((2 : Nat) : Int) ∧
    ∃ tuple, adapted tripleSrcType (some tripleFunc) tripleDestType []
          [directMap, reverseConvertToItfType .string, directMap] [] = .ret tuple ∧
      tuple[1]? = some (Zero .string) ∧
      tuple[2]? = some (.iface errorType
        (some ((GoError.RetVarError 1 (.errorf "int cannot be converted to string")).dynType,
          .err (.RetVarError 1 (.errorf "int cannot be converted to string"))))) := by
  refine ⟨rfl, rfl, ?_⟩
  obtain ⟨-, tuple, v, D, T, h1, -, -, h4, h5, -⟩ :=
    adapted_output_error tripleSrcType tripleDestType (some tripleFunc) none
      "*func() (int, string, error)" [] [directMap, reverseConvertToItfType .string, directMap]
      rfl rfl rfl rfl rfl 2 rfl rfl (by decide) [] []
      [.concrete .int (.int 5), .iface emptyInterface (some (.int, .int 123)),
        .iface errorType none]
      [.concrete .int (.int 5), .invalid, .invalid] 1
      (.errorf "int cannot be converted to string") rfl rfl rfl rfl
  exact ⟨tuple, h1, h4 1 .string (by decide) (by decide) rfl, h5⟩

/-! ### Calls of the source function -/

theorem wrappedSt_logged (srcFuncType : FuncType) (srcFn : Option GoFunc)
    (funcIn funcOut : List Value → Result (List Value × Option GoError))
    (handleError : GoError → List Value → Result (List Value)) (numOut : Nat)
    (inp : List Value) (log : List (List Value)) :
    wrappedSt (loggedCall srcFuncType srcFn) funcIn funcOut handleError numOut inp log =
      (wrapped srcFuncType srcFn funcIn funcOut handleError numOut inp,
        match funcIn inp with
        | .ret (innerIn, none) => log ++ [innerIn]
        | _ => log) := by
  unfold wrappedSt wrapped loggedCall
  cases h1 : funcIn inp with
  | panic p => rfl
  | ret r =>
    obtain ⟨innerIn, oe⟩ := r
    cases oe with
    | some e => cases e <;> rfl
    | none =>
      simp only []
      cases h2 : Call srcFuncType srcFn innerIn with
      | panic p => rfl
      | ret innerOut =>
        simp only []
        cases h3 : funcOut innerOut with
        | panic p => rfl
        | ret r2 =>
          obtain ⟨out, oe2⟩ := r2
          cases oe2 with
          | some e => cases e <;> rfl
          | none => rfl

theorem MakeFuncSt_eq {σ : Type} (typ : FuncType) (fn : GoFuncSt σ) (g : GoFunc)
    (args : List Value) (s s1 : σ) (h : fn args s = (g args, s1)) :
    MakeFuncSt typ fn args s = (MakeFunc typ g args, s1) := by
  unfold MakeFuncSt MakeFunc
  rw [h]
  cases hg : g args with
  | panic p => rfl
  | ret out =>
    simp only []
    by_cases hl : out.length = typ.outs.length
    · simp [hl]
    · simp [hl]

theorem adaptedLogged_eq (srcFuncType : FuncType) (srcFn : Option GoFunc)
    (destFuncValType : FuncType) (inC outC : List Converter) (args : List Value)
    (log : List (List Value)) :
    adaptedLogged srcFuncType srcFn destFuncValType inC outC args log =
      (adapted srcFuncType srcFn destFuncValType inC outC args,
        match makePipe inC args with
        | .ret (innerIn, none) => log ++ [innerIn]
        | _ => log) := by
  unfold adaptedLogged adapted
  exact MakeFuncSt_eq _ _ _ _ _ _ (wrappedSt_logged _ _ _ _ _ _ _ _)

theorem pipe_success_typed {inTypes outTypes : List GoType} {convs : List Converter}
    {e : Option GoError} (hlen : inTypes.length = outTypes.length)
    (hM : MapConverter inTypes outTypes = .ret (convs, e))
    {values res : List Value}
    (hty : List.Forall₂ (fun t v => Value.Type v = .ret t) inTypes values)
    (hpipe : makePipe convs values = .ret (res, none)) :
    List.Forall₂ (fun t v => Value.Type v = .ret t) outTypes res := by
  obtain ⟨-, hslot, -⟩ := MapConverter_slots hlen hM
  unfold makePipe at hpipe
  obtain ⟨hl, -, -, hpt⟩ := makePipeLoop_inv_success convs values 0 _ res hpipe
  simp only [List.length_replicate, Nat.zero_add] at hl hpt
  have hlv : inTypes.length = values.length := hty.length_eq
  apply forall₂_of_getElem?
  · omega
  · intro q t w ht hw
    have hq : q < values.length := by
      rcases List.getElem?_eq_some.mp hw with ⟨h, -⟩
      omega
    have hq1 : q < inTypes.length := by omega
    obtain ⟨conv, y, h1, h2, h3⟩ := hpt q values[q] (List.getElem?_eq_getElem hq)
    have hs := hslot q inTypes[q] t (List.getElem?_eq_getElem hq1) ht
    rw [h1] at hs
    simp only [Option.some.injEq] at hs
    subst hs
    rw [h3 hq] at hw
    simp only [Option.some.injEq] at hw
    subst hw
    exact slot_type
      (getElem?_of_forall₂ hty q _ _ (List.getElem?_eq_getElem hq1) (List.getElem?_eq_getElem hq))
      h2

/-- C18: the adapted function makes the call `srcFuncVal.Call(innerIn)` exactly
once, on the converted arguments in their order, when the input pipeline
succeeds, whatever the output pipeline does afterwards, and makes no call when
the input pipeline fails or panics; the instrumented function computes what the
adapted function computes.  For a source that is not variadic and arguments of
the target's parameter types, that call runs the source function on exactly the
converted arguments. -/
theorem adapted_calls_once (srcFuncType destFuncValType : FuncType)
    (srcFn cur : Option GoFunc) (ptyp : String) (inC outC : List Converter)
    (hin : srcFuncType.ins.length = destFuncValType.ins.length)
    (hout : srcFuncType.outs.length = destFuncValType.outs.length)
    (hvar : srcFuncType.variadic = destFuncValType.variadic)
    (hC : MapConverter destFuncValType.ins srcFuncType.ins = .ret (inC, none))
    (hO : MapConverter srcFuncType.outs destFuncValType.outs = .ret (outC, none))
    (args : List Value) :
    WrapAs (.func srcFuncType srcFn) (.ptr ptyp (some (.funcVar destFuncValType cur))) =
        .ret (none, .ptr ptyp (some (.funcVar destFuncValType
          (some (adapted srcFuncType srcFn destFuncValType inC outC))))) ∧
    (adaptedLogged srcFuncType srcFn destFuncValType inC outC args []).1 =
        adapted srcFuncType srcFn destFuncValType inC outC args ∧
    (∀ innerIn : List Value, makePipe inC args = .ret (innerIn, none) →
      (adaptedLogged srcFuncType srcFn destFuncValType inC outC args []).2 = [innerIn]) ∧
    (∀ (o : List Value) (e : GoError), makePipe inC args = .ret (o, some e) →
      (adaptedLogged srcFuncType srcFn destFuncValType inC outC args []).2 = []) ∧
    (∀ p : PanicVal, makePipe inC args = .panic p →
      (adaptedLogged srcFuncType srcFn destFuncValType inC outC args []).2 = []) ∧
    (∀ (f : GoFunc) (innerIn : List Value), srcFn = some f → srcFuncType.variadic = false →
      hasTypes destFuncValType.ins args = true → makePipe inC args = .ret (innerIn, none) →
      Call srcFuncType srcFn innerIn = f innerIn) := by
  refine ⟨WrapAs_adapted srcFn cur ptyp hin hout hvar hC hO, ?_, ?_, ?_, ?_, ?_⟩
  · rw [adaptedLogged_eq]
  · intro innerIn h
    rw [adaptedLogged_eq]
    simp only [h, List.nil_append]
  · intro o e h
    rw [adaptedLogged_eq]
    simp only [h]
  · intro p h
    rw [adaptedLogged_eq]
    simp only [h]
  · intro f innerIn hf hv hty hpipe
    subst hf
    exact Call_typed hv (pipe_success_typed hin.symm hC (hasTypes_typed hty) hpipe)

/-- C18, witness: the call `endpoint(nil, "hello world")` of `TestWrap_endpoint`
makes one call of `lengthFunc`, on `(nil, "hello world")`. -/
theorem adapted_calls_once_witness :
    MapConverter endpointType.ins lengthFuncType.ins =
        .ret ([directMap, reverseConvertToItfType .string], none) ∧
      MapConverter lengthFuncType.outs endpointType.outs =
        .ret ([convertToType emptyInterface, directMap], none) ∧
    (adaptedLogged lengthFuncType (some lengthFunc) endpointType
        [directMap, reverseConvertToItfType .string] [convertToType emptyInterface, directMap]
        [.iface contextType none, .iface emptyInterface (some (.string, .str "hello world"))]
        []).2 =
      [[.iface contextType none, .concrete .string (.str "hello world")]] :=
  ⟨rfl, rfl,
    (adapted_calls_once lengthFuncType endpointType (some lengthFunc) none
      "*func(context.Context, interface {}) (interface {}, error)"
      [directMap, reverseConvertToItfType .string] [convertToType emptyInterface, directMap]
      rfl rfl rfl rfl rfl
      [.iface contextType none,
        .iface emptyInterface (some (.string, .str "hello world"))]).2.2.1
      [.iface contextType none, .concrete .string (.str "hello world")] rfl⟩

/-- C20: when the target signature has no error-typed return, a failure of the
input pipeline at position `i` makes the adapted function panic with the
`ArgumentError` for `i` as payload, without any call of the source; a failure
of the output pipeline at position `j` makes it panic with the `RetVarError`
for `j` as payload. -/
theorem adapted_panics (srcFuncType destFuncValType : FuncType)
    (srcFn cur : Option GoFunc) (ptyp : String) (inC outC : List Converter)
    (hin : srcFuncType.ins.length = destFuncValType.ins.length)
    (hout : srcFuncType.outs.length = destFuncValType.outs.length)
    (hvar : srcFuncType.variadic = destFuncValType.variadic)
    (hC : MapConverter destFuncValType.ins srcFuncType.ins = .ret (inC, none))
    (hO : MapConverter srcFuncType.outs destFuncValType.outs = .ret (outC, none))
    (hnone : findLastError destFuncValType.outs = -1) (args : List Value) :
    WrapAs (.func srcFuncType srcFn) (.ptr ptyp (some (.funcVar destFuncValType cur))) =
        .ret (none, .ptr ptyp (some (.funcVar destFuncValType
          (some (adapted srcFuncType srcFn destFuncValType inC outC))))) ∧
    (∀ (o : List Value) (i : Int) (c : GoError),
      makePipe inC args = .ret (o, some (.convertError i c)) →
      adapted srcFuncType srcFn destFuncValType inC outC args =
          .panic (.error (.ArgumentError i c)) ∧
        (adaptedLogged srcFuncType srcFn destFuncValType inC outC args []).2 = []) ∧
    (∀ (innerIn innerOut o : List Value) (j : Int) (c : GoError),
      makePipe inC args = .ret (innerIn, none) →
      Call srcFuncType srcFn innerIn = .ret innerOut →
      makePipe outC innerOut = .ret (o, some (.convertError j c)) →
      adapted srcFuncType srcFn destFuncValType inC outC args =
        .panic (.error (.RetVarError j c))) := by
  refine ⟨WrapAs_adapted srcFn cur ptyp hin hout hvar hC hO, ?_, ?_⟩
  · intro o i c h
    constructor
    · unfold adapted
      apply MakeFunc_panic
      rw [wrapped_in_fail h, selectHandler_panic hnone]
      rfl
    · rw [adaptedLogged_eq]
      simp only [h]
  · intro innerIn innerOut o j c h hcall hfail
    unfold adapted
    apply MakeFunc_panic
    rw [wrapped_out_fail h hcall hfail, selectHandler_panic hnone]
    rfl

/-- C20, witness: `endpoint(nil, "hello")` of `TestWrap_endpointPanic`: the panic
carries the `RetVarError` whose message is
"return variable 1, string cannot be converted to int". -/
theorem adapted_panics_witness :
    findLastError intResultType.outs = -1 ∧
    adapted faultyFuncType (some faultyFunc) intResultType [directMap, directMap]
        [reverseConvertToItfType .int]
        [.iface contextType none, .concrete .string (.str "hello")] =
      .panic (.error (.RetVarError 0 (.errorf "string cannot be converted to int"))) ∧
    (GoError.RetVarError 0 (.errorf "string cannot be converted to int")).Error =
      "return variable 1, string cannot be converted to int" :=
  ⟨rfl,
    (adapted_panics faultyFuncType intResultType (some faultyFunc) none
      "*func(context.Context, string) int" [directMap, directMap]
      [reverseConvertToItfType .int] rfl rfl rfl rfl rfl rfl
      [.iface contextType none, .concrete .string (.str "hello")]).2.2
      [.iface contextType none, .concrete .string (.str "hello")]
      [.iface emptyInterface (some (.string, .str "some length"))] [.invalid] 0
      (.errorf "string cannot be converted to int") rfl rfl rfl,
    by decide⟩

/-! ### Successful invocations -/

theorem makePipe_eq {cs : List Converter} {values res : List Value}
    (hlc : cs.length = values.length) (hlr : res.length = values.length)
    (h : ∀ (q : Nat) (conv : Converter) (a : Value), cs[q]? = some conv → values[q]? = some a →
      ∃ b, conv a = .ret (b, none) ∧ res[q]? = some b) :
    makePipe cs values = .ret (res, none) := by
  obtain ⟨out1, heq, hl, -, hpt⟩ := makePipeLoop_success cs values 0
    (List.replicate values.length Value.invalid) (by omega) (by
      intro k x c hx hc
      obtain ⟨b, hb, -⟩ := h k c x (by simpa using hc) hx
      exact ⟨b, hb⟩)
  simp only [List.length_replicate, Nat.zero_add] at hl hpt
  have hres : out1 = res := by
    apply List.ext_getElem?
    intro q
    by_cases hq : q < values.length
    · have hqc : q < cs.length := by omega
      obtain ⟨y, hy, hy1⟩ := hpt q values[q] cs[q] (List.getElem?_eq_getElem hq)
        (List.getElem?_eq_getElem hqc) hq
      obtain ⟨b, hb, hb1⟩ := h q cs[q] values[q] (List.getElem?_eq_getElem hqc)
        (List.getElem?_eq_getElem hq)
      rw [hy] at hb
      simp only [Result.ret.injEq, Prod.mk.injEq, and_true] at hb
      rw [hy1, hb1, hb]
    · rw [List.getElem?_eq_none (by omega), List.getElem?_eq_none (by omega)]
  unfold makePipe
  rw [heq, hres]

theorem slot_self (t : GoType) : slot t t nilConverter = directMap := by
  simp [slot, specStrategy]

theorem not_assignable_to_concrete {I C : GoType} (hI : I.Kind = .Interface)
    (hC : C.Kind ≠ .Interface) : I.AssignableTo C = false := by
  have hne : C ≠ I := by
    intro h
    rw [h] at hC
    exact hC hI
  have hk : C.Kind ≠ I.Kind := by
    rw [hI]
    exact hC
  simp [GoType.AssignableTo, directlyAssignable, implements, hne, hk, hC]

theorem slot_unwrap {I C : GoType} (d : Data) (hI : I.Kind = .Interface)
    (hC : C.Kind ≠ .Interface) (himpl : implements I C = true) :
    slot I C nilConverter (.iface I (some (C, d))) = .ret (.concrete C d, none) := by
  have hne : I ≠ C := by
    intro h
    rw [← h] at hC
    exact hC hI
  have hs : specStrategy I C = .unwrap := by
    simp [specStrategy, hne, not_assignable_to_concrete hI hC, hI, himpl]
  simp [slot, hs, reverseConvertToItfType, Value.Kind, Value.Elem, Value.Type]

theorem hasType_iface {v : Value} {J : GoType} (h : v.hasType J = true)
    (hJ : J.Kind = .Interface) : ∃ dyn, v = .iface J dyn := by
  cases v with
  | invalid => simp [Value.hasType] at h
  | concrete s d => simp [Value.hasType, hJ] at h
  | iface s dyn =>
    simp only [Value.hasType, Bool.and_eq_true, decide_eq_true_eq] at h
    exact ⟨dyn, by rw [h.1]⟩

theorem Convert_box {v : Value} {T J : GoType} (hv : v.hasType T = true)
    (hJ : J.Kind = .Interface) (ha : T.AssignableTo J = true) :
    v.Convert J = .ret (v.box J) := by
  unfold Value.Convert
  rw [hasType_Type hv]
  dsimp only
  have hop := convertOp_of_assignable ha
  unfold convertOp at hop ⊢
  have h1 : ¬ (T.Kind = .Int ∧ J.Kind = .Int) := by
    rw [hJ]
    simp
  have h2 : ¬ (T.Kind = .Int ∧ J.Kind = .String) := by
    rw [hJ]
    simp
  simp only [h1, h2, if_false] at hop ⊢
  by_cases h3 : haveIdenticalUnderlyingType J T = true
  · simp only [h3, if_true]
    have hu : J.underlying = T.underlying := by
      simpa [haveIdenticalUnderlyingType] using h3
    have hk : T.Kind = .Interface := by
      rw [← Kind_underlying T, ← hu, Kind_underlying J, hJ]
    obtain ⟨dyn, hd⟩ := hasType_iface hv hk
    subst hd
    rfl
  · have h4 : ptrBasesIdentical J T = false := by
      cases J <;> simp_all [ptrBasesIdentical, GoType.Kind]
    simp only [h3, h4, if_false, Bool.false_eq_true] at hop ⊢
    by_cases h5 : implements J T = true
    · simp only [h5, if_true]
      by_cases h6 : T.Kind = .Interface
      · simp [h6]
      · simp [h6]
    · simp [h5] at hop

theorem slot_box {v : Value} {T J : GoType} (hv : v.hasType T = true)
    (hJ : J.Kind = .Interface) (ha : T.AssignableTo J = true) :
    slot T J nilConverter v = .ret (v.box J, none) := by
  by_cases e : T = J
  · subst e
    obtain ⟨dyn, hd⟩ := hasType_iface hv hJ
    subst hd
    rw [slot_self]
    rfl
  · have hs : specStrategy T J = .assignability := by
      simp [specStrategy, e, ha]
    simp [slot, hs, convertToType, Convert_box hv hJ ha]

theorem MapConverter_none {inTypes outTypes : List GoType}
    (hlen : inTypes.length = outTypes.length)
    (h : ∀ (i : Nat) (tin tout : GoType), inTypes[i]? = some tin → outTypes[i]? = some tout →
      specStrategy tin tout ≠ .incompatible) :
    ∃ convs, MapConverter inTypes outTypes = .ret (convs, none) ∧
      convs.length = inTypes.length ∧
      ∀ (i : Nat) (tin tout : GoType), inTypes[i]? = some tin → outTypes[i]? = some tout →
        convs[i]? = some (slot tin tout nilConverter) := by
  obtain ⟨convs, e, h1, hl, hslot, -, hnone⟩ := MapConverter_resolve inTypes outTypes hlen
  have he : e = none := hnone h
  subst he
  exact ⟨convs, h1, hl, hslot⟩

/-- C15: when source and target have the same non-variadic signature, `WrapAs`
succeeds and the adapted function does, on every argument list of the
parameter types, exactly what the source does: it returns the values the source
returns (its error result included) and panics as the source panics.  The
source is taken to return values of its result types. -/
theorem adapted_passthrough (srcFuncType destFuncValType : FuncType) (f : GoFunc)
    (cur : Option GoFunc) (ptyp : String)
    (hins : destFuncValType.ins = srcFuncType.ins)
    (houts : destFuncValType.outs = srcFuncType.outs)
    (hvs : srcFuncType.variadic = false) (hvd : destFuncValType.variadic = false)
    (hf : ∀ args outs : List Value, hasTypes srcFuncType.ins args = true →
      f args = .ret outs → hasTypes srcFuncType.outs outs = true) :
    ∃ g, WrapAs (.func srcFuncType (some f))
        (.ptr ptyp (some (.funcVar destFuncValType cur))) =
        .ret (none, .ptr ptyp (some (.funcVar destFuncValType (some g)))) ∧
      ∀ args : List Value, hasTypes srcFuncType.ins args = true → g args = f args := by
  have hin : srcFuncType.ins.length = destFuncValType.ins.length := by rw [hins]
  have hout : srcFuncType.outs.length = destFuncValType.outs.length := by rw [houts]
  have hvar : srcFuncType.variadic = destFuncValType.variadic := by rw [hvs, hvd]
  have hcompat : ∀ (l : List GoType) (i : Nat) (tin tout : GoType), l[i]? = some tin →
      l[i]? = some tout → specStrategy tin tout ≠ .incompatible := by
    intro l i tin tout h1 h2
    rw [h1] at h2
    simp only [Option.some.injEq] at h2
    exact specStrategy_compatible (Or.inl h2)
  obtain ⟨inC, hC, hlC, hsC⟩ := MapConverter_none hin.symm (by
    rw [hins]
    exact hcompat srcFuncType.ins)
  obtain ⟨outC, hO, hlO, hsO⟩ := MapConverter_none hout (by
    rw [houts]
    exact hcompat srcFuncType.outs)
  have hid : ∀ (l : List GoType) (convs : List Converter) (vals : List Value),
      convs.length = l.length → List.Forall₂ (fun t v => Value.Type v = .ret t) l vals →
      (∀ (i : Nat) (tin tout : GoType), l[i]? = some tin → l[i]? = some tout →
        convs[i]? = some (slot tin tout nilConverter)) →
      makePipe convs vals = .ret (vals, none) := by
    intro l convs vals hl hty hs
    have hlv : l.length = vals.length := hty.length_eq
    apply makePipe_eq (by omega) rfl
    intro q conv a hc ha
    have hq : q < l.length := by
      rcases List.getElem?_eq_some.mp ha with ⟨h, -⟩
      omega
    have h := hs q l[q] l[q] (List.getElem?_eq_getElem hq) (List.getElem?_eq_getElem hq)
    rw [hc, slot_self] at h
    simp only [Option.some.injEq] at h
    subst h
    exact ⟨a, rfl, ha⟩
  refine ⟨_, WrapAs_adapted (some f) cur ptyp hin hout hvar hC hO, ?_⟩
  intro args hargs
  have hty := hasTypes_typed hargs
  have hpin : makePipe inC args = .ret (args, none) := by
    apply hid srcFuncType.ins inC args (by rw [hlC, hins]) hty
    intro i tin tout h1 h2
    exact hsC i tin tout (by rw [hins]; exact h1) h2
  have hcall : Call srcFuncType (some f) args = f args := Call_typed hvs hty
  unfold adapted
  cases hfa : f args with
  | panic p =>
    apply MakeFunc_panic
    unfold wrapped
    simp only [hpin, hcall, hfa]
  | ret outs =>
    have houtsT := hasTypes_typed (hf args outs hargs hfa)
    have hpout : makePipe outC outs = .ret (outs, none) := by
      apply hid srcFuncType.outs outC outs hlO houtsT
      intro i tin tout h1 h2
      exact hsO i tin tout h1 (by rw [houts]; exact h2)
    apply MakeFunc_typed (wrapped_ok hpin (by rw [hcall, hfa]) hpout)
    rw [houts]
    exact houtsT

/-- C15, witness: `TestWrap_passthrough`: `endpoint("hello")` returns 5. -/
theorem adapted_passthrough_witness :
    hasTypes lengthOfType.ins [.concrete .string (.str "hello")] = true ∧
    ∃ g, WrapAs (.func lengthOfType (some lengthOf))
        (.ptr "*func(string) int" (some (.funcVar lengthOfType none))) =
        .ret (none, .ptr "*func(string) int" (some (.funcVar lengthOfType (some g)))) ∧
      g [.concrete .string (.str "hello")] = .ret [.concrete .int (.int 5)] := by
  refine ⟨by decide, ?_⟩
  obtain ⟨g, h1, h2⟩ := adapted_passthrough lengthOfType lengthOfType lengthOf none
    "*func(string) int" rfl rfl rfl rfl (by
      intro args outs _ h
      unfold lengthOf at h
      split at h
      · simp only [Result.ret.injEq] at h
        subst h
        rfl
      · simp at h)
  exact ⟨g, h1, by rw [h2 _ (by decide)]; rfl⟩

/-- Widening on functions that are not variadic: let every target parameter type
be the source's parameter type or an interface type which the source's
non-interface parameter type implements, and every target result type be an
interface type to which the source's result type is assignable, both
functions not variadic.  Then `WrapAs` succeeds, and on
every call whose arguments carry values of the source's parameter types the
adapted function returns the source's results on those values, each boxed into
the target's result type, and panics as the source panics. -/
theorem adapted_interface (srcFuncType destFuncValType : FuncType) (f : GoFunc)
    (cur : Option GoFunc) (ptyp : String)
    (hin : srcFuncType.ins.length = destFuncValType.ins.length)
    (hout : srcFuncType.outs.length = destFuncValType.outs.length)
    (hvs : srcFuncType.variadic = false) (hvd : destFuncValType.variadic = false)
    (hargT : ∀ (q : Nat) (I C : GoType), destFuncValType.ins[q]? = some I →
      srcFuncType.ins[q]? = some C →
      I = C ∨ (I.Kind = .Interface ∧ C.Kind ≠ .Interface ∧ implements I C = true))
    (hretT : ∀ (q : Nat) (T J : GoType), srcFuncType.outs[q]? = some T →
      destFuncValType.outs[q]? = some J → J.Kind = .Interface ∧ T.AssignableTo J = true) :
    ∃ g, WrapAs (.func srcFuncType (some f))
        (.ptr ptyp (some (.funcVar destFuncValType cur))) =
        .ret (none, .ptr ptyp (some (.funcVar destFuncValType (some g)))) ∧
      ∀ args inner : List Value, args.length = destFuncValType.ins.length →
        inner.length = destFuncValType.ins.length →
        (∀ (q : Nat) (I C : GoType) (a b : Value), destFuncValType.ins[q]? = some I →
          srcFuncType.ins[q]? = some C → args[q]? = some a → inner[q]? = some b →
          carries I C a b) →
        (∀ outs : List Value, f inner = .ret outs → hasTypes srcFuncType.outs outs = true →
          g args = .ret (List.zipWith (fun J v => Value.box J v) destFuncValType.outs outs)) ∧
        (∀ p : PanicVal, f inner = .panic p → g args = .panic p) := by
  have hvar : srcFuncType.variadic = destFuncValType.variadic := by rw [hvs, hvd]
  obtain ⟨inC, hC, hlC, hsC⟩ := MapConverter_none hin.symm (by
    intro i tin tout h1 h2
    rcases hargT i tin tout h1 h2 with h | ⟨hI, -, himpl⟩
    · exact specStrategy_compatible (Or.inl h)
    · exact specStrategy_compatible (Or.inr (Or.inr ⟨hI, himpl⟩)))
  obtain ⟨outC, hO, hlO, hsO⟩ := MapConverter_none hout (by
    intro i tin tout h1 h2
    exact specStrategy_compatible (Or.inr (Or.inl (hretT i tin tout h1 h2).2)))
  refine ⟨_, WrapAs_adapted (some f) cur ptyp hin hout hvar hC hO, ?_⟩
  intro args inner hla hli hcar
  -- the input pipeline yields the carried values
  have hpin : makePipe inC args = .ret (inner, none) := by
    apply makePipe_eq (by omega) (by omega)
    intro q conv a hc ha
    have hq : q < destFuncValType.ins.length := by
      rcases List.getElem?_eq_some.mp ha with ⟨h, -⟩
      omega
    have hq1 : q < srcFuncType.ins.length := by omega
    have hq2 : q < inner.length := by omega
    have hs := hsC q _ _ (List.getElem?_eq_getElem hq) (List.getElem?_eq_getElem hq1)
    rw [hc] at hs
    simp only [Option.some.injEq] at hs
    subst hs
    refine ⟨inner[q], ?_, List.getElem?_eq_getElem hq2⟩
    rcases hcar q _ _ a inner[q] (List.getElem?_eq_getElem hq) (List.getElem?_eq_getElem hq1)
      ha (List.getElem?_eq_getElem hq2) with ⟨h1, -, h3⟩ | ⟨hI, hCk, himpl, d, h1, h2⟩
    · rw [h1, slot_self, h3]
      rfl
    · rw [h1, h2]
      exact slot_unwrap d hI hCk himpl
  have hinner : List.Forall₂ (fun t v => Value.Type v = .ret t) srcFuncType.ins inner := by
    apply forall₂_of_getElem? _ _ (by omega)
    intro q C b hCq hb
    have hq : q < destFuncValType.ins.length := by
      rcases List.getElem?_eq_some.mp hb with ⟨h, -⟩
      omega
    have hq3 : q < args.length := by omega
    rcases hcar q _ C args[q] b (List.getElem?_eq_getElem hq) hCq
      (List.getElem?_eq_getElem hq3) hb with ⟨-, h2, h3⟩ | ⟨-, -, -, d, -, h2⟩
    · rw [h3]
      exact h2
    · rw [h2]
      rfl
  have hcall : Call srcFuncType (some f) inner = f inner := Call_typed hvs hinner
  constructor
  · intro outs hfo houts
    have hF := hasTypes_forall₂ _ _ houts
    have hlo : srcFuncType.outs.length = outs.length := hF.length_eq
    have hpout : makePipe outC outs =
        .ret (List.zipWith (fun J v => Value.box J v) destFuncValType.outs outs, none) := by
      apply makePipe_eq (by omega) (by simp only [List.length_zipWith]; omega)
      intro q conv a hc ha
      have hq : q < outs.length := by
        rcases List.getElem?_eq_some.mp ha with ⟨h, -⟩
        exact h
      have hq1 : q < srcFuncType.outs.length := by omega
      have hq2 : q < destFuncValType.outs.length := by omega
      have hs := hsO q _ _ (List.getElem?_eq_getElem hq1) (List.getElem?_eq_getElem hq2)
      rw [hc] at hs
      simp only [Option.some.injEq] at hs
      subst hs
      obtain ⟨hJ, hass⟩ := hretT q _ _ (List.getElem?_eq_getElem hq1)
        (List.getElem?_eq_getElem hq2)
      have hat : a.hasType srcFuncType.outs[q] = true :=
        getElem?_of_forall₂ hF q _ a (List.getElem?_eq_getElem hq1) ha
      refine ⟨a.box destFuncValType.outs[q], slot_box hat hJ hass, ?_⟩
      rw [List.getElem?_zipWith, List.getElem?_eq_getElem hq2, ha]
    have hres : List.Forall₂ (fun t v => Value.Type v = .ret t) destFuncValType.outs
        (List.zipWith (fun J v => Value.box J v) destFuncValType.outs outs) := by
      apply forall₂_of_getElem? _ _ (by simp only [List.length_zipWith]; omega)
      intro q J w hJq hw
      rw [List.getElem?_zipWith, hJq] at hw
      cases ho : outs[q]? with
      | none => simp [ho] at hw
      | some v =>
        simp only [ho, Option.some.injEq] at hw
        subst hw
        have hq1 : q < srcFuncType.outs.length := by
          rcases List.getElem?_eq_some.mp ho with ⟨h, -⟩
          omega
        exact box_Type (hasType_Type
          (getElem?_of_forall₂ hF q _ v (List.getElem?_eq_getElem hq1) ho)) J
    unfold adapted
    exact MakeFunc_typed (wrapped_ok hpin (by rw [hcall, hfo]) hpout) hres
  · intro p hfp
    unfold adapted
    apply MakeFunc_panic
    unfold wrapped
    simp only [hpin, hcall, hfp]

/-- The example of `TestWrap_endpoint`: `lengthFunc` of type
`func(context.Context, string) (int, error)` wrapped as
`func(context.Context, interface{}) (interface{}, error)`; the call
`endpoint(nil, "hello world")` returns 11 and a nil error. -/
theorem adapted_interface_witness :
    lengthFuncType.ins.length = endpointType.ins.length ∧
      lengthFuncType.outs.length = endpointType.outs.length ∧
    ∃ g, WrapAs (.func lengthFuncType (some lengthFunc))
        (.ptr "*func(context.Context, interface {}) (interface {}, error)"
          (some (.funcVar endpointType none))) =
        .ret (none, .ptr "*func(context.Context, interface {}) (interface {}, error)"
          (some (.funcVar endpointType (some g)))) ∧
      g [.iface contextType none, .iface emptyInterface (some (.string, .str "hello world"))] =
        .ret [.iface emptyInterface (some (.int, .int 11)), .iface errorType none] := by
  refine ⟨rfl, rfl, ?_⟩
  obtain ⟨g, h1, h2⟩ := adapted_interface lengthFuncType endpointType lengthFunc none
    "*func(context.Context, interface {}) (interface {}, error)" rfl rfl rfl rfl (by
      intro q I C hI hC
      match q with
      | 0 =>
        simp only [endpointType, lengthFuncType, List.getElem?_cons_zero,
          Option.some.injEq] at hI hC
        exact Or.inl (hI.symm.trans hC)
      | 1 =>
        simp only [endpointType, lengthFuncType, List.getElem?_cons_succ,
          List.getElem?_cons_zero, Option.some.injEq] at hI hC
        subst hI
        subst hC
        exact Or.inr (by decide)
      | k + 2 => simp [endpointType] at hI) (by
      intro q T J hT hJ
      match q with
      | 0 =>
        simp only [endpointType, lengthFuncType, List.getElem?_cons_zero,
          Option.some.injEq] at hT hJ
        subst hT
        subst hJ
        decide
      | 1 =>
        simp only [endpointType, lengthFuncType, List.getElem?_cons_succ,
          List.getElem?_cons_zero, Option.some.injEq] at hT hJ
        subst hT
        subst hJ
        decide
      | k + 2 => simp [endpointType] at hJ)
  refine ⟨g, h1, ?_⟩
  have h3 := (h2 [.iface contextType none,
      .iface emptyInterface (some (.string, .str "hello world"))]
    [.iface contextType none, .concrete .string (.str "hello world")] rfl rfl (by
      intro q I C a b hI hC ha hb
      match q with
      | 0 =>
        simp only [endpointType, lengthFuncType, List.getElem?_cons_zero,
          Option.some.injEq] at hI hC ha hb
        subst hI
        subst hC
        subst ha
        subst hb
        exact Or.inl ⟨rfl, rfl, rfl⟩
      | 1 =>
        simp only [endpointType, lengthFuncType, List.getElem?_cons_succ,
          List.getElem?_cons_zero, Option.some.injEq] at hI hC ha hb
        subst hI
        subst hC
        subst ha
        subst hb
        exact Or.inr ⟨by decide, by decide, by decide, _, rfl, rfl⟩
      | k + 2 => simp [endpointType] at hI)).1
    [.concrete .int (.int 11), .iface errorType none] rfl (by decide)
  rw [h3]
  rfl

/-! ### Values that hold nil -/

/-- C21 (does not hold): the target `func(context.Context, interface{})
(interface{}, error)` has an error slot, at position 1, and `WrapAs` adapts a
source of type `func(context.Context, string) (int, error)` to it.  Called with
a nil `interface{}` argument, the adapted function panics with
"reflect: call of reflect.Value.Type on zero Value", whatever the source
function is: the converter of the argument asks the zero Value for its type
before the source is called.  The same happens on the return side: a source
`func() (int, interface{}, error)` that returns `(5, nil, nil)`, adapted to
`func() (int, string, error)`, makes the adapted function panic. -/
theorem adapted_nil_payload_panics :
    findLastError endpointType.outs = 1 ∧
    hasTypes endpointType.ins [.iface contextType none, .iface emptyInterface none] = true ∧
    (∀ srcFn : Option GoFunc,
      WrapAs (.func lengthFuncType srcFn)
          (.ptr "*func(context.Context, interface {}) (interface {}, error)"
            (some (.funcVar endpointType none))) =
        .ret (none, .ptr "*func(context.Context, interface {}) (interface {}, error)"
          (some (.funcVar endpointType
            (some (adapted lengthFuncType srcFn endpointType
              [directMap, reverseConvertToItfType .string]
              [convertToType emptyInterface, directMap]))))) ∧
      adapted lengthFuncType srcFn endpointType [directMap, reverseConvertToItfType .string]
          [convertToType emptyInterface, directMap]
          [.iface contextType none, .iface emptyInterface none] =
        .panic (.runtime "reflect: call of reflect.Value.Type on zero Value")) ∧
    findLastError tripleDestType.outs = 2 ∧
    tripleNilFunc [] =
      .ret [.concrete .int (.int 5), .iface emptyInterface none, .iface errorType none] ∧
    WrapAs (.func tripleSrcType (some tripleNilFunc))
        (.ptr "*func() (int, string, error)" (some (.funcVar tripleDestType none))) =
      .ret (none, .ptr "*func() (int, string, error)"
        (some (.funcVar tripleDestType
          (some (adapted tripleSrcType (some tripleNilFunc) tripleDestType []
            [directMap, reverseConvertToItfType .string, directMap]))))) ∧
    adapted tripleSrcType (some tripleNilFunc) tripleDestType []
        [directMap, reverseConvertToItfType .string, directMap] [] =
      .panic (.runtime "reflect: call of reflect.Value.Type on zero Value") := by
  refine ⟨rfl, rfl, fun srcFn => ⟨?_, rfl⟩, rfl, rfl, ?_, rfl⟩
  · exact WrapAs_adapted srcFn none _ rfl rfl rfl rfl rfl
  · exact WrapAs_adapted (some tripleNilFunc) none _ rfl rfl rfl rfl rfl

/-! ### Positions in messages -/

/-- C22: for every position `p ≥ 0` and every cause `c`,
`ArgumentError{p, c}.Error()` is "argument " followed by the decimal of `p+1`,
", " and the message of `c`, and `RetVarError{p, c}.Error()` is
"return variable " followed by the same; the two messages differ.  The
position is an `int` whose successor is an `int` as well, `p < 2^63 - 1` for the
64-bit `int` of the model: the positions the package puts in these errors are
indices of a slice. -/
theorem position_message (p : Int) (c : GoError) (h0 : 0 ≤ p) (hp : p < 2 ^ 63 - 1) :
    (GoError.ArgumentError p c).Error =
      "argument " ++ toString (p + 1).toNat ++ ", " ++ c.Error ∧
    (GoError.RetVarError p c).Error =
      "return variable " ++ toString (p + 1).toNat ++ ", " ++ c.Error ∧
    (GoError.ArgumentError p c).Error ≠ (GoError.RetVarError p c).Error := by
  obtain ⟨n, rfl⟩ := Int.eq_ofNat_of_zero_le h0
  have hn : n + 1 < 2 ^ 63 := by omega
  have e : ((n : Int) + 1).toNat = n + 1 := by omega
  have h1 : (GoError.ArgumentError (n : Int) c).Error =
      "argument " ++ toString (n + 1) ++ ", " ++ c.Error := by
    simp only [GoError.Error, toString_position n hn]
  have h2 : (GoError.RetVarError (n : Int) c).Error =
      "return variable " ++ toString (n + 1) ++ ", " ++ c.Error := by
    simp only [GoError.Error, toString_position n hn]
  refine ⟨by rw [e]; exact h1, by rw [e]; exact h2, ?_⟩
  rw [h1, h2]
  intro h
  have h3 := congrArg (fun s : String => s.data.head?) h
  simp only [String.append_assoc, String.data_append] at h3
  simp at h3

/-- C22, witness: position 1, as in "argument 2, int cannot be converted to
string" of `TestWrap_endpointInputCastingError`. -/
theorem position_message_witness :
    (GoError.ArgumentError 1 (.errorf "int cannot be converted to string")).Error =
      "argument 2, int cannot be converted to string" ∧
    (GoError.RetVarError 1 (.errorf "int cannot be converted to string")).Error =
      "return variable 2, int cannot be converted to string" :=
  have h := position_message 1 (.errorf "int cannot be converted to string") (by decide)
    (by decide)
  ⟨h.1, h.2.1⟩

/-! ### The tuple returned after a failed output conversion -/

theorem handleErrorSlot_set {types : List GoType} {pos : Nat} {out : List Value}
    (err : GoError) (hl : out.length = types.length) (hpos : types[pos]? = some errorType) :
    ∃ out1, initOutLoop pos 0 types out = .ret out1 ∧ out1.length = out.length ∧
      handleErrorSlot types pos err out =
        .ret (out1.set pos (.iface errorType (some (err.dynType, .err err)))) := by
  obtain ⟨out1, h1, hl1, -⟩ := initOutLoop_spec pos types 0 out (by omega)
  have hp : pos < types.length := by
    rcases List.getElem?_eq_some.mp hpos with ⟨h, -⟩
    exact h
  have hp1 : pos < out1.length := by omega
  refine ⟨out1, h1, hl1, ?_⟩
  unfold handleErrorSlot
  simp only [h1, hpos, Convert_error_value, hp1, if_true]

/-- C26: when the target has an error slot, at position `pos`, and the
conversion of the source's results fails at position `j`, the adapted function
`WrapAs` stores returns a tuple of the target's length which holds, at every
position before `j` other than `pos`, the value the converter of the position
made of the source's result; the zero value of the target type at every
position from `j` on other than `pos`; and the `RetVarError` of position `j` at
`pos`.  The error is written last: the tuple is the slice the initialising loop
of the handler leaves, with position `pos` set to the error, whatever the
source returned there. -/
theorem adapted_output_failure_tuple (srcFuncType destFuncValType : FuncType)
    (srcFn cur : Option GoFunc) (ptyp : String) (inC outC : List Converter)
    (hin : srcFuncType.ins.length = destFuncValType.ins.length)
    (hout : srcFuncType.outs.length = destFuncValType.outs.length)
    (hvar : srcFuncType.variadic = destFuncValType.variadic)
    (hC : MapConverter destFuncValType.ins srcFuncType.ins = .ret (inC, none))
    (hO : MapConverter srcFuncType.outs destFuncValType.outs = .ret (outC, none))
    (pos : Nat) (hslot : findLastError destFuncValType.outs = (pos : Int))
    (herr : destFuncValType.outs[pos]? = some errorType)
    (args innerIn innerOut o : List Value) (j : Nat) (c : GoError)
    (hpipe : makePipe inC args = .ret (innerIn, none))
    (hcall : Call srcFuncType srcFn innerIn = .ret innerOut)
    (htyped : hasTypes srcFuncType.outs innerOut = true)
    (hfail : makePipe outC innerOut = .ret (o, some (.convertError (j : Int) c))) :
    WrapAs (.func srcFuncType srcFn) (.ptr ptyp (some (.funcVar destFuncValType cur))) =
        .ret (none, .ptr ptyp (some (.funcVar destFuncValType
          (some (adapted srcFuncType srcFn destFuncValType inC outC))))) ∧
    ∃ (tuple out1 : List Value),
      adapted srcFuncType srcFn destFuncValType inC outC args = .ret tuple ∧
      tuple.length = destFuncValType.outs.length ∧
      (∀ (q : Nat) (x : Value), q ≠ pos → q < j → innerOut[q]? = some x →
        ∃ (conv : Converter) (y : Value), outC[q]? = some conv ∧ conv x = .ret (y, none) ∧
          tuple[q]? = some y) ∧
      (∀ (q : Nat) (typ : GoType), q ≠ pos → j ≤ q → destFuncValType.outs[q]? = some typ →
        tuple[q]? = some (Zero typ)) ∧
      tuple[pos]? = some (.iface errorType
        (some ((GoError.RetVarError (j : Int) c).dynType, .err (.RetVarError (j : Int) c)))) ∧
      initOutLoop pos 0 destFuncValType.outs o = .ret out1 ∧
      tuple = out1.set pos (.iface errorType
        (some ((GoError.RetVarError (j : Int) c).dynType, .err (.RetVarError (j : Int) c)))) := by
  refine ⟨WrapAs_adapted srcFn cur ptyp hin hout hvar hC hO, ?_⟩
  have hty := hasTypes_typed htyped
  have hlio : innerOut.length = srcFuncType.outs.length := hty.length_eq.symm
  obtain ⟨v, D, tin, tout, hv, -, -, -, -, hlo, hoj, hoafter, hobefore⟩ :=
    pipe_failure_cause hout hO hfail
  have hjv : j < innerOut.length := by
    rcases List.getElem?_eq_some.mp hv with ⟨h, -⟩
    exact h
  have hlen0 : o.length = destFuncValType.outs.length := by omega
  obtain ⟨out2, h2, hl2, hat, hother⟩ :=
    handleErrorSlot_spec (GoError.RetVarError (j : Int) c) hlen0 herr
  obtain ⟨out1, hinit, -, hset⟩ :=
    handleErrorSlot_set (GoError.RetVarError (j : Int) c) hlen0 herr
  have hsame : out2 = out1.set pos (.iface errorType
      (some ((GoError.RetVarError (j : Int) c).dynType, .err (.RetVarError (j : Int) c)))) := by
    rw [h2] at hset
    exact Result.ret.inj hset
  have hbefore : ∀ (q : Nat) (x : Value), q < j → innerOut[q]? = some x →
      ∃ (y : Value) (J1 : GoType), destFuncValType.outs[q]? = some J1 ∧
        (∃ conv : Converter, outC[q]? = some conv ∧ conv x = .ret (y, none)) ∧
        o[q]? = some y ∧ y.Type = .ret J1 := by
    intro q x hq hx
    have hq1 : q < srcFuncType.outs.length := by omega
    have hq2 : q < destFuncValType.outs.length := by omega
    obtain ⟨y, hy0, hy1, hy2⟩ := hobefore q x srcFuncType.outs[q] destFuncValType.outs[q] hq hx
      (List.getElem?_eq_getElem hq1) (List.getElem?_eq_getElem hq2)
    have hxt : x.Type = .ret srcFuncType.outs[q] :=
      getElem?_of_forall₂ hty q _ x (List.getElem?_eq_getElem hq1) hx
    exact ⟨y, _, List.getElem?_eq_getElem hq2, ⟨_, hy0, hy1⟩, hy2, slot_type hxt hy1⟩
  have hkeep : ∀ (q : Nat) (x : Value), q ≠ pos → q < j → innerOut[q]? = some x →
      ∃ (conv : Converter) (y : Value), outC[q]? = some conv ∧ conv x = .ret (y, none) ∧
        out2[q]? = some y := by
    intro q x hqp hq hx
    obtain ⟨y, J1, hJ, ⟨conv, hcv, hy1⟩, hy2, hy3⟩ := hbefore q x hq hx
    refine ⟨conv, y, hcv, hy1, ?_⟩
    rw [hother q J1 y hqp hJ hy2]
    simp [Value.IsValid_of_Type hy3]
  have hzero : ∀ (q : Nat) (typ : GoType), q ≠ pos → j ≤ q →
      destFuncValType.outs[q]? = some typ → out2[q]? = some (Zero typ) := by
    intro q typ hqp hq ht
    have hq1 : q < innerOut.length := by
      rcases List.getElem?_eq_some.mp ht with ⟨h, -⟩
      omega
    have hoq : o[q]? = some Value.invalid := by
      rcases Nat.eq_or_lt_of_le hq with h | h
      · subst h
        exact hoj hjv
      · exact hoafter q h hq1
    have h := hother q typ Value.invalid hqp ht hoq
    simpa [Value.IsValid] using h
  have htuple : List.Forall₂ (fun t w => Value.Type w = .ret t) destFuncValType.outs out2 := by
    apply forall₂_of_getElem?
    · rw [hl2, hlen0]
    · intro q t w ht hw
      by_cases hq : q = pos
      · subst hq
        rw [hat] at hw
        rw [herr] at ht
        simp only [Option.some.injEq] at hw ht
        subst hw
        subst ht
        rfl
      · by_cases hqj : q < j
        · have hq1 : q < innerOut.length := by omega
          obtain ⟨y, J1, hJ, -, hy2, hy3⟩ :=
            hbefore q innerOut[q] hqj (List.getElem?_eq_getElem hq1)
          rw [hother q J1 y hq hJ hy2] at hw
          rw [hJ] at ht
          simp only [Value.IsValid_of_Type hy3, if_true, Option.some.injEq] at hw ht
          subst hw
          subst ht
          exact hy3
        · rw [hzero q t hq (by omega) ht] at hw
          simp only [Option.some.injEq] at hw
          subst hw
          exact Zero_Type t
  have hw : wrapped srcFuncType srcFn (makePipe inC) (makePipe outC)
      (selectHandler destFuncValType.outs) srcFuncType.outs.length args = .ret out2 := by
    rw [wrapped_out_fail hpipe hcall hfail, selectHandler_slot hslot]
    exact h2
  exact ⟨out2, out1, MakeFunc_typed hw htuple, by rw [hl2, hlen0], hkeep, hzero, hat, hinit,
    hsame⟩

/-- C26, witness: a source `func() (error, interface{})` that returns the error
"source failed" and the number 123, adapted to `func() (error, string)`.  The
conversion fails at position 1; the error slot, position 0, holds the
`RetVarError` and not the error of the source, and position 1 holds "". -/
theorem adapted_output_failure_tuple_witness :
    MapConverter errFirstSrcType.outs errFirstDestType.outs =
        .ret ([directMap, reverseConvertToItfType .string], none) ∧
      findLastError errFirstDestType.outs = ((0 : Nat) : Int) ∧
    ∃ tuple, adapted errFirstSrcType (some errFirstFunc) errFirstDestType []
          [directMap, reverseConvertToItfType .string] [] = .ret tuple ∧
      tuple[0]? = some (.iface errorType
        (some ((GoError.RetVarError 1 (.errorf "int cannot be converted to string")).dynType,
          .err (.RetVarError 1 (.errorf "int cannot be converted to string"))))) ∧
      tuple[1]? = some (Zero .string) := by
  refine ⟨rfl, rfl, ?_⟩
  obtain ⟨-, tuple, out1, h1, -, -, h4, h5, -⟩ :=
    adapted_output_failure_tuple errFirstSrcType errFirstDestType (some errFirstFunc) none
      "*func() (error, string)" [] [directMap, reverseConvertToItfType .string]
      rfl rfl rfl rfl rfl 0 rfl rfl [] []
      [.iface errorType
          (some ((GoError.errorf "source failed").dynType, .err (.errorf "source failed"))),
        .iface emptyInterface (some (.int, .int 123))]
      [.iface errorType
          (some ((GoError.errorf "source failed").dynType, .err (.errorf "source failed"))),
        .invalid] 1
      (.errorf "int cannot be converted to string") rfl rfl rfl rfl
  exact ⟨tuple, h1, h5, h4 1 .string (by decide) (by decide) rfl⟩

/-! ### The message about `destFunc` -/

/-- C27 (does not hold): `WrapAs(lengthFunc, &randVar)` with `randVar` an `int`,
and `WrapAs(lengthFunc, endpoint)` with the function `endpoint` passed by
value, fail with "destFunc needs to be a pointer of function variable, got "
followed by `func(context.Context, string) (int, error)`, the type of
`srcFunc`; the types of `destFunc` are `*int` and
`func(context.Context, interface {}) (interface {}, error)`. -/
theorem WrapAs_dest_message_names_source :
    WrapAs (.func lengthFuncType (some lengthFunc)) (.ptr "*int" (some (.otherVar "int"))) =
      .ret (some (.errorf ("destFunc needs to be a pointer of function variable, got " ++
          "func(context.Context, string) (int, error)")),
        .ptr "*int" (some (.otherVar "int"))) ∧
    (Iface.ptr "*int" (some (.otherVar "int"))).typeString = "*int" ∧
    WrapAs (.func lengthFuncType (some lengthFunc)) (.func endpointType none) =
      .ret (some (.errorf ("destFunc needs to be a pointer of function variable, got " ++
          "func(context.Context, string) (int, error)")),
        .func endpointType none) ∧
    (Iface.func endpointType none).typeString =
      "func(context.Context, interface {}) (interface {}, error)" ∧
    (Iface.func lengthFuncType (some lengthFunc)).typeString =
      "func(context.Context, string) (int, error)" :=
  ⟨rfl, rfl, rfl, rfl, rfl⟩

/-! ### Variadic functions -/

/-- C28 (does not hold): `WrapAs` adapts the variadic `lengthArray`, of type
`func(context.Context, ...string) (int, error)`, to a variable of the same
type without error.  The source, called with the names as its variadic slice,
returns their number; the adapted function, which receives the same names as
one slice, panics with "reflect: cannot use []string as type string in Call"
for every list of names: `Call` takes the slice for one variadic element. -/
theorem adapted_variadic_panics :
    WrapAs (.func lengthArrayType (some lengthArray))
        (.ptr "*func(context.Context, ...string) (int, error)"
          (some (.funcVar lengthArrayType none))) =
      .ret (none, .ptr "*func(context.Context, ...string) (int, error)"
        (some (.funcVar lengthArrayType
          (some (adapted lengthArrayType (some lengthArray) lengthArrayType
            [directMap, directMap] [directMap, directMap]))))) ∧
    (∀ names : List Data,
      hasTypes lengthArrayType.ins
          [.iface contextType none, .concrete (.slice .string) (.slice names)] = true ∧
      lengthArray [.iface contextType none, .concrete (.slice .string) (.slice names)] =
        .ret [.concrete .int (.int names.length), .iface errorType none] ∧
      adapted lengthArrayType (some lengthArray) lengthArrayType [directMap, directMap]
          [directMap, directMap]
          [.iface contextType none, .concrete (.slice .string) (.slice names)] =
        .panic (.runtime "reflect: cannot use []string as type string in Call")) ∧
    Call lengthArrayType (some lengthArray)
        [.iface contextType none, .concrete .string (.str "a"), .concrete .string (.str "b")] =
      .ret [.concrete .int (.int 2), .iface errorType none] := by
  refine ⟨?_, fun names => ⟨rfl, rfl, rfl⟩, rfl⟩
  exact WrapAs_adapted (some lengthArray) none _ rfl rfl rfl rfl rfl

/-- C16 (does not hold): the source `func(string, ...string) (int, error)` and the
target `func(interface{}, ...string) (interface{}, error)` meet the conditions:
the first target parameter is an interface which `string` implements, the
variadic parameters agree, and the target results are interfaces the source's
results are assignable to.  `WrapAs` adapts the pair without error.  On a call
whose first argument holds a string and whose variadic slice holds any names,
the source returns normally on the payloads, and the adapted function panics
with "reflect: cannot use []string as type string in Call": `Call` takes the
variadic slice for one variadic element. -/
theorem adapted_interface_variadic_panics :
    GoType.Kind emptyInterface = .Interface ∧ implements emptyInterface .string = true ∧
    GoType.int.AssignableTo emptyInterface = true ∧
    errorType.AssignableTo errorType = true ∧
    WrapAs (.func nameCountType (some nameCount))
        (.ptr "*func(interface {}, ...string) (interface {}, error)"
          (some (.funcVar anyNameCountType none))) =
      .ret (none, .ptr "*func(interface {}, ...string) (interface {}, error)"
        (some (.funcVar anyNameCountType
          (some (adapted nameCountType (some nameCount) anyNameCountType
            [reverseConvertToItfType .string, directMap]
            [convertToType emptyInterface, directMap]))))) ∧
    (∀ (name : String) (more : List Data),
      carries emptyInterface .string (.iface emptyInterface (some (.string, .str name)))
        (.concrete .string (.str name)) ∧
      hasTypes anyNameCountType.ins
          [.iface emptyInterface (some (.string, .str name)),
            .concrete (.slice .string) (.slice more)] = true ∧
      nameCount [.concrete .string (.str name), .concrete (.slice .string) (.slice more)] =
        .ret [.concrete .int (.int (name.utf8ByteSize + more.length)),
          .iface errorType none] ∧
      adapted nameCountType (some nameCount) anyNameCountType
          [reverseConvertToItfType .string, directMap]
          [convertToType emptyInterface, directMap]
          [.iface emptyInterface (some (.string, .str name)),
            .concrete (.slice .string) (.slice more)] =
        .panic (.runtime "reflect: cannot use []string as type string in Call")) := by
  refine ⟨rfl, by decide, by decide, by decide, ?_, fun name more => ⟨?_, rfl, rfl, rfl⟩⟩
  · exact WrapAs_adapted (some nameCount) none _ rfl rfl rfl rfl rfl
  · exact Or.inr ⟨rfl, by decide, by decide, _, rfl, rfl⟩

end funconv

/-! ## Theorems on middleware.go -/

namespace midway

theorem ChainLoop_eq {H : Type} (mwares : List (Middleware H)) :
    ∀ (k : Nat) (hk : k ≤ mwares.length) (inner : H),
      ChainLoop mwares k hk inner = (mwares.take k).foldr (fun m acc => m acc) inner := by
  intro k
  induction k with
  | zero =>
    intro hk inner
    rfl
  | succ k ih =>
    intro hk inner
    have hlt : k < mwares.length := hk
    rw [ChainLoop, ih, List.take_succ, List.foldr_append]
    simp [List.getElem?_eq_getElem hlt]

theorem Chain_eq_foldr {H : Type} (mwares : List (Middleware H)) (h : H) :
    Chain mwares h = mwares.foldr (fun m acc => m acc) h := by
  unfold Chain
  rw [ChainLoop_eq, List.take_length]

theorem foldr_before {σ : Type} (k : Handler σ) :
    ∀ (acts : List (σ → σ)) (s : σ),
      (acts.map before).foldr (fun m acc => m acc) k s = k (acts.foldl (fun st act => act st) s) := by
  intro acts
  induction acts with
  | nil =>
    intro s
    rfl
  | cons a rest ih =>
    intro s
    simp only [List.map_cons, List.foldr_cons, List.foldl_cons, before]
    exact ih (a s)

/-- C23: for every list of middlewares and every handler `h`, `Chain` of the
list applied to `h` is the first middleware applied to the second applied to
... the last applied to `h`: the right fold of application over the list, so
`Chain` of `m` and a list is `m` around `Chain` of the list, and `Chain` of no
middleware returns `h` itself.  When each middleware performs an action and
then serves with the handler it wraps, serving a request performs the actions
in the listed order and then serves with `h`. -/
theorem Chain_composes {H σ : Type} (mwares : List (Middleware H)) (m : Middleware H) (h : H)
    (acts : List (σ → σ)) (k : Handler σ) (s : σ) :
    Chain mwares h = mwares.foldr (fun mw inner => mw inner) h ∧
    Chain (m :: mwares) h = m (Chain mwares h) ∧
    Chain ([] : List (Middleware H)) h = h ∧
    Chain (acts.map before) k s = k (acts.foldl (fun st act => act st) s) := by
  refine ⟨Chain_eq_foldr mwares h, ?_, rfl, ?_⟩
  · rw [Chain_eq_foldr, Chain_eq_foldr, List.foldr_cons]
  · rw [Chain_eq_foldr]
    exact foldr_before k acts s

end midway

/-! ## Theorems on cacher/response_cache.go -/

namespace cacher

theorem parseTime_fresh (timeParse : String → String → Option Time) (now : Time)
    (header : Header) (name : String) :
    (match parseTime timeParse header name with
      | .ok expires => expires.After now
      | .error _ => false) = true ↔ fresh timeParse now header name := by
  unfold parseTime fresh
  by_cases h : header.Get name = ""
  · simp [h]
  · simp only [h, if_false, ne_eq, not_false_eq_true, true_and]
    cases hp : parseRFC2612 timeParse (header.Get name) with
    | error e => simp
    | ok t => simp [Time.After]

/-- C24: `Valid` returns true exactly when the X-Grace-Expires header of the
cache is present, parses as a time and that time is after the clock reading of
its check, or the Expires header is present, parses as a time and that time is
after the clock reading of its check.  In particular a fresh X-Grace-Expires
makes the cache valid whatever its Expires header is. -/
theorem Valid_iff (timeParse : String → String → Option Time) (nowGrace nowExpires : Time)
    (cache : Option ResponseCache) :
    (Valid timeParse nowGrace nowExpires cache = true ↔
      fresh timeParse nowGrace (ResponseCache.Header cache) "X-Grace-Expires" ∨
        fresh timeParse nowExpires (ResponseCache.Header cache) "Expires") ∧
    (fresh timeParse nowGrace (ResponseCache.Header cache) "X-Grace-Expires" →
      Valid timeParse nowGrace nowExpires cache = true) := by
  have key : Valid timeParse nowGrace nowExpires cache = true ↔
      fresh timeParse nowGrace (ResponseCache.Header cache) "X-Grace-Expires" ∨
        fresh timeParse nowExpires (ResponseCache.Header cache) "Expires" := by
    rw [← parseTime_fresh, ← parseTime_fresh]
    unfold Valid
    simp only []
    split <;> simp_all
  exact ⟨key, fun h => key.mpr (Or.inl h)⟩

/-- C24, witness: the cases of `TestResponseCache_Validate`. -/
theorem Valid_iff_witness :
    Valid parseReference ⟨1136214200⟩ ⟨1136214200⟩
      (cacheWith ["Mon, 02 Jan 2006 15:03:05 GMT"] ["Mon, 02 Jan 2006 15:04:05 GMT"]) = true ∧
    Valid parseReference ⟨1136214200⟩ ⟨1136214200⟩
      (cacheWith ["Mon, 02 Jan 2006 15:03:05 GMT"] []) = false ∧
    Valid parseReference ⟨1136214200⟩ ⟨1136214200⟩
      (cacheWith ["Mon, 02 Jan 2006 15:04:05 GMT"] []) = true ∧
    Valid parseReference ⟨1136214200⟩ ⟨1136214200⟩ (cacheWith ["some non-sense"] []) = false ∧
    Valid parseReference ⟨1136214200⟩ ⟨1136214200⟩ (cacheWith [] ["some non-sense"]) = false ∧
    Valid parseReference ⟨1136214200⟩ ⟨1136214200⟩ (cacheWith [] []) = false ∧
    Valid parseReference ⟨1136214200⟩ ⟨1136214200⟩ none = false :=
  ⟨(Valid_iff parseReference ⟨1136214200⟩ ⟨1136214200⟩
      (cacheWith ["Mon, 02 Jan 2006 15:03:05 GMT"] ["Mon, 02 Jan 2006 15:04:05 GMT"])).2
      ⟨by decide, ⟨1136214245⟩, rfl, by decide⟩,
    rfl, rfl, rfl, rfl, rfl, rfl⟩

end cacher

/-! ## Theorems on db/gormcontext/context.go -/

namespace gormcontext

theorem Value_of_not_mem (k : Key) :
    ∀ ctx : Context, k ∉ ctx.keys → ctx.Value k = .nil := by
  intro ctx
  induction ctx with
  | background =>
    intro _
    rfl
  | valueCtx parent key val ih =>
    intro h
    simp only [Context.keys, List.mem_cons, not_or] at h
    have hk : key ≠ k := fun e => h.1 e.symm
    simp only [Context.Value, if_neg hk]
    exact ih h.2
  | cancelCtx parent ih =>
    intro h
    exact ih h

/-- C25: for every context, names `n` and `m` and handle `db`, `GetNamedDB` of
name `m` on `WithNamedDB(ctx, n, db)` is `db` when `m` equals `n` and is
`GetNamedDB(ctx, m)` when `m` differs from `n`; on a context that holds no value
under the key of the name, `GetNamedDB` returns nil. -/
theorem GetNamedDB_WithNamedDB (ctx : Context) (n m : String) (db : DB) :
    (m = n → GetNamedDB (WithNamedDB ctx n db) m = db) ∧
    (m ≠ n → GetNamedDB (WithNamedDB ctx n db) m = GetNamedDB ctx m) ∧
    (Key.contextStrKey m ∉ ctx.keys → GetNamedDB ctx m = none) := by
  refine ⟨?_, ?_, ?_⟩
  · intro h
    subst h
    simp [GetNamedDB, WithNamedDB, WithValue, Context.Value]
  · intro h
    have hk : Key.contextStrKey n ≠ Key.contextStrKey m := fun e => h (Key.contextStrKey.inj e).symm
    simp only [GetNamedDB, WithNamedDB, WithValue, Context.Value, if_neg hk]
  · intro h
    simp only [GetNamedDB, Value_of_not_mem _ ctx h]

/-- C25, witness: the lookups of `TestWithNamedDB`: two handles stored under
"name 1" and "name 2" are found under their names, and the empty context has no
handle under "name 1". -/
theorem GetNamedDB_WithNamedDB_witness :
    GetNamedDB (WithNamedDB (WithNamedDB .background "name 1" (some 1)) "name 2" (some 2))
      "name 2" = some 2 ∧
    GetNamedDB (WithNamedDB (WithNamedDB .background "name 1" (some 1)) "name 2" (some 2))
      "name 1" = GetNamedDB (WithNamedDB .background "name 1" (some 1)) "name 1" ∧
    GetNamedDB .background "name 1" = none :=
  ⟨(GetNamedDB_WithNamedDB (WithNamedDB .background "name 1" (some 1)) "name 2" "name 2"
      (some 2)).1 rfl,
    (GetNamedDB_WithNamedDB (WithNamedDB .background "name 1" (some 1)) "name 2" "name 1"
      (some 2)).2.1 (by decide),
    (GetNamedDB_WithNamedDB .background "name 1" "name 1" none).2.2 (by simp [Context.keys])⟩

end gormcontext
